import Mathlib

/- Verification of the tic-tac-toe game core (board model, rules engine,
turn handling, minimax search, feature encoding) of the three program
variants.  The board is embedded exactly as in the program: a list of
rows, each row a list of characters, a cell being one of the characters
' ', 'X', 'O'.  The in-place mutation performed by the search is made
explicit by threading the board state through every call, so statements
about the net effect of a call on the caller's board are expressible.
The unbounded recursion of the search is embedded with a fuel parameter;
nine units of fuel always suffice on a 3-by-3 board, and spending more
fuel than there are empty cells is proved to change nothing.  Exhaustive
game values are certified against a precomputed table of the value of
every position, checked once against the recursion equation. -/

namespace TicTacToe

/-- A cell holds the character placed on the board: a space when empty. -/
abbrev Cell := Char

/-- The board of the program: `self.board.c`, a list of three rows. -/
abbrev Board := List (List Cell)

/-- A coordinate pair `(row, col)`. -/
abbrev Pos := Nat × Nat

/-- The fresh board built by `Board.__init__`. -/
def emptyBoard : Board := [[' ', ' ', ' '], [' ', ' ', ' '], [' ', ' ', ' ']]

/-- Reading `board[r][c]`. -/
def getCell (b : Board) (r c : Nat) : Cell :=
  (b.getD r []).getD c ' '

/-- Writing `board[r][c] = v`. -/
def setCell (b : Board) (r c : Nat) (v : Cell) : Board :=
  b.set r ((b.getD r []).set c v)

/-- The row-major enumeration `for r in range(3): for c in range(3)`. -/
def allPositions : List Pos :=
  [(0, 0), (0, 1), (0, 2), (1, 0), (1, 1), (1, 2), (2, 0), (2, 1), (2, 2)]

/-- Well-formedness of a board value: three rows of three cells, every
cell one of the three characters the program stores. -/
def okBoard (b : Board) : Prop :=
  b.length = 3 ∧ ∀ row ∈ b, row.length = 3 ∧ ∀ ch ∈ row, ch = ' ' ∨ ch = 'X' ∨ ch = 'O'

instance (b : Board) : Decidable (okBoard b) := by
  unfold okBoard; infer_instance

/-- `Game.check_winner_static`: scan the three rows, the three columns
and the two diagonals in program order and return the mark of the first
completed line, if any. -/
def check_winner_static (b : Board) : Option Cell :=
  if getCell b 0 0 = getCell b 0 1 ∧ getCell b 0 1 = getCell b 0 2 ∧ getCell b 0 0 ≠ ' ' then
    some (getCell b 0 0)
  else if getCell b 1 0 = getCell b 1 1 ∧ getCell b 1 1 = getCell b 1 2 ∧ getCell b 1 0 ≠ ' ' then
    some (getCell b 1 0)
  else if getCell b 2 0 = getCell b 2 1 ∧ getCell b 2 1 = getCell b 2 2 ∧ getCell b 2 0 ≠ ' ' then
    some (getCell b 2 0)
  else if getCell b 0 0 = getCell b 1 0 ∧ getCell b 1 0 = getCell b 2 0 ∧ getCell b 0 0 ≠ ' ' then
    some (getCell b 0 0)
  else if getCell b 0 1 = getCell b 1 1 ∧ getCell b 1 1 = getCell b 2 1 ∧ getCell b 0 1 ≠ ' ' then
    some (getCell b 0 1)
  else if getCell b 0 2 = getCell b 1 2 ∧ getCell b 1 2 = getCell b 2 2 ∧ getCell b 0 2 ≠ ' ' then
    some (getCell b 0 2)
  else if getCell b 0 0 = getCell b 1 1 ∧ getCell b 1 1 = getCell b 2 2 ∧ getCell b 0 0 ≠ ' ' then
    some (getCell b 0 0)
  else if getCell b 0 2 = getCell b 1 1 ∧ getCell b 1 1 = getCell b 2 0 ∧ getCell b 0 2 ≠ ' ' then
    some (getCell b 0 2)
  else
    none

/-- The draw test inside `Game.minimax`:
`all(cell != " " for row in board for cell in row)`. -/
def boardFull (b : Board) : Bool :=
  b.all fun row => row.all fun cell => cell != ' '

/-- `Game.checkFull`: scan the nine coordinates for an empty cell. -/
def checkFull (b : Board) : Bool :=
  allPositions.all fun p => getCell b p.1 p.2 != ' '

/-- `Game.get_available_moves`: the empty cells in row-major order. -/
def legalMoves (b : Board) : List Pos :=
  allPositions.filter fun p => getCell b p.1 p.2 == ' '

/-- The number of empty cells of a board. -/
def emptyCount (b : Board) : Nat :=
  (legalMoves b).length

/-- The move loop of `Game.minimax`, with the in-place mutation of the
board made explicit: each candidate cell is set to `mark`, the search
recurses on the mutated board, the cell is reset to a space on the board
state the recursion returns, and the running best score is updated when
`better` says the new score beats it. -/
def searchS (rec : Board → Int × Board) (mark : Cell) (better : Int → Int → Bool) :
    List Pos → Board → Int → Int × Board
  | [], b, best => (best, b)
  | p :: ps, b, best =>
    if getCell b p.1 p.2 = ' ' then
      let sb := rec (setCell b p.1 p.2 mark)
      let b2 := setCell sb.2 p.1 p.2 ' '
      searchS rec mark better ps b2 (if better sb.1 best then sb.1 else best)
    else
      searchS rec mark better ps b best

/-- One unfolding of `Game.minimax`: the terminal tests in program
order, then the maximizing loop placing `'O'` or the minimizing loop
placing `'X'`, with the sentinel starting scores -999 and 999. -/
def minimaxGoS (rec : Board → Bool → Int × Board) (b : Board) (is_maximizing : Bool) :
    Int × Board :=
  let winner := check_winner_static b
  if winner = some 'O' then (1, b)
  else if winner = some 'X' then (-1, b)
  else if boardFull b then (0, b)
  else if is_maximizing then
    searchS (fun b1 => rec b1 false) 'O' (fun s best => best < s) allPositions b (-999)
  else
    searchS (fun b1 => rec b1 true) 'X' (fun s best => s < best) allPositions b 999

/-- `Game.minimax`, state passing style: the returned pair is the score
and the state of the (mutated and restored) board after the call.  The
recursion of the program is embedded with a fuel parameter; on fuel 0 a
non-terminal position scores 0, the spec's value for a leaf reached by
depth exhaustion, and such a leaf is never reached when the fuel is at
least the number of empty cells. -/
def minimaxS : Nat → Board → Bool → Int × Board
  | 0 => minimaxGoS fun b _ => (0, b)
  | fuel + 1 => minimaxGoS (minimaxS fuel)

/-- The move loop of `Game.minimax` with the board state dropped: the
board is an unchanging input of every step. -/
def searchV (rec : Board → Int) (mark : Cell) (better : Int → Int → Bool) :
    List Pos → Board → Int → Int
  | [], _, best => best
  | p :: ps, b, best =>
    if getCell b p.1 p.2 = ' ' then
      let s := rec (setCell b p.1 p.2 mark)
      searchV rec mark better ps b (if better s best then s else best)
    else
      searchV rec mark better ps b best

/-- One unfolding of the value computed by `Game.minimax`. -/
def minimaxGo (rec : Board → Bool → Int) (b : Board) (is_maximizing : Bool) : Int :=
  let winner := check_winner_static b
  if winner = some 'O' then 1
  else if winner = some 'X' then -1
  else if boardFull b then 0
  else if is_maximizing then
    searchV (fun b1 => rec b1 false) 'O' (fun s best => best < s) allPositions b (-999)
  else
    searchV (fun b1 => rec b1 true) 'X' (fun s best => s < best) allPositions b 999

/-- The value computed by `Game.minimax`, proved below to be the first
component of `minimaxS`. -/
def minimaxVal : Nat → Board → Bool → Int
  | 0 => minimaxGo fun _ _ => 0
  | fuel + 1 => minimaxGo (minimaxVal fuel)

/-- The candidate loop of `Game.computer_move`, with the in-place
mutation explicit: each empty cell is tried with an `'O'`, scored by
`minimax(b, False)`, reset, and remembered as `best_move` exactly when
its score strictly beats the running `best_score`. -/
def cmLoop : List Pos → Board → Int → Option Pos → Board × Int × Option Pos
  | [], b, best, bm => (b, best, bm)
  | p :: ps, b, best, bm =>
    if getCell b p.1 p.2 = ' ' then
      let sb := minimaxS 9 (setCell b p.1 p.2 'O') false
      let b2 := setCell sb.2 p.1 p.2 ' '
      if best < sb.1 then cmLoop ps b2 sb.1 (some p)
      else cmLoop ps b2 best bm
    else
      cmLoop ps b best bm

/-- `Game.computer_move`: run the candidate loop from the sentinel score
-999 with no move remembered; if a move was remembered, place an `'O'`
there, otherwise leave the board alone.  Returns the board state after
the call and the chosen cell. -/
def computer_moveS (b : Board) : Board × Option Pos :=
  let res := cmLoop allPositions b (-999) none
  match res.2.2 with
  | some p => (setCell res.1 p.1 p.2 'O', some p)
  | none => (res.1, none)

/-! ### The three cell values as an enumeration type -/

/-- The three values a well-formed cell can hold. -/
inductive Mark
  | mx
  | mo
  | me
deriving DecidableEq

/-- The character stored for a mark. -/
def Mark.ch : Mark → Cell
  | mx => 'X'
  | mo => 'O'
  | me => ' '

/-- Build a board from nine marks, row major. -/
def mkB (c1 c2 c3 c4 c5 c6 c7 c8 c9 : Mark) : Board :=
  [[c1.ch, c2.ch, c3.ch], [c4.ch, c5.ch, c6.ch], [c7.ch, c8.ch, c9.ch]]

/-- The character of a mark is never some other character. -/
theorem Mark.ch_valid (x : Mark) : x.ch = ' ' ∨ x.ch = 'X' ∨ x.ch = 'O' := by
  cases x <;> simp [Mark.ch]

theorem Mark.ch_eq_iff (x y : Mark) : x.ch = y.ch ↔ x = y := by
  cases x <;> cases y <;> simp [Mark.ch]

theorem Mark.ch_space_iff (x : Mark) : x.ch = ' ' ↔ x = Mark.me := by
  cases x <;> simp [Mark.ch]

/-- Recover the mark from a valid character. -/
def charMark (c : Cell) : Mark :=
  if c = 'X' then Mark.mx else if c = 'O' then Mark.mo else Mark.me

theorem charMark_ch (c : Cell) (h : c = ' ' ∨ c = 'X' ∨ c = 'O') : (charMark c).ch = c := by
  rcases h with h | h | h <;> subst h <;> rfl

/-- Every well-formed board is built from nine marks. -/
theorem okBoard_mkB_exists (b : Board) (hb : okBoard b) :
    ∃ c1 c2 c3 c4 c5 c6 c7 c8 c9 : Mark, b = mkB c1 c2 c3 c4 c5 c6 c7 c8 c9 := by
  obtain ⟨hlen, hrows⟩ := hb
  obtain ⟨r1, r2, r3, rfl⟩ := List.length_eq_three.1 hlen
  obtain ⟨h1len, h1c⟩ := hrows r1 (by simp)
  obtain ⟨h2len, h2c⟩ := hrows r2 (by simp)
  obtain ⟨h3len, h3c⟩ := hrows r3 (by simp)
  obtain ⟨a1, a2, a3, rfl⟩ := List.length_eq_three.1 h1len
  obtain ⟨a4, a5, a6, rfl⟩ := List.length_eq_three.1 h2len
  obtain ⟨a7, a8, a9, rfl⟩ := List.length_eq_three.1 h3len
  refine ⟨charMark a1, charMark a2, charMark a3, charMark a4, charMark a5, charMark a6,
    charMark a7, charMark a8, charMark a9, ?_⟩
  simp only [mkB]
  rw [charMark_ch a1 (h1c a1 (by simp)), charMark_ch a2 (h1c a2 (by simp)),
    charMark_ch a3 (h1c a3 (by simp)), charMark_ch a4 (h2c a4 (by simp)),
    charMark_ch a5 (h2c a5 (by simp)), charMark_ch a6 (h2c a6 (by simp)),
    charMark_ch a7 (h3c a7 (by simp)), charMark_ch a8 (h3c a8 (by simp)),
    charMark_ch a9 (h3c a9 (by simp))]

theorem okBoard_mkB (c1 c2 c3 c4 c5 c6 c7 c8 c9 : Mark) :
    okBoard (mkB c1 c2 c3 c4 c5 c6 c7 c8 c9) := by
  refine ⟨rfl, ?_⟩
  intro row hrow
  simp only [mkB, List.mem_cons, List.not_mem_nil, or_false] at hrow
  rcases hrow with rfl | rfl | rfl <;>
    exact ⟨rfl, by
      intro ch hch
      simp only [List.mem_cons, List.not_mem_nil, or_false] at hch
      rcases hch with rfl | rfl | rfl <;> apply Mark.ch_valid⟩

/-- Transfer a property proven for all mark-built boards to all
well-formed boards. -/
theorem forall_ok (P : Board → Prop)
    (h : ∀ c1 c2 c3 c4 c5 c6 c7 c8 c9 : Mark, P (mkB c1 c2 c3 c4 c5 c6 c7 c8 c9)) :
    ∀ b, okBoard b → P b := by
  intro b hb
  obtain ⟨c1, c2, c3, c4, c5, c6, c7, c8, c9, rfl⟩ := okBoard_mkB_exists b hb
  exact h c1 c2 c3 c4 c5 c6 c7 c8 c9

/-! ### Encoded boards and the certified value table

A board is encoded as a natural number in base 3, row major: digit
`3 * r + c` is 0 for an empty cell, 1 for an `'X'`, 2 for an `'O'`.
The minimax value of every encoded position, shifted by one into
`{0, 1, 2}`, is stored in two table constants (one per side to move) and
certified below against one unfolding of the search recursion. -/

/-- Base-3 digit weights of the nine cells, row major. -/
def powList : List Nat := [1, 3, 9, 27, 81, 243, 729, 2187, 6561]

/-- Encode a board: 0 empty, 1 `'X'`, 2 `'O'`. -/
def tritOf (c : Cell) : Nat :=
  if c = 'X' then 1 else if c = 'O' then 2 else 0

def encodeB (b : Board) : Nat :=
  tritOf (getCell b 0 0) + 3 * tritOf (getCell b 0 1) + 9 * tritOf (getCell b 0 2) +
  27 * tritOf (getCell b 1 0) + 81 * tritOf (getCell b 1 1) + 243 * tritOf (getCell b 1 2) +
  729 * tritOf (getCell b 2 0) + 2187 * tritOf (getCell b 2 1) + 6561 * tritOf (getCell b 2 2)

/-- The mark completing the line with weights `p1, p2, p3`, 0 if none. -/
def lineN (e p1 p2 p3 : Nat) : Nat :=
  let a := e / p1 % 3
  cond (Nat.beq a 0) 0 (cond ((Nat.beq (e / p2 % 3) a) && (Nat.beq (e / p3 % 3) a)) a 0)

/-- `check_winner_static` on encoded boards: first completed line in the
scan order of the program, 1 for `'X'`, 2 for `'O'`, 0 for none. -/
def winnerN (e : Nat) : Nat :=
  let w1 := lineN e 1 3 9
  cond (!Nat.beq w1 0) w1 <|
  let w2 := lineN e 27 81 243
  cond (!Nat.beq w2 0) w2 <|
  let w3 := lineN e 729 2187 6561
  cond (!Nat.beq w3 0) w3 <|
  let w4 := lineN e 1 27 729
  cond (!Nat.beq w4 0) w4 <|
  let w5 := lineN e 3 81 2187
  cond (!Nat.beq w5 0) w5 <|
  let w6 := lineN e 9 243 6561
  cond (!Nat.beq w6 0) w6 <|
  let w7 := lineN e 1 81 6561
  cond (!Nat.beq w7 0) w7 <|
  let w8 := lineN e 9 81 729
  cond (!Nat.beq w8 0) w8 0

/-- Fullness on encoded boards. -/
def fullN (e : Nat) : Bool :=
  (!Nat.beq (e / 1 % 3) 0) && (!Nat.beq (e / 3 % 3) 0) && (!Nat.beq (e / 9 % 3) 0) &&
  (!Nat.beq (e / 27 % 3) 0) && (!Nat.beq (e / 81 % 3) 0) && (!Nat.beq (e / 243 % 3) 0) &&
  (!Nat.beq (e / 729 % 3) 0) && (!Nat.beq (e / 2187 % 3) 0) && (!Nat.beq (e / 6561 % 3) 0)

/-- The move fold on encoded boards, scores shifted into `Nat`. -/
def searchN (rec : Nat → Nat) (d : Nat) (better : Nat → Nat → Bool) :
    List Nat → Nat → Nat → Nat
  | [], _, best => best
  | pw :: pws, e, best =>
    searchN rec d better pws e
      (cond (Nat.beq (e / pw % 3) 0)
        (let s := rec (e + d * pw)
         cond (better s best) s best)
        best)

/-- One unfolding of minimax on encoded boards with scores shifted by
one (0 first player wins, 1 draw, 2 second player wins); the maximizing
fold starts at 0 and the minimizing fold at 999, which compute the exact
maximum and minimum of the shifted child scores. -/
def goN (rec : Nat → Bool → Nat) (e : Nat) (m : Bool) : Nat :=
  let w := winnerN e
  cond (Nat.beq w 2) 2 <|
  cond (Nat.beq w 1) 0 <|
  cond (fullN e) 1 <|
  cond m
    (searchN (fun e1 => rec e1 false) 2 (fun s best => Nat.blt best s) powList e 0)
    (searchN (fun e1 => rec e1 true) 1 (fun s best => Nat.blt s best) powList e 999)

/-- Certified table of shifted minimax values, first player (X) to move:
two bits per encoded board. -/
def tblX : Nat := 1481555907013185053422309870298786131126150036080777669289482205106549449973116019359060624662512903303151148155431454376029549888976495423200554367701023852933769375579948882371393077817243509155659971465652315794028349327953686224992580384315054802488077337881770665527827099223941712109592995736620711073982371687324194355864397624952768419167865652832083439037230653708123838285917954297577606585051971326137092776003761306735969372497679038725671360636704425405910003469176548315840900015350598921085368663296349312974200770460602121995974978823738085752389499243230297483865484578279991083206436493462759645042191715975668497653755420100684163309715575026050613306168131938879390127532907001841747347488423385604982370422446383968476587167179817242992832841532324380818560446655244083481040124456767883494974526281561712478747693763532759464068881117372267703739511805809299214068994618830896491219077814941151931998762154813449774072478668263546831658563931962762679540420797920423862710726086200367183434119760239031291891382644377991554858500991992876737201158672089495118468291533374419384904700306187430698218545120108419457063575156139590989523679906892180084586114634342027345789362031346088280498450087717289457474000340240845827091654489549622825717869215829761350691841558027604645034335482363530903989650281216547945884272606503530053885291086174187408548631591255672631309859648156116055518827549343159799420370263098726757643980149877633509947136183027054193734313995825425117456183482406952941927875788963745383307693778610431848153373405519289174561030978184473761857087186423527559527095085410071234016840908440113752442344133275853815043471509170072537498809227083658168922282202694397414227198385515662481552942573382187753056905478817330664600839852577440533631482933459864361885817983818738056573598929667348134773077271588755250940885257183821615931154934646412951273778697498805361270526024869948926122603023326245887969599162025789405270238841593165407324797124760158349223314892816726903593758899290587375512498981934643812537466375810098087117432300421717341925646087175915919970394785365442856832341651115350975097664806681762840947744455729096812635342839260628084205584317615210484089418803336671308314816794568176963068661196005647629331283785195914851636203280070206066909586477696020682689909689877246322381332624515030023823026772583639262778949882068027469326032738229902415930882002041971553183305225881902885131240633947485078792631040391530042417656841739733279352005847281769288869484446612305124593203677880967549348860318199882734319100865544173210775424693369668392496835823247275154426206979073934363917951424755458842855166846578327995565950489189206581700024016623809252537872285836241666417476049242072337610418232301747784982409705063832460810564875052009784003347763769231925810692430793064363116564098552581693293884334362163878611594977622371442964124146351995737939713655996477973591761280242530698020023531838412778008156589815970696320007987735186221400879345203679869155192847669250390092957375735329610244571317907417705734333077826186705874885664925946240828951706519596864987253501438143295392746348732038396341277644668734204014749159791556412632275391194465950390213048097021082204554802204596549705104833896479563085618377977978443406565316732087327866165248555000898140044856365121929476780249285249089243629047519932841700764919222446221158452419803611408165091899877995237830178724819913979953795927625172109736599760554531866340414042793331406024099967258839678326058191191659290471441459319611013202165959031661756323613060861716251187866711811459773032707699116541566568086973732909357114418639286344087678229743059540299113736390020338760279445742115856104589670579273201754158512367004998007569064045549322902208200859769017331072942653039370528151725830065011326975223541682703623246690928835846071714921427464306235667059281990858047040265842570523893281533438165554132550332038718413906104939970996361634730789443171648366907017445886680582143067839403691781996362245185386578835818332101090876160032936472794118409944559644237298668966676446224907255506104451401694516875896689404078914382179530110217380617316652654840506590472631863685009758005199905634068800901621671030745126032130089966077846034579028369646683556966803403253627982674920234945682145874548563746959273704448046370829066963093807991462715759859966671030083596915427770481751859179842742920116461162331406002449728656895802902615846767890825597301348070958296387455588750631177919531070359170598781070486470222199735592367696855423107020147317041105401023418898303561795156155523923518759049642023993455807533435540881143677414467680277960183691202174157430189165398511445164749081345799634785507644833612915457369067045386368881026315008264618012624509893885549789203588995184343476346712625865676315230121516930304391578826064104483663720495113558885776487709526586370109738570154751497995029690466149732563432339567122188112790722079996244286045919575647817246949743116325311403074104510342998489123585844535129907097879413007484534408465247815009144666584347032430238601484727537473050956335856465834688775087260461177721969003531696978603512095201541683180104873804097123761351363090477864820002654494910270372310223663379404813291322976675028422363434221247805804719129535967563276820092192159682575630214277219334396289451712307094053030704239475520013891547754435540699076956125210285479823273520593585384727889441593329446241512196078179163113819020929286323599316699304191639934910449039123081850397913290413091742544969510458392372409619057994616379181624136532049811955322015827098925901212584728869599835934668871649097646968387235649480148087630399307510507362665118904990305446129420870308822095702064541945107499382636093803347518270317341996802561367717589227515112446562891233252370882470102411063989438542826140061680754029223915872744110238173687674325921230041940556219664699623629604824286651245747855908299818488336770142127025827951445973042688412523422830900635440003842432227376204868095214153673363024293681788556279762439360461109451038074101893390358728893690278904608741711754271650259246966586820989429623793688421857763722182017161093619231694111786475468539616843855958048039415622003761920412183743165255236661475829783466669406451593821663932829208701525013907650436950193795286869646504239459329333345049635693790962025930763542617793958705579114468641622942782427051705333995887739028685167503137264597544288622541810734706508960186200145160748695584532864469028539858235735837312740307733854837856943858142005973573675703768691068040624980294030470183087826625527800910686897256533752024547900634935822371599057706160963018214634177028657993877519122089289163259189442698208891436376289070552214520998261692231999360621763525533052652408382457385069237714676524798156792354388512727696774283220723357889895987460017613433909984244340647496912848278585374693857421478595684170263512873855927307160832713082511087743159766945899257382849099392057700578213672384777940372518952265227563611636012048971516694252639699848438536583705528184828136503942053332848168280990970565922641746623653588508799459836549924260280690688539852777822454113280271558512104566996610973405429729427973094827588975573658019993358261169534042010585034017196022457527553928474811165505750713780284738106548783650377731742127929102220726887994785973189960706977931868110819298184716029499170925885972221231103947693646220818820716757764142245693502267408601855881962712735911590514847569431528325261614083165328589479996473066137240497420923558751119659767202514867847916745096403500886514195465381309631276106103264344225361990129419242324622070465979785756127453659966825026470724710125037605302558725815651030134445515335970079769450835151449422226960076896115262584221058189260229953905552151774360495300399678499862582396266911856123720606386961167739421745167089922218544543109853044606395828880288065007558136530342354982682760196417040387085880891460624217927289203994844092061640112739054178878962097056497758508736467087326019937221798896209286265005301968615087663850614859977890104419519096857371962013558017420827207125910522777070632696303344294624481435618867250845798929564924200667365468436213989290736011593054474982849338064255806711535559974298735606547088010842744169010992643388035333691186871790836541684445040288532424721996114676492286489794060482070487257658006342541064469161736584316648131853183221902794188302876405042032702390157237107287704877490007857764465430779909924808848978712017391998553794699341773727517058693277442011367303905233995013066402280685117512573198660393486978086013127090580122821402886480021841453835051088014070509573995026393251834113196564221558201076533131482667340746722363606419259393247112721021255329178790398388531936457533149992782188318926951202861662640784838837932870822960048060592624877728830807425594923923585677424585613881855940226804480592866003423752675337806477828158123831228001284157337171784462777035513042103650383185630536780774995303807317899897656719484111084788877148531158899399153401590566535743100157686300650026011678091516548994908175751576939308658816559228019684568061278748357996551904911421907397545455103987803208937729601286090656568250971514062843660922151380073529639939738082726198791239393051059501182702702633226882984740821389087085208501516284716374620621920393881659356952829905638123690141378840170901933611527349200915788159641333114951183927794979786246074390691435040931547829544030871872263964376468450243799180902234727997107472106425786060720173443988220286907700221269253419578498023170954320253308359869701918498777915193812818539719485332906268728647540968153645413357240998753329073023735946465779307170346509281429804284900485488917703642492164963568236413336909035482439526940832857565215293587293340932841858887585684102255953461667440138527849537621969090445454161742524278675002518303581914731656697408487314791906685322500424340360695685126508478100700914373847856590018813369539676827626364490557460371362913400146128564838028801299684507393935953413517180073971609697378558813426069797035777167409278881314414092448360585148603170809141503086301750874223380929845485327398597827801298158461027621343099027534535624107960340323696419769590914229330283321676457834500978282142082177821550584127088549882177445639015290609487040934261698534834595274264289758964798936549878610573142931921510654473397250831485017085222261133651739406211337756149101128832141807711523351102281685977629587291736461411755105688659643245066160217564089289358012661061761715589234139751009849273740609441093207874486923863352009569938456590414013898997354256032283866529095093082348321336047465536320282439826986435780940748534734793461297777879502276943733868570986828139135410620225461766895502230516904907012413565810653299953497521647522435653114813983302790770076169381693668382687713586080087738598240804309756018139987377257728483903600989052293147517945842391915377062471834884388617972664240319368184929713440042485993192007341883088658931603752269074222686240598716255309433672482745848377476627812557900441490839398511011931029855721279697672591366404904274926123754264065011649199514823570328602225822249512821490707315594614196335846660569697767762315341136918828793417204016809099618338785007912458599628608584259369282018101820173046366472066761411106650287385152280022060913397970726035605973601355444614148674095430336897742344578235778760820001332729608648930944790004677848984450302331581535911029498382932565865095787912813236733698300182847254756977162145020752574522245086658909709313894668273523400781747560861858361308034595746641438363593219422978049995661308258321079362641623288899195137466436714217813422850652240510089403422466895788231002748749922567588755165046510609

/-- Certified table of shifted minimax values, second player (O) to
move. -/
def tblO : Nat := 1481555907013185053422309870298786131126150036080777669289482205106549449973116019359060624662512903303151148155431454376029549888976495423200554367701023852933769375579948882371393077817243509155659971465652315794028349327953686224992580384315054802488077337881770665527827099223941712109592995736620711073982371687324194355864397624952768419167865652832083439037230653708123838285917954297577606585051971326137092776003761306735969372497679038725671360636704425435173150503275630008283811332844364389601085729966748705929805923318890490175961953382343810232323288630956941389618529179611703618845029038297407845467951240988350240543874949065591084328886133984372697647634138986188959313890853591672634027573948328743330044173177917258921620295112881773848639853158799840571651465367058615021926931567385272870507214145531756278561619967256108603178191551151897052584118397904795539853106498586504583972111913772503696454157152165077838641524186168375009446787730964426538804266912678850239938084688285252783706774569011747431237487050287935681906429833534387053768955833563109466930132456988236390867436443003681633634448240978864968642762910335611366956905357721437767804516570590670316330552687500561314159641298676186066006184969885025329862348499312750882488658732276284601160772946577107146409905665340865309938228491116409090896739371588324314477475866673403177388740260327426045491229765012145516655967281098813401827291839318157817283631479584024879614974979046081149407278774694277952244607156014366930666218346448955919846606309371688524090090035357293618255893749926175561724404921075620036667845672451871790615005441967465634345915857375263371484733302022063570508892229410230734838382640046166039014740239688790792157504319515526991007306204022332549212200850252589913726818023270067371313900752941584055443335291273380436295467666246636296547988579705089983959458395230781123496928197983103689345332287988678552408769999376830145685425951169124572389033626917633150900276239647856051139328465120649052712288968203175368739847024007518210972475606383982756134550116006627934228656657309696701057095422050589210850569985983048111619541467717165281897615752424230565711890141866076619603963821425116086871069655101630389293742364840035493614285683921376273442977357454946532078971670070389175101452812460964234751019068495830178876456228469900608768701793185379606819003633313981515647778295502482131784551014333379830357119384263475773988605472415178827030198181148517212254187185895923900550834590443772633438724568859871252557902671164782532708149065516318203132893264589379365226178453723757920772125402304120131832895205655765778252823239696846653403371433737054351674404583785844311701121188232321220249391355064226089458799252328752462989337185966297978873720537729805959525896823192725519145231089164605686938219982885550231734800792447175290878701290035813456523592689991788813190764175286605667443237326288173785001003815274695967970875927473225347034149495667190444650062151452216980296209488557686160157675252010619970774798878314856749648946284040457454958343277687205893179304886099735664422567465383121691766042962102985784137269484728614220047982986034330665562724468463575110110956873719093751986711784185746617054728039656604202719161062136550305475644046557183397352745087441838999290517969743114788286599426323887701569969804055993345842871124288301719059941498844424391563587668817394472852003593796099104099631257332318515227048767584606832795519389733840028467139949623635729369556534125155188249464286513646846517964186358628030733057687050684791975454608462788791430585921892110443459426992308995602837244176198209279138005793130003640104897368506916980646917994522390144549834277119144456949436443112717956336861017330947230034576523026612273408785966317133067128826347293060983507238286782154574725927751895693909888732169901654237246115923248538496082043559313074984974617297602766892424883980223889585185334788702682461910160926370676272984783204181806599416668376409716510868729871358243595271408153288980799801673701735540423528655087675837546589061175970039658959313291467314999140008169081978857521816104122611046881842387846441303723624125617205905851512612278924233561062167013702019501085972247764283855685130463048573928047314000642380393982071512620027142924655190231102451197245244534381558208141584173083718407618318202298824187851479759916732307205690776660230497019662012380060945803468026989508137507278030488103963986126243716634257721914900590180923471444262200082183823538656028701977524988050608118657534490977112992409937340000563820949584179993106014375379666704018742718474661080360002432519240858211281310375566782830482740815581647959400367942187813855796645255558035769145502042109460533674204904768666346036604272952541950290071434571615041425895046903601262570329761854300025616324213885538130204046261948920949766627031200263831480957683515168029593635021669416568093039933996594516359906620799052202389986057590341885775185767789750662217361674328357295762010049401747797202236159100519045979162916908860122292696487956449034683027399427231466048113021944551639217310651947557556454449055226306091184408332666384043124590442881674094235921503298084952631513334987422211620820338056663466527742462576629148848423928788009574239953987774601127444012445488105402205668744067113463588157487086673129191858788382985796314951461145903357947559666447353977081206315240269041172578909846900239225140365437196083930301727755543889737642072389107080283555570013989420120447477606455180727461869906916468495188852724149316404301232661839962234329908992328800877678744189156211751563333041455200069108098161004343673308244289506556402941054317289369303929379526786719226308334416722379341420361256926147465037284854536235001622549528509182013685392831260603480750621912789138443844348881755933219901864237738996648179089401518171365473289898542032253559125322179863370120253959669853821231371491338727345792026996349240497126335793517437581578989331553271846625446355271475196471512240200233043039728671529961606296462500267008324498521969259235007229202156670882379438009225197470091331255144800464772333184670206291347957480941016557899755502941005985654123895879828000185068120463119385396392006344821692666536956607264245345263588247257191126954348972453865313762214960479978410571011456650696469938281047996348645291978665945904279693555242471823630983796874321201636875360794914986141860164386814712219610426298696492176753576632855774931082874328617620191611503272519940125901449798370956569426883770720191593542143075651913558033461360723129539500634994752190352162800078558191339997588827727795702982042968758654876311917812629697365098728629648558346151769604922190067509290430954836122360932071982923983247133832326417346306063050339886228029524089486135261225230202273793866752525740810339317533313117709999618211820329125312157679010395261715994030133821681945900377251979680203611759402535898292229200586651716905058532922313890788137236369991915326489499280790089365358998053356425192947930924387571304367986807841966302643039889390904168518836432109272196825138119748082328296785182740526264474337238953358563090323219976439202352183160409010775608281532386328211707934034406969558252287750492033850116764518641751933786551769679944183992260792940271832587832460005529797063641505615061087602760629329669903920356592254733091100920873919958274491634383580648202623873122095927769209582553037046623885946832640278024478577949048781502286573005858335023133618986210017969739072243846078913825508095099393333674860702258722683760576877493527297928876464277309332440205766240774920832388675376173331436472293329020715852344303012608145177897046938244408733287450448640201738407871951099054123555623149792228978898427845050184819019612219591177873573579231331524306460326088741266260956991967186834017727213110827561502445433232370761115883075962332935052014869882260832006447279703871465258690879125719205584328425844254811385486548529869735196074460735792509438323723947040033158039952539940309487363290246719936230080645995122616063258039982695971144097639616409630837440868394284266188598445546887549355363138639131402608090618459737547753085675925828346322016143484750600252026167790563619987058664971710713518946917194449888694616222091632038748703846137663603175588678922853576578781832072477051764002339170227986468712636525331007293232247027470753468956398202512630205554795020108606306983043118557304464532687644156488089122180210840336296785174212879139702558539112439165921265286801814192417631386156674996879921847667700449621419922301299213653237348423101493205783616574844710744935746532744907767712077514678741459871534848501158398630770300365862041302979667207376180097908726880804772277985011699290180069177161378192579940174466925956086051005569135834259947009637584404240390514399152046153892631891861693120916683618702532101962658492654298389599330970394476896613770108810232486680526952705259357429172871322368104223758130132980615422251031792569002301923516452226101156920314888755466253477356696829786503882850849853755624942436869001498846830861077923853325773192994146235023565403446327154489587231150361833329745736069434246023962060924936496342237155230203086087373664216741495406065306987384591802676338524651457707806440132542608445697559752645199408476568057307894981863242240550089840574834408562153539596061860961515524236816390597399854528030482790086315329353738514733935664546841535700048961450708980117633108397573671186112411909706391940949830190986576135194370419718809075907433722733987135707482075392764779803392725386879525663131757859317210690157462641643109091285111591002238745683874689468376847555558803499314027540533602857346911867674787661219867296268142415021769865121571310938505775292643864227875246852064513107024641758833019418555304938916659007429934152003889349935473705810899825742739854875110286101745390820153517199048029939746616840639240476315938008280113456142719242718587459299549627453385749894134090364665307315249857474279353509611630730166781130121349526111598627614455095657405877913229131377767605469669763199969507051762749366151358196979905671639536059075832959699791372398109652510430134029054748196909057868843382009051757385468658727634496777237238817164685053715040129176296926968404053184872282647723542868568240955811099681478266169848746332600926197887105569235042735934577767159470534709244507151169718404975686399682794463500744075764159573356863986850017170315759302364760448447478417370728568869544445371520974269393888068916343012187703408983418365097330171110389762738787828456771893752238348123254965028683764117398960085260117500952946839739800838993514345937956687190351671379767167505836412888552440188561973033379647107884735634678906856682584127702648416207380495894063979168011336069534409619955276544344718390100594733859411534338247868676295928491724273502926541356533604503453602816943962703146461245636416891144240262790980372364017070854121132326820986985776228038074512170896352979457021670999194487138535928009203010461616933986525689827457636710600641268213056836798887616859037137570017087640226433540686987287395522095549147692108136510854561803360004527428654414892299707593128468802469093525354430433482738811961777064696942478567643628976729161947441820312533469691700465489096313112241049889696187165940590699512756196192921747795052180768467940378491066533215068289032617256795624488488980178611970186089937129165647443017118067364469597594622558203708777251391420754368167795125725917885500307495143369817964337336920763796115829994038239846819888209191030815573295631500256300481553496258680407522366296382963905877648535296746537919979929759660048995867988264176920014788964181684513233346960014763971309256931258113622641335069060357236315307797965536497806214428698765413

/-- Table entry of encoded board `e` with `m` telling whose turn it is
(`true` for the maximizing second player). -/
def lookB (e : Nat) (m : Bool) : Nat :=
  cond m (tblO >>> (2 * e) % 4) (tblX >>> (2 * e) % 4)

/-- `lookB` with primitive calls spelled out, for fast kernel reduction. -/
def lookF (e : Nat) (m : Bool) : Nat :=
  cond m (Nat.mod (Nat.shiftRight tblO (Nat.mul 2 e)) 4)
         (Nat.mod (Nat.shiftRight tblX (Nat.mul 2 e)) 4)

/-- `goN` with its subterms unfolded to primitive calls and the nine
digits shared, for fast kernel reduction; definitionally equal to `goN`. -/
def goF (rec : Nat → Bool → Nat) (e : Nat) (m : Bool) : Nat :=
  let t0 := Nat.mod (Nat.div e 1) 3
  let t1 := Nat.mod (Nat.div e 3) 3
  let t2 := Nat.mod (Nat.div e 9) 3
  let t3 := Nat.mod (Nat.div e 27) 3
  let t4 := Nat.mod (Nat.div e 81) 3
  let t5 := Nat.mod (Nat.div e 243) 3
  let t6 := Nat.mod (Nat.div e 729) 3
  let t7 := Nat.mod (Nat.div e 2187) 3
  let t8 := Nat.mod (Nat.div e 6561) 3
  let w :=
    let w1 := cond (Nat.beq t0 0) 0 (cond ((Nat.beq t1 t0) && (Nat.beq t2 t0)) t0 0)
    cond (!Nat.beq w1 0) w1 <|
    let w2 := cond (Nat.beq t3 0) 0 (cond ((Nat.beq t4 t3) && (Nat.beq t5 t3)) t3 0)
    cond (!Nat.beq w2 0) w2 <|
    let w3 := cond (Nat.beq t6 0) 0 (cond ((Nat.beq t7 t6) && (Nat.beq t8 t6)) t6 0)
    cond (!Nat.beq w3 0) w3 <|
    let w4 := cond (Nat.beq t0 0) 0 (cond ((Nat.beq t3 t0) && (Nat.beq t6 t0)) t0 0)
    cond (!Nat.beq w4 0) w4 <|
    let w5 := cond (Nat.beq t1 0) 0 (cond ((Nat.beq t4 t1) && (Nat.beq t7 t1)) t1 0)
    cond (!Nat.beq w5 0) w5 <|
    let w6 := cond (Nat.beq t2 0) 0 (cond ((Nat.beq t5 t2) && (Nat.beq t8 t2)) t2 0)
    cond (!Nat.beq w6 0) w6 <|
    let w7 := cond (Nat.beq t0 0) 0 (cond ((Nat.beq t4 t0) && (Nat.beq t8 t0)) t0 0)
    cond (!Nat.beq w7 0) w7 <|
    let w8 := cond (Nat.beq t2 0) 0 (cond ((Nat.beq t4 t2) && (Nat.beq t6 t2)) t2 0)
    cond (!Nat.beq w8 0) w8 0
  cond (Nat.beq w 2) 2 <|
  cond (Nat.beq w 1) 0 <|
  cond ((!Nat.beq t0 0) && (!Nat.beq t1 0) && (!Nat.beq t2 0) && (!Nat.beq t3 0) &&
        (!Nat.beq t4 0) && (!Nat.beq t5 0) && (!Nat.beq t6 0) && (!Nat.beq t7 0) &&
        (!Nat.beq t8 0)) 1 <|
  cond m
    (let b0 := (0 : Nat)
     let b1 := cond (Nat.beq t0 0) (let s := rec (Nat.add e (Nat.mul 2 1)) false; cond (Nat.blt b0 s) s b0) b0
     let b2 := cond (Nat.beq t1 0) (let s := rec (Nat.add e (Nat.mul 2 3)) false; cond (Nat.blt b1 s) s b1) b1
     let b3 := cond (Nat.beq t2 0) (let s := rec (Nat.add e (Nat.mul 2 9)) false; cond (Nat.blt b2 s) s b2) b2
     let b4 := cond (Nat.beq t3 0) (let s := rec (Nat.add e (Nat.mul 2 27)) false; cond (Nat.blt b3 s) s b3) b3
     let b5 := cond (Nat.beq t4 0) (let s := rec (Nat.add e (Nat.mul 2 81)) false; cond (Nat.blt b4 s) s b4) b4
     let b6 := cond (Nat.beq t5 0) (let s := rec (Nat.add e (Nat.mul 2 243)) false; cond (Nat.blt b5 s) s b5) b5
     let b7 := cond (Nat.beq t6 0) (let s := rec (Nat.add e (Nat.mul 2 729)) false; cond (Nat.blt b6 s) s b6) b6
     let b8 := cond (Nat.beq t7 0) (let s := rec (Nat.add e (Nat.mul 2 2187)) false; cond (Nat.blt b7 s) s b7) b7
     let b9 := cond (Nat.beq t8 0) (let s := rec (Nat.add e (Nat.mul 2 6561)) false; cond (Nat.blt b8 s) s b8) b8
     b9)
    (let b0 := (999 : Nat)
     let b1 := cond (Nat.beq t0 0) (let s := rec (Nat.add e (Nat.mul 1 1)) true; cond (Nat.blt s b0) s b0) b0
     let b2 := cond (Nat.beq t1 0) (let s := rec (Nat.add e (Nat.mul 1 3)) true; cond (Nat.blt s b1) s b1) b1
     let b3 := cond (Nat.beq t2 0) (let s := rec (Nat.add e (Nat.mul 1 9)) true; cond (Nat.blt s b2) s b2) b2
     let b4 := cond (Nat.beq t3 0) (let s := rec (Nat.add e (Nat.mul 1 27)) true; cond (Nat.blt s b3) s b3) b3
     let b5 := cond (Nat.beq t4 0) (let s := rec (Nat.add e (Nat.mul 1 81)) true; cond (Nat.blt s b4) s b4) b4
     let b6 := cond (Nat.beq t5 0) (let s := rec (Nat.add e (Nat.mul 1 243)) true; cond (Nat.blt s b5) s b5) b5
     let b7 := cond (Nat.beq t6 0) (let s := rec (Nat.add e (Nat.mul 1 729)) true; cond (Nat.blt s b6) s b6) b6
     let b8 := cond (Nat.beq t7 0) (let s := rec (Nat.add e (Nat.mul 1 2187)) true; cond (Nat.blt s b7) s b7) b7
     let b9 := cond (Nat.beq t8 0) (let s := rec (Nat.add e (Nat.mul 1 6561)) true; cond (Nat.blt s b8) s b8) b8
     b9)

theorem lookF_eq : lookF = lookB := rfl

theorem goF_eq : goF = goN := rfl

/-- One table entry agrees with one unfolding of the recursion. -/
def entryF (e : Nat) : Bool :=
  (Nat.beq (goF lookF e true) (lookF e true)) && (Nat.beq (goF lookF e false) (lookF e false))

def checkInner (base : Nat) : Nat → Bool
  | 0 => true
  | n + 1 => entryF (base + n) && checkInner base n

def checkOuter : Nat → Bool
  | 0 => true
  | n + 1 => checkInner (243 * n) 243 && checkOuter n

theorem chkSeg0 : checkInner (243 * 0) 243 = true := by decide!

theorem chkSeg1 : checkInner (243 * 1) 243 = true := by decide!

theorem chkSeg2 : checkInner (243 * 2) 243 = true := by decide!

theorem chkSeg3 : checkInner (243 * 3) 243 = true := by decide!

theorem chkSeg4 : checkInner (243 * 4) 243 = true := by decide!

theorem chkSeg5 : checkInner (243 * 5) 243 = true := by decide!

theorem chkSeg6 : checkInner (243 * 6) 243 = true := by decide!

theorem chkSeg7 : checkInner (243 * 7) 243 = true := by decide!

theorem chkSeg8 : checkInner (243 * 8) 243 = true := by decide!

theorem chkSeg9 : checkInner (243 * 9) 243 = true := by decide!

theorem chkSeg10 : checkInner (243 * 10) 243 = true := by decide!

theorem chkSeg11 : checkInner (243 * 11) 243 = true := by decide!

theorem chkSeg12 : checkInner (243 * 12) 243 = true := by decide!

theorem chkSeg13 : checkInner (243 * 13) 243 = true := by decide!

theorem chkSeg14 : checkInner (243 * 14) 243 = true := by decide!

theorem chkSeg15 : checkInner (243 * 15) 243 = true := by decide!

theorem chkSeg16 : checkInner (243 * 16) 243 = true := by decide!

theorem chkSeg17 : checkInner (243 * 17) 243 = true := by decide!

theorem chkSeg18 : checkInner (243 * 18) 243 = true := by decide!

theorem chkSeg19 : checkInner (243 * 19) 243 = true := by decide!

theorem chkSeg20 : checkInner (243 * 20) 243 = true := by decide!

theorem chkSeg21 : checkInner (243 * 21) 243 = true := by decide!

theorem chkSeg22 : checkInner (243 * 22) 243 = true := by decide!

theorem chkSeg23 : checkInner (243 * 23) 243 = true := by decide!

theorem chkSeg24 : checkInner (243 * 24) 243 = true := by decide!

theorem chkSeg25 : checkInner (243 * 25) 243 = true := by decide!

theorem chkSeg26 : checkInner (243 * 26) 243 = true := by decide!

theorem chkSeg27 : checkInner (243 * 27) 243 = true := by decide!

theorem chkSeg28 : checkInner (243 * 28) 243 = true := by decide!

theorem chkSeg29 : checkInner (243 * 29) 243 = true := by decide!

theorem chkSeg30 : checkInner (243 * 30) 243 = true := by decide!

theorem chkSeg31 : checkInner (243 * 31) 243 = true := by decide!

theorem chkSeg32 : checkInner (243 * 32) 243 = true := by decide!

theorem chkSeg33 : checkInner (243 * 33) 243 = true := by decide!

theorem chkSeg34 : checkInner (243 * 34) 243 = true := by decide!

theorem chkSeg35 : checkInner (243 * 35) 243 = true := by decide!

theorem chkSeg36 : checkInner (243 * 36) 243 = true := by decide!

theorem chkSeg37 : checkInner (243 * 37) 243 = true := by decide!

theorem chkSeg38 : checkInner (243 * 38) 243 = true := by decide!

theorem chkSeg39 : checkInner (243 * 39) 243 = true := by decide!

theorem chkSeg40 : checkInner (243 * 40) 243 = true := by decide!

theorem chkSeg41 : checkInner (243 * 41) 243 = true := by decide!

theorem chkSeg42 : checkInner (243 * 42) 243 = true := by decide!

theorem chkSeg43 : checkInner (243 * 43) 243 = true := by decide!

theorem chkSeg44 : checkInner (243 * 44) 243 = true := by decide!

theorem chkSeg45 : checkInner (243 * 45) 243 = true := by decide!

theorem chkSeg46 : checkInner (243 * 46) 243 = true := by decide!

theorem chkSeg47 : checkInner (243 * 47) 243 = true := by decide!

theorem chkSeg48 : checkInner (243 * 48) 243 = true := by decide!

theorem chkSeg49 : checkInner (243 * 49) 243 = true := by decide!

theorem chkSeg50 : checkInner (243 * 50) 243 = true := by decide!

theorem chkSeg51 : checkInner (243 * 51) 243 = true := by decide!

theorem chkSeg52 : checkInner (243 * 52) 243 = true := by decide!

theorem chkSeg53 : checkInner (243 * 53) 243 = true := by decide!

theorem chkSeg54 : checkInner (243 * 54) 243 = true := by decide!

theorem chkSeg55 : checkInner (243 * 55) 243 = true := by decide!

theorem chkSeg56 : checkInner (243 * 56) 243 = true := by decide!

theorem chkSeg57 : checkInner (243 * 57) 243 = true := by decide!

theorem chkSeg58 : checkInner (243 * 58) 243 = true := by decide!

theorem chkSeg59 : checkInner (243 * 59) 243 = true := by decide!

theorem chkSeg60 : checkInner (243 * 60) 243 = true := by decide!

theorem chkSeg61 : checkInner (243 * 61) 243 = true := by decide!

theorem chkSeg62 : checkInner (243 * 62) 243 = true := by decide!

theorem chkSeg63 : checkInner (243 * 63) 243 = true := by decide!

theorem chkSeg64 : checkInner (243 * 64) 243 = true := by decide!

theorem chkSeg65 : checkInner (243 * 65) 243 = true := by decide!

theorem chkSeg66 : checkInner (243 * 66) 243 = true := by decide!

theorem chkSeg67 : checkInner (243 * 67) 243 = true := by decide!

theorem chkSeg68 : checkInner (243 * 68) 243 = true := by decide!

theorem chkSeg69 : checkInner (243 * 69) 243 = true := by decide!

theorem chkSeg70 : checkInner (243 * 70) 243 = true := by decide!

theorem chkSeg71 : checkInner (243 * 71) 243 = true := by decide!

theorem chkSeg72 : checkInner (243 * 72) 243 = true := by decide!

theorem chkSeg73 : checkInner (243 * 73) 243 = true := by decide!

theorem chkSeg74 : checkInner (243 * 74) 243 = true := by decide!

theorem chkSeg75 : checkInner (243 * 75) 243 = true := by decide!

theorem chkSeg76 : checkInner (243 * 76) 243 = true := by decide!

theorem chkSeg77 : checkInner (243 * 77) 243 = true := by decide!

theorem chkSeg78 : checkInner (243 * 78) 243 = true := by decide!

theorem chkSeg79 : checkInner (243 * 79) 243 = true := by decide!

theorem chkSeg80 : checkInner (243 * 80) 243 = true := by decide!

set_option maxRecDepth 4000 in
theorem check81 : checkOuter 81 = true := by
  show (checkInner (243 * 80) 243 && (checkInner (243 * 79) 243 && (checkInner (243 * 78) 243 && (checkInner (243 * 77) 243 && (checkInner (243 * 76) 243 && (checkInner (243 * 75) 243 && (checkInner (243 * 74) 243 && (checkInner (243 * 73) 243 && (checkInner (243 * 72) 243 && (checkInner (243 * 71) 243 && (checkInner (243 * 70) 243 && (checkInner (243 * 69) 243 && (checkInner (243 * 68) 243 && (checkInner (243 * 67) 243 && (checkInner (243 * 66) 243 && (checkInner (243 * 65) 243 && (checkInner (243 * 64) 243 && (checkInner (243 * 63) 243 && (checkInner (243 * 62) 243 && (checkInner (243 * 61) 243 && (checkInner (243 * 60) 243 && (checkInner (243 * 59) 243 && (checkInner (243 * 58) 243 && (checkInner (243 * 57) 243 && (checkInner (243 * 56) 243 && (checkInner (243 * 55) 243 && (checkInner (243 * 54) 243 && (checkInner (243 * 53) 243 && (checkInner (243 * 52) 243 && (checkInner (243 * 51) 243 && (checkInner (243 * 50) 243 && (checkInner (243 * 49) 243 && (checkInner (243 * 48) 243 && (checkInner (243 * 47) 243 && (checkInner (243 * 46) 243 && (checkInner (243 * 45) 243 && (checkInner (243 * 44) 243 && (checkInner (243 * 43) 243 && (checkInner (243 * 42) 243 && (checkInner (243 * 41) 243 && (checkInner (243 * 40) 243 && (checkInner (243 * 39) 243 && (checkInner (243 * 38) 243 && (checkInner (243 * 37) 243 && (checkInner (243 * 36) 243 && (checkInner (243 * 35) 243 && (checkInner (243 * 34) 243 && (checkInner (243 * 33) 243 && (checkInner (243 * 32) 243 && (checkInner (243 * 31) 243 && (checkInner (243 * 30) 243 && (checkInner (243 * 29) 243 && (checkInner (243 * 28) 243 && (checkInner (243 * 27) 243 && (checkInner (243 * 26) 243 && (checkInner (243 * 25) 243 && (checkInner (243 * 24) 243 && (checkInner (243 * 23) 243 && (checkInner (243 * 22) 243 && (checkInner (243 * 21) 243 && (checkInner (243 * 20) 243 && (checkInner (243 * 19) 243 && (checkInner (243 * 18) 243 && (checkInner (243 * 17) 243 && (checkInner (243 * 16) 243 && (checkInner (243 * 15) 243 && (checkInner (243 * 14) 243 && (checkInner (243 * 13) 243 && (checkInner (243 * 12) 243 && (checkInner (243 * 11) 243 && (checkInner (243 * 10) 243 && (checkInner (243 * 9) 243 && (checkInner (243 * 8) 243 && (checkInner (243 * 7) 243 && (checkInner (243 * 6) 243 && (checkInner (243 * 5) 243 && (checkInner (243 * 4) 243 && (checkInner (243 * 3) 243 && (checkInner (243 * 2) 243 && (checkInner (243 * 1) 243 && (checkInner (243 * 0) 243 && (true)))))))))))))))))))))))))))))))))))))))))))))))))))))))))))))))))))))))))))))))))) = true
  rw [chkSeg80, chkSeg79, chkSeg78, chkSeg77, chkSeg76, chkSeg75, chkSeg74, chkSeg73, chkSeg72, chkSeg71, chkSeg70, chkSeg69, chkSeg68, chkSeg67, chkSeg66, chkSeg65, chkSeg64, chkSeg63, chkSeg62, chkSeg61, chkSeg60, chkSeg59, chkSeg58, chkSeg57, chkSeg56, chkSeg55, chkSeg54, chkSeg53, chkSeg52, chkSeg51, chkSeg50, chkSeg49, chkSeg48, chkSeg47, chkSeg46, chkSeg45, chkSeg44, chkSeg43, chkSeg42, chkSeg41, chkSeg40, chkSeg39, chkSeg38, chkSeg37, chkSeg36, chkSeg35, chkSeg34, chkSeg33, chkSeg32, chkSeg31, chkSeg30, chkSeg29, chkSeg28, chkSeg27, chkSeg26, chkSeg25, chkSeg24, chkSeg23, chkSeg22, chkSeg21, chkSeg20, chkSeg19, chkSeg18, chkSeg17, chkSeg16, chkSeg15, chkSeg14, chkSeg13, chkSeg12, chkSeg11, chkSeg10, chkSeg9, chkSeg8, chkSeg7, chkSeg6, chkSeg5, chkSeg4, chkSeg3, chkSeg2, chkSeg1, chkSeg0]
  rfl

theorem checkInner_spec (base : Nat) :
    ∀ n, checkInner base n = true → ∀ k, k < n → entryF (base + k) = true := by
  intro n
  induction n with
  | zero => intro _ k hk; omega
  | succ n ih =>
    intro h k hk
    simp only [checkInner, Bool.and_eq_true] at h
    rcases Nat.lt_succ_iff_lt_or_eq.1 hk with h2 | rfl
    · exact ih h.2 k h2
    · exact h.1

theorem checkOuter_spec :
    ∀ n, checkOuter n = true → ∀ k, k < n → checkInner (243 * k) 243 = true := by
  intro n
  induction n with
  | zero => intro _ k hk; omega
  | succ n ih =>
    intro h k hk
    simp only [checkOuter, Bool.and_eq_true] at h
    rcases Nat.lt_succ_iff_lt_or_eq.1 hk with h2 | rfl
    · exact ih h.2 k h2
    · exact h.1

theorem entryF_all (e : Nat) (he : e < 19683) : entryF e = true := by
  have h81 : e / 243 < 81 := by omega
  have h243 : e % 243 < 243 := Nat.mod_lt _ (by omega)
  have h1 := checkOuter_spec 81 check81 (e / 243) h81
  have h2 := checkInner_spec (243 * (e / 243)) 243 h1 (e % 243) h243
  have h3 : 243 * (e / 243) + e % 243 = e := by omega
  rwa [h3] at h2

/-- Every table entry satisfies the recursion equation of the encoded
minimax step. -/
theorem tbl_consistent (e : Nat) (he : e < 19683) (m : Bool) :
    goN lookB e m = lookB e m := by
  have h := entryF_all e he
  simp only [entryF, Bool.and_eq_true] at h
  cases m
  · have h2 := h.2
    rw [goF_eq, lookF_eq] at h2
    exact Nat.eq_of_beq_eq_true h2
  · have h2 := h.1
    rw [goF_eq, lookF_eq] at h2
    exact Nat.eq_of_beq_eq_true h2

/-! ### Enumeration of all well-formed boards through the nine marks -/

/-- The base-3 digit a mark encodes to. -/
def tritM : Mark → Nat
  | .mx => 1
  | .mo => 2
  | .me => 0

/-- `encodeB` on a mark-built board, as a formula in the nine digits. -/
def encM (c1 c2 c3 c4 c5 c6 c7 c8 c9 : Mark) : Nat :=
  tritM c1 + 3 * tritM c2 + 9 * tritM c3 + 27 * tritM c4 + 81 * tritM c5 + 243 * tritM c6 +
  729 * tritM c7 + 2187 * tritM c8 + 6561 * tritM c9

theorem tritOf_ch (x : Mark) : tritOf x.ch = tritM x := by
  cases x <;> rfl

theorem tritM_le (x : Mark) : tritM x ≤ 2 := by
  cases x <;> simp [tritM]

theorem tritM_eq_zero_iff (x : Mark) : tritM x = 0 ↔ x = Mark.me := by
  cases x <;> simp [tritM]

theorem getCell_mk1 (c1 c2 c3 c4 c5 c6 c7 c8 c9 : Mark) :
    getCell (mkB c1 c2 c3 c4 c5 c6 c7 c8 c9) 0 0 = c1.ch := rfl

theorem getCell_mk2 (c1 c2 c3 c4 c5 c6 c7 c8 c9 : Mark) :
    getCell (mkB c1 c2 c3 c4 c5 c6 c7 c8 c9) 0 1 = c2.ch := rfl

theorem getCell_mk3 (c1 c2 c3 c4 c5 c6 c7 c8 c9 : Mark) :
    getCell (mkB c1 c2 c3 c4 c5 c6 c7 c8 c9) 0 2 = c3.ch := rfl

theorem getCell_mk4 (c1 c2 c3 c4 c5 c6 c7 c8 c9 : Mark) :
    getCell (mkB c1 c2 c3 c4 c5 c6 c7 c8 c9) 1 0 = c4.ch := rfl

theorem getCell_mk5 (c1 c2 c3 c4 c5 c6 c7 c8 c9 : Mark) :
    getCell (mkB c1 c2 c3 c4 c5 c6 c7 c8 c9) 1 1 = c5.ch := rfl

theorem getCell_mk6 (c1 c2 c3 c4 c5 c6 c7 c8 c9 : Mark) :
    getCell (mkB c1 c2 c3 c4 c5 c6 c7 c8 c9) 1 2 = c6.ch := rfl

theorem getCell_mk7 (c1 c2 c3 c4 c5 c6 c7 c8 c9 : Mark) :
    getCell (mkB c1 c2 c3 c4 c5 c6 c7 c8 c9) 2 0 = c7.ch := rfl

theorem getCell_mk8 (c1 c2 c3 c4 c5 c6 c7 c8 c9 : Mark) :
    getCell (mkB c1 c2 c3 c4 c5 c6 c7 c8 c9) 2 1 = c8.ch := rfl

theorem getCell_mk9 (c1 c2 c3 c4 c5 c6 c7 c8 c9 : Mark) :
    getCell (mkB c1 c2 c3 c4 c5 c6 c7 c8 c9) 2 2 = c9.ch := rfl

theorem encodeB_mkB (c1 c2 c3 c4 c5 c6 c7 c8 c9 : Mark) :
    encodeB (mkB c1 c2 c3 c4 c5 c6 c7 c8 c9) = encM c1 c2 c3 c4 c5 c6 c7 c8 c9 := by
  simp only [encodeB, getCell_mk1, getCell_mk2, getCell_mk3, getCell_mk4, getCell_mk5,
    getCell_mk6, getCell_mk7, getCell_mk8, getCell_mk9, tritOf_ch]
  rfl

/-- Check a boolean property of three-valued cells on all values. -/
def allM (f : Mark → Bool) : Bool :=
  f Mark.mx && f Mark.mo && f Mark.me

theorem allM_spec {f : Mark → Bool} (h : allM f = true) : ∀ x, f x = true := by
  intro x
  simp only [allM, Bool.and_eq_true] at h
  cases x
  · exact h.1.1
  · exact h.1.2
  · exact h.2

/-- Check a boolean property of a board on all 19683 mark assignments. -/
def all9 (P : Mark → Mark → Mark → Mark → Mark → Mark → Mark → Mark → Mark → Bool) : Bool :=
  allM fun c1 => allM fun c2 => allM fun c3 => allM fun c4 => allM fun c5 =>
  allM fun c6 => allM fun c7 => allM fun c8 => allM fun c9 => P c1 c2 c3 c4 c5 c6 c7 c8 c9

theorem all9_spec {P} (h : all9 P = true) :
    ∀ c1 c2 c3 c4 c5 c6 c7 c8 c9, P c1 c2 c3 c4 c5 c6 c7 c8 c9 = true :=
  fun c1 c2 c3 c4 c5 c6 c7 c8 c9 =>
    allM_spec (allM_spec (allM_spec (allM_spec (allM_spec (allM_spec (allM_spec (allM_spec
      (allM_spec h c1) c2) c3) c4) c5) c6) c7) c8) c9


/-- The winner scan on a mark-built board, at mark level, as the numeric
code of the winning mark. -/
def cwsN (c1 c2 c3 c4 c5 c6 c7 c8 c9 : Mark) : Nat :=
  if c1 = c2 ∧ c2 = c3 ∧ ¬c1 = Mark.me then tritM c1
  else if c4 = c5 ∧ c5 = c6 ∧ ¬c4 = Mark.me then tritM c4
  else if c7 = c8 ∧ c8 = c9 ∧ ¬c7 = Mark.me then tritM c7
  else if c1 = c4 ∧ c4 = c7 ∧ ¬c1 = Mark.me then tritM c1
  else if c2 = c5 ∧ c5 = c8 ∧ ¬c2 = Mark.me then tritM c2
  else if c3 = c6 ∧ c6 = c9 ∧ ¬c3 = Mark.me then tritM c3
  else if c1 = c5 ∧ c5 = c9 ∧ ¬c1 = Mark.me then tritM c1
  else if c3 = c5 ∧ c5 = c7 ∧ ¬c3 = Mark.me then tritM c3
  else 0

/-- Numeric reading of the winner scan result. -/
def cwsCode : Option Cell → Nat
  | some c => if c = 'X' then 1 else if c = 'O' then 2 else 0
  | none => 0

theorem cwsCode_ch (x : Mark) : cwsCode (some x.ch) = tritM x := by
  cases x <;> rfl

theorem cws_code_mkB (c1 c2 c3 c4 c5 c6 c7 c8 c9 : Mark) :
    cwsCode (check_winner_static (mkB c1 c2 c3 c4 c5 c6 c7 c8 c9)) =
      cwsN c1 c2 c3 c4 c5 c6 c7 c8 c9 := by
  simp only [check_winner_static, getCell_mk1, getCell_mk2, getCell_mk3, getCell_mk4,
    getCell_mk5, getCell_mk6, getCell_mk7, getCell_mk8, getCell_mk9, ne_eq,
    Mark.ch_eq_iff, Mark.ch_space_iff, apply_ite cwsCode, cwsCode_ch, cwsN]
  rfl

/-- Check a boolean property of the last seven marks on all 2187
assignments. -/
def all7 (P : Mark → Mark → Mark → Mark → Mark → Mark → Mark → Bool) : Bool :=
  allM fun c3 => allM fun c4 => allM fun c5 => allM fun c6 => allM fun c7 =>
  allM fun c8 => allM fun c9 => P c3 c4 c5 c6 c7 c8 c9

/-- Agreement bit of the encoded winner scan with the mark-level scan
on one board. -/
def wchk (c1 c2 c3 c4 c5 c6 c7 c8 c9 : Mark) : Bool :=
  Nat.beq (winnerN (encM c1 c2 c3 c4 c5 c6 c7 c8 c9)) (cwsN c1 c2 c3 c4 c5 c6 c7 c8 c9)

set_option maxRecDepth 2000 in
theorem wchk_1 : all7 (wchk Mark.mx Mark.mx) = true := by decide!

set_option maxRecDepth 2000 in
theorem wchk_2 : all7 (wchk Mark.mx Mark.mo) = true := by decide!

set_option maxRecDepth 2000 in
theorem wchk_3 : all7 (wchk Mark.mx Mark.me) = true := by decide!

set_option maxRecDepth 2000 in
theorem wchk_4 : all7 (wchk Mark.mo Mark.mx) = true := by decide!

set_option maxRecDepth 2000 in
theorem wchk_5 : all7 (wchk Mark.mo Mark.mo) = true := by decide!

set_option maxRecDepth 2000 in
theorem wchk_6 : all7 (wchk Mark.mo Mark.me) = true := by decide!

set_option maxRecDepth 2000 in
theorem wchk_7 : all7 (wchk Mark.me Mark.mx) = true := by decide!

set_option maxRecDepth 2000 in
theorem wchk_8 : all7 (wchk Mark.me Mark.mo) = true := by decide!

set_option maxRecDepth 2000 in
theorem wchk_9 : all7 (wchk Mark.me Mark.me) = true := by decide!

theorem winnerN_cwsN_check : all9 wchk = true := by
  show ((((all7 (wchk Mark.mx Mark.mx) && all7 (wchk Mark.mx Mark.mo)) && all7 (wchk Mark.mx Mark.me)) && ((all7 (wchk Mark.mo Mark.mx) && all7 (wchk Mark.mo Mark.mo)) && all7 (wchk Mark.mo Mark.me))) && ((all7 (wchk Mark.me Mark.mx) && all7 (wchk Mark.me Mark.mo)) && all7 (wchk Mark.me Mark.me))) = true
  rw [wchk_1, wchk_2, wchk_3, wchk_4, wchk_5, wchk_6, wchk_7, wchk_8, wchk_9]
  rfl

/-- The encoded winner scan computes the code of the program's winner
scan on every mark-built board. -/
theorem winnerN_encM (c1 c2 c3 c4 c5 c6 c7 c8 c9 : Mark) :
    winnerN (encM c1 c2 c3 c4 c5 c6 c7 c8 c9) = cwsN c1 c2 c3 c4 c5 c6 c7 c8 c9 :=
  Nat.eq_of_beq_eq_true (all9_spec winnerN_cwsN_check c1 c2 c3 c4 c5 c6 c7 c8 c9)

theorem encM_digits (c1 c2 c3 c4 c5 c6 c7 c8 c9 : Mark) :
    encM c1 c2 c3 c4 c5 c6 c7 c8 c9 / 1 % 3 = tritM c1 ∧
    encM c1 c2 c3 c4 c5 c6 c7 c8 c9 / 3 % 3 = tritM c2 ∧
    encM c1 c2 c3 c4 c5 c6 c7 c8 c9 / 9 % 3 = tritM c3 ∧
    encM c1 c2 c3 c4 c5 c6 c7 c8 c9 / 27 % 3 = tritM c4 ∧
    encM c1 c2 c3 c4 c5 c6 c7 c8 c9 / 81 % 3 = tritM c5 ∧
    encM c1 c2 c3 c4 c5 c6 c7 c8 c9 / 243 % 3 = tritM c6 ∧
    encM c1 c2 c3 c4 c5 c6 c7 c8 c9 / 729 % 3 = tritM c7 ∧
    encM c1 c2 c3 c4 c5 c6 c7 c8 c9 / 2187 % 3 = tritM c8 ∧
    encM c1 c2 c3 c4 c5 c6 c7 c8 c9 / 6561 % 3 = tritM c9 := by
  have h1 := tritM_le c1
  have h2 := tritM_le c2
  have h3 := tritM_le c3
  have h4 := tritM_le c4
  have h5 := tritM_le c5
  have h6 := tritM_le c6
  have h7 := tritM_le c7
  have h8 := tritM_le c8
  have h9 := tritM_le c9
  unfold encM
  omega

theorem encM_lt (c1 c2 c3 c4 c5 c6 c7 c8 c9 : Mark) :
    encM c1 c2 c3 c4 c5 c6 c7 c8 c9 < 19683 := by
  have h1 := tritM_le c1
  have h2 := tritM_le c2
  have h3 := tritM_le c3
  have h4 := tritM_le c4
  have h5 := tritM_le c5
  have h6 := tritM_le c6
  have h7 := tritM_le c7
  have h8 := tritM_le c8
  have h9 := tritM_le c9
  unfold encM
  omega

/-- No empty cell among the nine marks. -/
def noEmptyM (c1 c2 c3 c4 c5 c6 c7 c8 c9 : Mark) : Prop :=
  ¬c1 = Mark.me ∧ ¬c2 = Mark.me ∧ ¬c3 = Mark.me ∧ ¬c4 = Mark.me ∧ ¬c5 = Mark.me ∧
  ¬c6 = Mark.me ∧ ¬c7 = Mark.me ∧ ¬c8 = Mark.me ∧ ¬c9 = Mark.me

theorem boardFull_mkB (c1 c2 c3 c4 c5 c6 c7 c8 c9 : Mark) :
    boardFull (mkB c1 c2 c3 c4 c5 c6 c7 c8 c9) = true ↔
      noEmptyM c1 c2 c3 c4 c5 c6 c7 c8 c9 := by
  simp [boardFull, mkB, noEmptyM, Mark.ch_space_iff, and_assoc]

theorem checkFull_mkB (c1 c2 c3 c4 c5 c6 c7 c8 c9 : Mark) :
    checkFull (mkB c1 c2 c3 c4 c5 c6 c7 c8 c9) = true ↔
      noEmptyM c1 c2 c3 c4 c5 c6 c7 c8 c9 := by
  simp [checkFull, allPositions, getCell_mk1, getCell_mk2, getCell_mk3, getCell_mk4,
    getCell_mk5, getCell_mk6, getCell_mk7, getCell_mk8, getCell_mk9, noEmptyM,
    Mark.ch_space_iff, and_assoc]

theorem beq_tritM_false (x : Mark) : Nat.beq (tritM x) 0 = false ↔ ¬x = Mark.me := by
  cases x <;> decide

theorem fullN_encM (c1 c2 c3 c4 c5 c6 c7 c8 c9 : Mark) :
    fullN (encM c1 c2 c3 c4 c5 c6 c7 c8 c9) = true ↔
      noEmptyM c1 c2 c3 c4 c5 c6 c7 c8 c9 := by
  obtain ⟨d1, d2, d3, d4, d5, d6, d7, d8, d9⟩ := encM_digits c1 c2 c3 c4 c5 c6 c7 c8 c9
  simp only [fullN, d1, d2, d3, d4, d5, d6, d7, d8, d9, Bool.and_eq_true]
  simp [noEmptyM, beq_tritM_false, and_assoc]



/-- The nine positions of `allPositions` paired with their base-3 digit
weights, in row-major order. -/
def posPow : List (Pos × Nat) :=
  [((0, 0), 1), ((0, 1), 3), ((0, 2), 9), ((1, 0), 27), ((1, 1), 81), ((1, 2), 243),
   ((2, 0), 729), ((2, 1), 2187), ((2, 2), 6561)]

theorem posPow_fst : posPow.map Prod.fst = allPositions := rfl

theorem posPow_snd : posPow.map Prod.snd = powList := rfl

/-- 1 for an empty cell, 0 otherwise. -/
def cntM (x : Mark) : Nat := if x = Mark.me then 1 else 0

/-- `emptyCount` on a mark-built board. -/
def ecM (c1 c2 c3 c4 c5 c6 c7 c8 c9 : Mark) : Nat :=
  cntM c1 + cntM c2 + cntM c3 + cntM c4 + cntM c5 + cntM c6 + cntM c7 + cntM c8 + cntM c9

theorem cntM_zero_iff (x : Mark) : cntM x = 0 ↔ ¬x = Mark.me := by
  cases x <;> simp [cntM]

theorem cntM_le (x : Mark) : cntM x ≤ 1 := by
  cases x <;> simp [cntM]

theorem ch_beq_space (x : Mark) : (Mark.ch x == ' ') = decide (x = Mark.me) := by
  cases x <;> rfl

theorem length_ite_cons {α : Type} (g : Prop) [Decidable g] (a : α) (l : List α) :
    (if g then a :: l else l).length = (if g then 1 else 0) + l.length := by
  split
  · simp [Nat.add_comm]
  · simp

theorem emptyCount_mkB (c1 c2 c3 c4 c5 c6 c7 c8 c9 : Mark) :
    emptyCount (mkB c1 c2 c3 c4 c5 c6 c7 c8 c9) = ecM c1 c2 c3 c4 c5 c6 c7 c8 c9 := by
  simp only [emptyCount, legalMoves, allPositions, List.filter_cons, List.filter_nil,
    getCell_mk1, getCell_mk2, getCell_mk3, getCell_mk4, getCell_mk5, getCell_mk6,
    getCell_mk7, getCell_mk8, getCell_mk9, ch_beq_space, decide_eq_true_eq,
    length_ite_cons, List.length_nil]
  simp [ecM, cntM, Nat.add_assoc]

theorem setO1 (c1 c2 c3 c4 c5 c6 c7 c8 c9 : Mark) :
    setCell (mkB c1 c2 c3 c4 c5 c6 c7 c8 c9) 0 0 'O' = mkB Mark.mo c2 c3 c4 c5 c6 c7 c8 c9 := rfl

theorem setO2 (c1 c2 c3 c4 c5 c6 c7 c8 c9 : Mark) :
    setCell (mkB c1 c2 c3 c4 c5 c6 c7 c8 c9) 0 1 'O' = mkB c1 Mark.mo c3 c4 c5 c6 c7 c8 c9 := rfl

theorem setO3 (c1 c2 c3 c4 c5 c6 c7 c8 c9 : Mark) :
    setCell (mkB c1 c2 c3 c4 c5 c6 c7 c8 c9) 0 2 'O' = mkB c1 c2 Mark.mo c4 c5 c6 c7 c8 c9 := rfl

theorem setO4 (c1 c2 c3 c4 c5 c6 c7 c8 c9 : Mark) :
    setCell (mkB c1 c2 c3 c4 c5 c6 c7 c8 c9) 1 0 'O' = mkB c1 c2 c3 Mark.mo c5 c6 c7 c8 c9 := rfl

theorem setO5 (c1 c2 c3 c4 c5 c6 c7 c8 c9 : Mark) :
    setCell (mkB c1 c2 c3 c4 c5 c6 c7 c8 c9) 1 1 'O' = mkB c1 c2 c3 c4 Mark.mo c6 c7 c8 c9 := rfl

theorem setO6 (c1 c2 c3 c4 c5 c6 c7 c8 c9 : Mark) :
    setCell (mkB c1 c2 c3 c4 c5 c6 c7 c8 c9) 1 2 'O' = mkB c1 c2 c3 c4 c5 Mark.mo c7 c8 c9 := rfl

theorem setO7 (c1 c2 c3 c4 c5 c6 c7 c8 c9 : Mark) :
    setCell (mkB c1 c2 c3 c4 c5 c6 c7 c8 c9) 2 0 'O' = mkB c1 c2 c3 c4 c5 c6 Mark.mo c8 c9 := rfl

theorem setO8 (c1 c2 c3 c4 c5 c6 c7 c8 c9 : Mark) :
    setCell (mkB c1 c2 c3 c4 c5 c6 c7 c8 c9) 2 1 'O' = mkB c1 c2 c3 c4 c5 c6 c7 Mark.mo c9 := rfl

theorem setO9 (c1 c2 c3 c4 c5 c6 c7 c8 c9 : Mark) :
    setCell (mkB c1 c2 c3 c4 c5 c6 c7 c8 c9) 2 2 'O' = mkB c1 c2 c3 c4 c5 c6 c7 c8 Mark.mo := rfl

theorem setX1 (c1 c2 c3 c4 c5 c6 c7 c8 c9 : Mark) :
    setCell (mkB c1 c2 c3 c4 c5 c6 c7 c8 c9) 0 0 'X' = mkB Mark.mx c2 c3 c4 c5 c6 c7 c8 c9 := rfl

theorem setX2 (c1 c2 c3 c4 c5 c6 c7 c8 c9 : Mark) :
    setCell (mkB c1 c2 c3 c4 c5 c6 c7 c8 c9) 0 1 'X' = mkB c1 Mark.mx c3 c4 c5 c6 c7 c8 c9 := rfl

theorem setX3 (c1 c2 c3 c4 c5 c6 c7 c8 c9 : Mark) :
    setCell (mkB c1 c2 c3 c4 c5 c6 c7 c8 c9) 0 2 'X' = mkB c1 c2 Mark.mx c4 c5 c6 c7 c8 c9 := rfl

theorem setX4 (c1 c2 c3 c4 c5 c6 c7 c8 c9 : Mark) :
    setCell (mkB c1 c2 c3 c4 c5 c6 c7 c8 c9) 1 0 'X' = mkB c1 c2 c3 Mark.mx c5 c6 c7 c8 c9 := rfl

theorem setX5 (c1 c2 c3 c4 c5 c6 c7 c8 c9 : Mark) :
    setCell (mkB c1 c2 c3 c4 c5 c6 c7 c8 c9) 1 1 'X' = mkB c1 c2 c3 c4 Mark.mx c6 c7 c8 c9 := rfl

theorem setX6 (c1 c2 c3 c4 c5 c6 c7 c8 c9 : Mark) :
    setCell (mkB c1 c2 c3 c4 c5 c6 c7 c8 c9) 1 2 'X' = mkB c1 c2 c3 c4 c5 Mark.mx c7 c8 c9 := rfl

theorem setX7 (c1 c2 c3 c4 c5 c6 c7 c8 c9 : Mark) :
    setCell (mkB c1 c2 c3 c4 c5 c6 c7 c8 c9) 2 0 'X' = mkB c1 c2 c3 c4 c5 c6 Mark.mx c8 c9 := rfl

theorem setX8 (c1 c2 c3 c4 c5 c6 c7 c8 c9 : Mark) :
    setCell (mkB c1 c2 c3 c4 c5 c6 c7 c8 c9) 2 1 'X' = mkB c1 c2 c3 c4 c5 c6 c7 Mark.mx c9 := rfl

theorem setX9 (c1 c2 c3 c4 c5 c6 c7 c8 c9 : Mark) :
    setCell (mkB c1 c2 c3 c4 c5 c6 c7 c8 c9) 2 2 'X' = mkB c1 c2 c3 c4 c5 c6 c7 c8 Mark.mx := rfl

theorem ecM_zero_iff (c1 c2 c3 c4 c5 c6 c7 c8 c9 : Mark) :
    ecM c1 c2 c3 c4 c5 c6 c7 c8 c9 = 0 ↔ noEmptyM c1 c2 c3 c4 c5 c6 c7 c8 c9 := by
  unfold noEmptyM
  simp only [← cntM_zero_iff]
  unfold ecM
  omega

theorem tritM_mo : tritM Mark.mo = 2 := rfl

theorem tritM_mx : tritM Mark.mx = 1 := rfl

theorem tritM_me : tritM Mark.me = 0 := rfl

theorem cntM_mo : cntM Mark.mo = 0 := rfl

theorem cntM_mx : cntM Mark.mx = 0 := rfl

theorem cntM_me : cntM Mark.me = 1 := rfl

/-- Per-position coherence between a board and its encoding: the guard
of the move loop and the effect of placing a mark. -/
theorem coh_guard (c1 c2 c3 c4 c5 c6 c7 c8 c9 : Mark) :
    ∀ pp ∈ posPow,
      (getCell (mkB c1 c2 c3 c4 c5 c6 c7 c8 c9) pp.1.1 pp.1.2 = ' ' ↔
        encodeB (mkB c1 c2 c3 c4 c5 c6 c7 c8 c9) / pp.2 % 3 = 0) := by
  obtain ⟨d1, d2, d3, d4, d5, d6, d7, d8, d9⟩ := encM_digits c1 c2 c3 c4 c5 c6 c7 c8 c9
  rw [Nat.div_one] at d1
  intro pp hpp
  simp only [posPow, List.mem_cons, List.not_mem_nil, or_false] at hpp
  rcases hpp with rfl | rfl | rfl | rfl | rfl | rfl | rfl | rfl | rfl <;>
    simp [getCell_mk1, getCell_mk2, getCell_mk3, getCell_mk4, getCell_mk5, getCell_mk6,
      getCell_mk7, getCell_mk8, getCell_mk9, encodeB_mkB, d1, d2, d3, d4, d5, d6, d7, d8, d9,
      Mark.ch_space_iff, tritM_eq_zero_iff]

theorem coh_child (c1 c2 c3 c4 c5 c6 c7 c8 c9 : Mark) :
    ∀ pp ∈ posPow,
      getCell (mkB c1 c2 c3 c4 c5 c6 c7 c8 c9) pp.1.1 pp.1.2 = ' ' →
      (okBoard (setCell (mkB c1 c2 c3 c4 c5 c6 c7 c8 c9) pp.1.1 pp.1.2 'O') ∧
       encodeB (setCell (mkB c1 c2 c3 c4 c5 c6 c7 c8 c9) pp.1.1 pp.1.2 'O') =
         encodeB (mkB c1 c2 c3 c4 c5 c6 c7 c8 c9) + 2 * pp.2 ∧
       emptyCount (setCell (mkB c1 c2 c3 c4 c5 c6 c7 c8 c9) pp.1.1 pp.1.2 'O') + 1 =
         emptyCount (mkB c1 c2 c3 c4 c5 c6 c7 c8 c9)) ∧
      (okBoard (setCell (mkB c1 c2 c3 c4 c5 c6 c7 c8 c9) pp.1.1 pp.1.2 'X') ∧
       encodeB (setCell (mkB c1 c2 c3 c4 c5 c6 c7 c8 c9) pp.1.1 pp.1.2 'X') =
         encodeB (mkB c1 c2 c3 c4 c5 c6 c7 c8 c9) + 1 * pp.2 ∧
       emptyCount (setCell (mkB c1 c2 c3 c4 c5 c6 c7 c8 c9) pp.1.1 pp.1.2 'X') + 1 =
         emptyCount (mkB c1 c2 c3 c4 c5 c6 c7 c8 c9)) := by
  intro pp hpp
  simp only [posPow, List.mem_cons, List.not_mem_nil, or_false] at hpp
  rcases hpp with rfl | rfl | rfl | rfl | rfl | rfl | rfl | rfl | rfl <;>
    (intro hsp
     first
     | rw [getCell_mk1, Mark.ch_space_iff] at hsp
     | rw [getCell_mk2, Mark.ch_space_iff] at hsp
     | rw [getCell_mk3, Mark.ch_space_iff] at hsp
     | rw [getCell_mk4, Mark.ch_space_iff] at hsp
     | rw [getCell_mk5, Mark.ch_space_iff] at hsp
     | rw [getCell_mk6, Mark.ch_space_iff] at hsp
     | rw [getCell_mk7, Mark.ch_space_iff] at hsp
     | rw [getCell_mk8, Mark.ch_space_iff] at hsp
     | rw [getCell_mk9, Mark.ch_space_iff] at hsp) <;>
    subst hsp <;>
    simp only [setO1, setO2, setO3, setO4, setO5, setO6, setO7, setO8, setO9,
      setX1, setX2, setX3, setX4, setX5, setX6, setX7, setX8, setX9] <;>
    refine ⟨⟨okBoard_mkB _ _ _ _ _ _ _ _ _, ?_, ?_⟩,
      okBoard_mkB _ _ _ _ _ _ _ _ _, ?_, ?_⟩ <;>
    simp only [encodeB_mkB, emptyCount_mkB, encM, ecM, tritM_mo, tritM_mx, tritM_me,
      cntM_mo, cntM_mx, cntM_me] <;>
    omega


/-! ### The search leaves the board unchanged -/

theorem set_getD_eq {α : Type} : ∀ (l : List α) (i : Nat) (d : α) (x : α),
    l.getD i d = x → l.set i x = l := by
  intro l
  induction l with
  | nil => intro i d x _; rfl
  | cons hd tl ih =>
    intro i d x h
    cases i with
    | zero => simp only [List.getD_cons_zero] at h; simp [List.set, h]
    | succ i => simp only [List.getD_cons_succ] at h; simp [List.set, ih i d x h]

theorem getD_set_self {α : Type} : ∀ (l : List α) (i : Nat) (d : α) (x : α),
    i < l.length → (l.set i x).getD i d = x := by
  intro l
  induction l with
  | nil => intro i d x h; simp at h
  | cons hd tl ih =>
    intro i d x h
    cases i with
    | zero => rfl
    | succ i =>
      simp only [List.length_cons, Nat.succ_lt_succ_iff] at h
      simpa using ih i d x h

/-- Resetting a tried cell restores the board exactly. -/
theorem setCell_restore (b : Board) (r c : Nat) (v : Cell) (h : getCell b r c = ' ') :
    setCell (setCell b r c v) r c ' ' = b := by
  unfold getCell at h
  unfold setCell
  by_cases hr : r < b.length
  · rw [getD_set_self b r [] ((b.getD r []).set c v) hr, List.set_set, List.set_set]
    rw [set_getD_eq (b.getD r []) c ' ' ' ' h]
    exact set_getD_eq b r [] (b.getD r []) rfl
  · have hb : b.set r ((b.getD r []).set c v) = b := by
      have : b.getD r [] = [] := List.getD_eq_default _ _ (Nat.le_of_not_lt hr)
      rw [this]
      have hlen : b.length ≤ r := Nat.le_of_not_lt hr
      exact List.set_eq_of_length_le (by simpa using hlen) ..
    rw [hb]
    have : b.getD r [] = [] := List.getD_eq_default _ _ (Nat.le_of_not_lt hr)
    rw [this]
    exact List.set_eq_of_length_le (by simpa using Nat.le_of_not_lt hr) ..

/-- The stateful move loop computes the pure fold and hands the caller's
board back unchanged. -/
theorem searchS_eq (rec : Board → Int × Board) (recV : Board → Int) (mark : Cell)
    (better : Int → Int → Bool) (hrec : ∀ b', rec b' = (recV b', b')) :
    ∀ (ps : List Pos) (b : Board) (best : Int),
      searchS rec mark better ps b best = (searchV recV mark better ps b best, b) := by
  intro ps
  induction ps with
  | nil => intro b best; rfl
  | cons p ps ih =>
    intro b best
    simp only [searchS, searchV]
    by_cases h : getCell b p.1 p.2 = ' '
    · rw [if_pos h, if_pos h, hrec (setCell b p.1 p.2 mark)]
      simp only
      rw [setCell_restore b p.1 p.2 mark h]
      exact ih b _
    · rw [if_neg h, if_neg h]
      exact ih b best

theorem minimaxGoS_eq (rec : Board → Bool → Int × Board) (recV : Board → Bool → Int)
    (hrec : ∀ b' m', rec b' m' = (recV b' m', b')) :
    ∀ b m, minimaxGoS rec b m = (minimaxGo recV b m, b) := by
  intro b m
  simp only [minimaxGoS, minimaxGo]
  split_ifs with h1 h2 h3 h4
  · rfl
  · rfl
  · rfl
  · exact searchS_eq _ _ _ _ (fun b' => hrec b' false) allPositions b (-999)
  · exact searchS_eq _ _ _ _ (fun b' => hrec b' true) allPositions b 999

/-- `Game.minimax` returns the caller's board unchanged, and its score
is the pure minimax value. -/
theorem minimaxS_eq : ∀ (fuel : Nat) (b : Board) (m : Bool),
    minimaxS fuel b m = (minimaxVal fuel b m, b) := by
  intro fuel
  induction fuel with
  | zero => exact minimaxGoS_eq _ _ fun b' m' => rfl
  | succ fuel ih => exact minimaxGoS_eq _ _ fun b' m' => ih b' m'

/-! ### Relating the board-level fold to the encoded fold -/

/-- Range of a finished search score. -/
def inS (v : Int) : Prop := -1 ≤ v ∧ v ≤ 1

theorem blt_iff (a b : Nat) : Nat.blt a b = true ↔ a < b := by
  simp [Nat.blt_eq]

theorem beq_false_of_ne {a b : Nat} (h : ¬a = b) : Nat.beq a b = false := by
  cases hb : Nat.beq a b
  · rfl
  · exact absurd (Nat.eq_of_beq_eq_true hb) h

/-- Invariant tying the running best scores of the two folds: either
both still hold their maximizing sentinels, or the encoded best is the
shifted board best. -/
def relMax (bestV : Int) (bestN : Nat) : Prop :=
  (bestV = -999 ∧ bestN = 0) ∨ ((bestN : Int) = bestV + 1 ∧ inS bestV)

theorem zip_fold_max (recV : Board → Int) (recN : Nat → Nat) (b : Board) (e : Nat) :
    ∀ (pps : List (Pos × Nat)),
      (∀ pp ∈ pps,
        (getCell b pp.1.1 pp.1.2 = ' ' ↔ e / pp.2 % 3 = 0) ∧
        (getCell b pp.1.1 pp.1.2 = ' ' →
          (recN (e + 2 * pp.2) : Int) = recV (setCell b pp.1.1 pp.1.2 'O') + 1 ∧
          inS (recV (setCell b pp.1.1 pp.1.2 'O')))) →
      ∀ (bestV : Int) (bestN : Nat), relMax bestV bestN →
        relMax (searchV recV 'O' (fun s best => best < s) (pps.map Prod.fst) b bestV)
          (searchN recN 2 (fun s best => Nat.blt best s) (pps.map Prod.snd) e bestN) := by
  intro pps
  induction pps with
  | nil => intro _ bestV bestN hR; exact hR
  | cons pp pps ih =>
    intro hcoh bestV bestN hR
    have hcohpp := hcoh pp (List.mem_cons_self _ _)
    have hcohrest := fun q hq => hcoh q (List.mem_cons_of_mem pp hq)
    simp only [List.map_cons, searchV, searchN, decide_eq_true_eq]
    by_cases hemp : getCell b pp.1.1 pp.1.2 = ' '
    · rw [if_pos hemp]
      have hguard : e / pp.2 % 3 = 0 := (hcohpp.1).1 hemp
      have hbeq : Nat.beq (e / pp.2 % 3) 0 = true := by rw [hguard]; rfl
      rw [hbeq, cond_true]
      obtain ⟨hrel, hS⟩ := hcohpp.2 hemp
      apply ih hcohrest
      unfold relMax inS at hR ⊢
      unfold inS at hS
      by_cases hv : bestV < recV (setCell b pp.1.1 pp.1.2 'O')
      · rw [if_pos hv]
        by_cases hn : bestN < recN (e + 2 * pp.2)
        · rw [(blt_iff _ _).2 hn, cond_true]
          omega
        · rw [Bool.eq_false_iff.2 fun hc => hn ((blt_iff _ _).1 hc), cond_false]
          omega
      · rw [if_neg hv]
        by_cases hn : bestN < recN (e + 2 * pp.2)
        · rw [(blt_iff _ _).2 hn, cond_true]
          omega
        · rw [Bool.eq_false_iff.2 fun hc => hn ((blt_iff _ _).1 hc), cond_false]
          omega
    · rw [if_neg hemp]
      have hguard : ¬e / pp.2 % 3 = 0 := fun hc => hemp ((hcohpp.1).2 hc)
      rw [beq_false_of_ne hguard, cond_false]
      exact ih hcohrest bestV bestN hR

/-- Invariant tying the running best scores of the two minimizing
folds. -/
def relMin (bestV : Int) (bestN : Nat) : Prop :=
  (bestV = 999 ∧ bestN = 999) ∨ ((bestN : Int) = bestV + 1 ∧ inS bestV)

theorem zip_fold_min (recV : Board → Int) (recN : Nat → Nat) (b : Board) (e : Nat) :
    ∀ (pps : List (Pos × Nat)),
      (∀ pp ∈ pps,
        (getCell b pp.1.1 pp.1.2 = ' ' ↔ e / pp.2 % 3 = 0) ∧
        (getCell b pp.1.1 pp.1.2 = ' ' →
          (recN (e + 1 * pp.2) : Int) = recV (setCell b pp.1.1 pp.1.2 'X') + 1 ∧
          inS (recV (setCell b pp.1.1 pp.1.2 'X')))) →
      ∀ (bestV : Int) (bestN : Nat), relMin bestV bestN →
        relMin (searchV recV 'X' (fun s best => s < best) (pps.map Prod.fst) b bestV)
          (searchN recN 1 (fun s best => Nat.blt s best) (pps.map Prod.snd) e bestN) := by
  intro pps
  induction pps with
  | nil => intro _ bestV bestN hR; exact hR
  | cons pp pps ih =>
    intro hcoh bestV bestN hR
    have hcohpp := hcoh pp (List.mem_cons_self _ _)
    have hcohrest := fun q hq => hcoh q (List.mem_cons_of_mem pp hq)
    simp only [List.map_cons, searchV, searchN, decide_eq_true_eq]
    by_cases hemp : getCell b pp.1.1 pp.1.2 = ' '
    · rw [if_pos hemp]
      have hguard : e / pp.2 % 3 = 0 := (hcohpp.1).1 hemp
      have hbeq : Nat.beq (e / pp.2 % 3) 0 = true := by rw [hguard]; rfl
      rw [hbeq, cond_true]
      obtain ⟨hrel, hS⟩ := hcohpp.2 hemp
      apply ih hcohrest
      unfold relMin inS at hR ⊢
      unfold inS at hS
      by_cases hv : recV (setCell b pp.1.1 pp.1.2 'X') < bestV
      · rw [if_pos hv]
        by_cases hn : recN (e + 1 * pp.2) < bestN
        · rw [(blt_iff _ _).2 hn, cond_true]
          omega
        · rw [Bool.eq_false_iff.2 fun hc => hn ((blt_iff _ _).1 hc), cond_false]
          omega
      · rw [if_neg hv]
        by_cases hn : recN (e + 1 * pp.2) < bestN
        · rw [(blt_iff _ _).2 hn, cond_true]
          omega
        · rw [Bool.eq_false_iff.2 fun hc => hn ((blt_iff _ _).1 hc), cond_false]
          omega
    · rw [if_neg hemp]
      have hguard : ¬e / pp.2 % 3 = 0 := fun hc => hemp ((hcohpp.1).2 hc)
      rw [beq_false_of_ne hguard, cond_false]
      exact ih hcohrest bestV bestN hR

/-- A fold whose running best is already a score keeps producing a
score. -/
theorem searchV_inS_of_inS (recV : Board → Int) (mark : Cell) (better : Int → Int → Bool) :
    ∀ (ps : List Pos) (b : Board) (best : Int),
      (∀ p ∈ ps, getCell b p.1 p.2 = ' ' → inS (recV (setCell b p.1 p.2 mark))) →
      inS best →
      inS (searchV recV mark better ps b best) := by
  intro ps
  induction ps with
  | nil => intro b best _ h; exact h
  | cons p ps ih =>
    intro b best hrec hbest
    simp only [searchV]
    by_cases hemp : getCell b p.1 p.2 = ' '
    · rw [if_pos hemp]
      apply ih _ _ (fun q hq => hrec q (List.mem_cons_of_mem p hq))
      by_cases hb : better (recV (setCell b p.1 p.2 mark)) best = true
      · rw [if_pos hb]
        exact hrec p (List.mem_cons_self _ _) hemp
      · rw [if_neg hb]
        exact hbest
    · rw [if_neg hemp]
      exact ih _ _ (fun q hq => hrec q (List.mem_cons_of_mem p hq)) hbest

/-- As soon as the list holds one empty cell, the maximizing fold from
the sentinel produces a score. -/
theorem searchV_max_inS (recV : Board → Int) :
    ∀ (ps : List Pos) (b : Board),
      (∀ p ∈ ps, getCell b p.1 p.2 = ' ' → inS (recV (setCell b p.1 p.2 'O'))) →
      (∃ p ∈ ps, getCell b p.1 p.2 = ' ') →
      inS (searchV recV 'O' (fun s best => best < s) ps b (-999)) := by
  intro ps
  induction ps with
  | nil => intro b _ h; simp at h
  | cons p ps ih =>
    intro b hrec hex
    simp only [searchV, decide_eq_true_eq]
    by_cases hemp : getCell b p.1 p.2 = ' '
    · rw [if_pos hemp]
      have hs := hrec p (List.mem_cons_self _ _) hemp
      have hlt : (-999 : Int) < recV (setCell b p.1 p.2 'O') := by
        unfold inS at hs; omega
      rw [if_pos hlt]
      exact searchV_inS_of_inS _ _ _ _ _ _ (fun q hq => hrec q (List.mem_cons_of_mem p hq)) hs
    · rw [if_neg hemp]
      obtain ⟨q, hq, hqe⟩ := hex
      rcases List.mem_cons.1 hq with rfl | hq2
      · exact absurd hqe hemp
      · exact ih b (fun r hr => hrec r (List.mem_cons_of_mem p hr)) ⟨q, hq2, hqe⟩

/-- As soon as the list holds one empty cell, the minimizing fold from
the sentinel produces a score. -/
theorem searchV_min_inS (recV : Board → Int) :
    ∀ (ps : List Pos) (b : Board),
      (∀ p ∈ ps, getCell b p.1 p.2 = ' ' → inS (recV (setCell b p.1 p.2 'X'))) →
      (∃ p ∈ ps, getCell b p.1 p.2 = ' ') →
      inS (searchV recV 'X' (fun s best => s < best) ps b 999) := by
  intro ps
  induction ps with
  | nil => intro b _ h; simp at h
  | cons p ps ih =>
    intro b hrec hex
    simp only [searchV, decide_eq_true_eq]
    by_cases hemp : getCell b p.1 p.2 = ' '
    · rw [if_pos hemp]
      have hs := hrec p (List.mem_cons_self _ _) hemp
      have hlt : recV (setCell b p.1 p.2 'X') < (999 : Int) := by
        unfold inS at hs; omega
      rw [if_pos hlt]
      exact searchV_inS_of_inS _ _ _ _ _ _ (fun q hq => hrec q (List.mem_cons_of_mem p hq)) hs
    · rw [if_neg hemp]
      obtain ⟨q, hq, hqe⟩ := hex
      rcases List.mem_cons.1 hq with rfl | hq2
      · exact absurd hqe hemp
      · exact ih b (fun r hr => hrec r (List.mem_cons_of_mem p hr)) ⟨q, hq2, hqe⟩

/-! ### Classifying the winner scan on a well-formed board -/

theorem cws_values (c1 c2 c3 c4 c5 c6 c7 c8 c9 : Mark) :
    check_winner_static (mkB c1 c2 c3 c4 c5 c6 c7 c8 c9) = none ∨
    check_winner_static (mkB c1 c2 c3 c4 c5 c6 c7 c8 c9) = some 'X' ∨
    check_winner_static (mkB c1 c2 c3 c4 c5 c6 c7 c8 c9) = some 'O' := by
  simp only [check_winner_static, getCell_mk1, getCell_mk2, getCell_mk3, getCell_mk4,
    getCell_mk5, getCell_mk6, getCell_mk7, getCell_mk8, getCell_mk9, ne_eq,
    Mark.ch_eq_iff, Mark.ch_space_iff]
  split_ifs with h1 h2 h3 h4 h5 h6 h7 h8
  · rcases h1 with ⟨-, -, hne⟩
    cases c1
    · right; left; rfl
    · right; right; rfl
    · exact absurd rfl hne
  · rcases h2 with ⟨-, -, hne⟩
    cases c4
    · right; left; rfl
    · right; right; rfl
    · exact absurd rfl hne
  · rcases h3 with ⟨-, -, hne⟩
    cases c7
    · right; left; rfl
    · right; right; rfl
    · exact absurd rfl hne
  · rcases h4 with ⟨-, -, hne⟩
    cases c1
    · right; left; rfl
    · right; right; rfl
    · exact absurd rfl hne
  · rcases h5 with ⟨-, -, hne⟩
    cases c2
    · right; left; rfl
    · right; right; rfl
    · exact absurd rfl hne
  · rcases h6 with ⟨-, -, hne⟩
    cases c3
    · right; left; rfl
    · right; right; rfl
    · exact absurd rfl hne
  · rcases h7 with ⟨-, -, hne⟩
    cases c1
    · right; left; rfl
    · right; right; rfl
    · exact absurd rfl hne
  · rcases h8 with ⟨-, -, hne⟩
    cases c3
    · right; left; rfl
    · right; right; rfl
    · exact absurd rfl hne
  · left; rfl

/-- The three possible outcomes of the winner scan, each paired with the
value of its encoded counterpart. -/
theorem cws_cases (c1 c2 c3 c4 c5 c6 c7 c8 c9 : Mark) :
    (check_winner_static (mkB c1 c2 c3 c4 c5 c6 c7 c8 c9) = none ∧
      winnerN (encM c1 c2 c3 c4 c5 c6 c7 c8 c9) = 0) ∨
    (check_winner_static (mkB c1 c2 c3 c4 c5 c6 c7 c8 c9) = some 'X' ∧
      winnerN (encM c1 c2 c3 c4 c5 c6 c7 c8 c9) = 1) ∨
    (check_winner_static (mkB c1 c2 c3 c4 c5 c6 c7 c8 c9) = some 'O' ∧
      winnerN (encM c1 c2 c3 c4 c5 c6 c7 c8 c9) = 2) := by
  have hc := cws_code_mkB c1 c2 c3 c4 c5 c6 c7 c8 c9
  have hw := winnerN_encM c1 c2 c3 c4 c5 c6 c7 c8 c9
  rcases cws_values c1 c2 c3 c4 c5 c6 c7 c8 c9 with h | h | h
  · left
    refine ⟨h, ?_⟩
    rw [hw, ← hc, h]
    rfl
  · right; left
    refine ⟨h, ?_⟩
    rw [hw, ← hc, h]
    rfl
  · right; right
    refine ⟨h, ?_⟩
    rw [hw, ← hc, h]
    rfl

/-- A board that is not full has an empty cell at one of the nine
positions. -/
theorem exists_empty_pp (c1 c2 c3 c4 c5 c6 c7 c8 c9 : Mark)
    (h : ¬noEmptyM c1 c2 c3 c4 c5 c6 c7 c8 c9) :
    ∃ pp ∈ posPow, getCell (mkB c1 c2 c3 c4 c5 c6 c7 c8 c9) pp.1.1 pp.1.2 = ' ' := by
  unfold noEmptyM at h
  push_neg at h
  by_cases h1 : c1 = Mark.me
  · exact ⟨((0, 0), 1), by simp [posPow], by rw [getCell_mk1, Mark.ch_space_iff]; exact h1⟩
  by_cases h2 : c2 = Mark.me
  · exact ⟨((0, 1), 3), by simp [posPow], by rw [getCell_mk2, Mark.ch_space_iff]; exact h2⟩
  by_cases h3 : c3 = Mark.me
  · exact ⟨((0, 2), 9), by simp [posPow], by rw [getCell_mk3, Mark.ch_space_iff]; exact h3⟩
  by_cases h4 : c4 = Mark.me
  · exact ⟨((1, 0), 27), by simp [posPow], by rw [getCell_mk4, Mark.ch_space_iff]; exact h4⟩
  by_cases h5 : c5 = Mark.me
  · exact ⟨((1, 1), 81), by simp [posPow], by rw [getCell_mk5, Mark.ch_space_iff]; exact h5⟩
  by_cases h6 : c6 = Mark.me
  · exact ⟨((1, 2), 243), by simp [posPow], by rw [getCell_mk6, Mark.ch_space_iff]; exact h6⟩
  by_cases h7 : c7 = Mark.me
  · exact ⟨((2, 0), 729), by simp [posPow], by rw [getCell_mk7, Mark.ch_space_iff]; exact h7⟩
  by_cases h8 : c8 = Mark.me
  · exact ⟨((2, 1), 2187), by simp [posPow], by rw [getCell_mk8, Mark.ch_space_iff]; exact h8⟩
  by_cases h9 : c9 = Mark.me
  · exact ⟨((2, 2), 6561), by simp [posPow], by rw [getCell_mk9, Mark.ch_space_iff]; exact h9⟩
  exact absurd (h h1 h2 h3 h4 h5 h6 h7 h8) h9

theorem mem_allPositions (p : Pos) (hp : p ∈ allPositions) :
    ∃ pp ∈ posPow, pp.1 = p := by
  have h : allPositions = posPow.map Prod.fst := posPow_fst.symm
  rw [h] at hp
  obtain ⟨pp, hpp, heq⟩ := List.mem_map.1 hp
  exact ⟨pp, hpp, heq⟩

theorem mem_allPositions_of_pp (pp : Pos × Nat) (hpp : pp ∈ posPow) :
    pp.1 ∈ allPositions := by
  rw [← posPow_fst]
  exact List.mem_map_of_mem _ hpp

/-- One unfolding of the search gives a score on every well-formed
board, whenever the recursive values at the children are scores. -/
theorem minimaxGo_inS (recV : Board → Bool → Int) (c1 c2 c3 c4 c5 c6 c7 c8 c9 : Mark)
    (hrecO : ∀ pp ∈ posPow, getCell (mkB c1 c2 c3 c4 c5 c6 c7 c8 c9) pp.1.1 pp.1.2 = ' ' →
      inS (recV (setCell (mkB c1 c2 c3 c4 c5 c6 c7 c8 c9) pp.1.1 pp.1.2 'O') false))
    (hrecX : ∀ pp ∈ posPow, getCell (mkB c1 c2 c3 c4 c5 c6 c7 c8 c9) pp.1.1 pp.1.2 = ' ' →
      inS (recV (setCell (mkB c1 c2 c3 c4 c5 c6 c7 c8 c9) pp.1.1 pp.1.2 'X') true)) :
    ∀ m, inS (minimaxGo recV (mkB c1 c2 c3 c4 c5 c6 c7 c8 c9) m) := by
  intro m
  simp only [minimaxGo]
  rcases cws_values c1 c2 c3 c4 c5 c6 c7 c8 c9 with hw | hw | hw
  · rw [if_neg (by simp [hw]), if_neg (by simp [hw])]
    by_cases hfull : boardFull (mkB c1 c2 c3 c4 c5 c6 c7 c8 c9) = true
    · rw [if_pos hfull]
      exact ⟨by omega, by omega⟩
    · rw [if_neg hfull]
      have hne : ¬noEmptyM c1 c2 c3 c4 c5 c6 c7 c8 c9 := fun hc => hfull ((boardFull_mkB c1 c2 c3 c4 c5 c6 c7 c8 c9).2 hc)
      obtain ⟨pp, hpp, hppe⟩ := exists_empty_pp c1 c2 c3 c4 c5 c6 c7 c8 c9 hne
      cases m
      · rw [if_neg (by simp)]
        apply searchV_min_inS
        · intro p hp hpe
          obtain ⟨pp2, hpp2, rfl⟩ := mem_allPositions p hp
          exact hrecX pp2 hpp2 hpe
        · exact ⟨pp.1, mem_allPositions_of_pp pp hpp, hppe⟩
      · rw [if_pos rfl]
        apply searchV_max_inS
        · intro p hp hpe
          obtain ⟨pp2, hpp2, rfl⟩ := mem_allPositions p hp
          exact hrecO pp2 hpp2 hpe
        · exact ⟨pp.1, mem_allPositions_of_pp pp hpp, hppe⟩
  · rw [if_neg (by simp [hw]), if_pos hw]
    exact ⟨by omega, by omega⟩
  · rw [if_pos hw]
    exact ⟨by omega, by omega⟩

/-- The value of the search is a score on every well-formed board. -/
theorem minimaxVal_inS : ∀ (fuel : Nat) (c1 c2 c3 c4 c5 c6 c7 c8 c9 : Mark) (m : Bool),
    inS (minimaxVal fuel (mkB c1 c2 c3 c4 c5 c6 c7 c8 c9) m) := by
  intro fuel
  induction fuel with
  | zero =>
    intro c1 c2 c3 c4 c5 c6 c7 c8 c9 m
    exact minimaxGo_inS _ c1 c2 c3 c4 c5 c6 c7 c8 c9 (fun pp hpp hpe => ⟨by omega, by omega⟩)
      (fun pp hpp hpe => ⟨by omega, by omega⟩) m
  | succ fuel ih =>
    intro c1 c2 c3 c4 c5 c6 c7 c8 c9 m
    show inS (minimaxGo (minimaxVal fuel) (mkB c1 c2 c3 c4 c5 c6 c7 c8 c9) m)
    apply minimaxGo_inS
    · intro pp hpp hpe
      have hok : okBoard (setCell (mkB c1 c2 c3 c4 c5 c6 c7 c8 c9) pp.1.1 pp.1.2 'O') :=
        ((coh_child c1 c2 c3 c4 c5 c6 c7 c8 c9 pp hpp hpe).1).1
      obtain ⟨d1, d2, d3, d4, d5, d6, d7, d8, d9, heq⟩ := okBoard_mkB_exists _ hok
      rw [heq]
      exact ih d1 d2 d3 d4 d5 d6 d7 d8 d9 false
    · intro pp hpp hpe
      have hok : okBoard (setCell (mkB c1 c2 c3 c4 c5 c6 c7 c8 c9) pp.1.1 pp.1.2 'X') :=
        ((coh_child c1 c2 c3 c4 c5 c6 c7 c8 c9 pp hpp hpe).2).1
      obtain ⟨d1, d2, d3, d4, d5, d6, d7, d8, d9, heq⟩ := okBoard_mkB_exists _ hok
      rw [heq]
      exact ih d1 d2 d3 d4 d5 d6 d7 d8 d9 true

/-- One unfolding of the search equals the table entry, given that the
recursive values at the children equal their table entries. -/
theorem go_eq_lookB (recV : Board → Bool → Int) (c1 c2 c3 c4 c5 c6 c7 c8 c9 : Mark)
    (hchildO : ∀ pp ∈ posPow, getCell (mkB c1 c2 c3 c4 c5 c6 c7 c8 c9) pp.1.1 pp.1.2 = ' ' →
      recV (setCell (mkB c1 c2 c3 c4 c5 c6 c7 c8 c9) pp.1.1 pp.1.2 'O') false =
        (lookB (encM c1 c2 c3 c4 c5 c6 c7 c8 c9 + 2 * pp.2) false : Int) - 1 ∧
      inS (recV (setCell (mkB c1 c2 c3 c4 c5 c6 c7 c8 c9) pp.1.1 pp.1.2 'O') false))
    (hchildX : ∀ pp ∈ posPow, getCell (mkB c1 c2 c3 c4 c5 c6 c7 c8 c9) pp.1.1 pp.1.2 = ' ' →
      recV (setCell (mkB c1 c2 c3 c4 c5 c6 c7 c8 c9) pp.1.1 pp.1.2 'X') true =
        (lookB (encM c1 c2 c3 c4 c5 c6 c7 c8 c9 + 1 * pp.2) true : Int) - 1 ∧
      inS (recV (setCell (mkB c1 c2 c3 c4 c5 c6 c7 c8 c9) pp.1.1 pp.1.2 'X') true)) :
    ∀ m, minimaxGo recV (mkB c1 c2 c3 c4 c5 c6 c7 c8 c9) m = (lookB (encM c1 c2 c3 c4 c5 c6 c7 c8 c9) m : Int) - 1 := by
  intro m
  have hcons := tbl_consistent (encM c1 c2 c3 c4 c5 c6 c7 c8 c9) (encM_lt c1 c2 c3 c4 c5 c6 c7 c8 c9) m
  rw [← hcons]
  obtain ⟨dg1, dg2, dg3, dg4, dg5, dg6, dg7, dg8, dg9⟩ := encM_digits c1 c2 c3 c4 c5 c6 c7 c8 c9
  simp only [minimaxGo, goN]
  rcases cws_cases c1 c2 c3 c4 c5 c6 c7 c8 c9 with ⟨hw, hwn⟩ | ⟨hw, hwn⟩ | ⟨hw, hwn⟩
  · -- no winner
    rw [if_neg (by simp [hw]), if_neg (by simp [hw]), hwn]
    simp only [show Nat.beq 0 2 = false from rfl, show Nat.beq 0 1 = false from rfl, cond_false]
    by_cases hfull : boardFull (mkB c1 c2 c3 c4 c5 c6 c7 c8 c9) = true
    · rw [if_pos hfull]
      have hfn : fullN (encM c1 c2 c3 c4 c5 c6 c7 c8 c9) = true :=
        (fullN_encM c1 c2 c3 c4 c5 c6 c7 c8 c9).2 ((boardFull_mkB c1 c2 c3 c4 c5 c6 c7 c8 c9).1 hfull)
      rw [hfn, cond_true]
      rfl
    · rw [if_neg hfull]
      have hne : ¬noEmptyM c1 c2 c3 c4 c5 c6 c7 c8 c9 := fun hc => hfull ((boardFull_mkB c1 c2 c3 c4 c5 c6 c7 c8 c9).2 hc)
      have hfn : fullN (encM c1 c2 c3 c4 c5 c6 c7 c8 c9) = false := by
        cases hf : fullN (encM c1 c2 c3 c4 c5 c6 c7 c8 c9)
        · rfl
        · exact absurd ((fullN_encM c1 c2 c3 c4 c5 c6 c7 c8 c9).1 hf) hne
      rw [hfn, cond_false]
      obtain ⟨pp0, hpp0, hpp0e⟩ := exists_empty_pp c1 c2 c3 c4 c5 c6 c7 c8 c9 hne
      have hcoh_guard := coh_guard c1 c2 c3 c4 c5 c6 c7 c8 c9
      cases m
      · -- minimizing: X to move
        rw [if_neg (by simp), cond_false]
        have hzip := zip_fold_min (fun b1 => recV b1 true) (fun e1 => lookB e1 true)
          (mkB c1 c2 c3 c4 c5 c6 c7 c8 c9) (encM c1 c2 c3 c4 c5 c6 c7 c8 c9) posPow
          (by
            intro pp hpp
            refine ⟨?_, ?_⟩
            · have hg := hcoh_guard pp hpp
              rwa [encodeB_mkB] at hg
            · intro hpe
              obtain ⟨hv, hs⟩ := hchildX pp hpp hpe
              refine ⟨?_, hs⟩
              show (lookB (encM c1 c2 c3 c4 c5 c6 c7 c8 c9 + 1 * pp.2) true : Int) =
                recV (setCell (mkB c1 c2 c3 c4 c5 c6 c7 c8 c9) pp.1.1 pp.1.2 'X') true + 1
              rw [hv]
              ring)
          999 999 (Or.inl ⟨rfl, rfl⟩)
        rw [posPow_fst, posPow_snd] at hzip
        rcases hzip with ⟨hsent, hsn⟩ | ⟨hrel, hrs⟩
        · exfalso
          have hmem : inS (searchV (fun b1 => recV b1 true) 'X'
              (fun s best => s < best) allPositions (mkB c1 c2 c3 c4 c5 c6 c7 c8 c9) 999) := by
            apply searchV_min_inS
            · intro p hp hpe
              obtain ⟨pp2, hpp2, rfl⟩ := mem_allPositions p hp
              exact (hchildX pp2 hpp2 hpe).2
            · exact ⟨pp0.1, mem_allPositions_of_pp pp0 hpp0, hpp0e⟩
          rw [hsent] at hmem
          unfold inS at hmem
          omega
        · omega
      · -- maximizing: O to move
        rw [if_pos rfl, cond_true]
        have hzip := zip_fold_max (fun b1 => recV b1 false) (fun e1 => lookB e1 false)
          (mkB c1 c2 c3 c4 c5 c6 c7 c8 c9) (encM c1 c2 c3 c4 c5 c6 c7 c8 c9) posPow
          (by
            intro pp hpp
            refine ⟨?_, ?_⟩
            · have hg := hcoh_guard pp hpp
              rwa [encodeB_mkB] at hg
            · intro hpe
              obtain ⟨hv, hs⟩ := hchildO pp hpp hpe
              refine ⟨?_, hs⟩
              show (lookB (encM c1 c2 c3 c4 c5 c6 c7 c8 c9 + 2 * pp.2) false : Int) =
                recV (setCell (mkB c1 c2 c3 c4 c5 c6 c7 c8 c9) pp.1.1 pp.1.2 'O') false + 1
              rw [hv]
              ring)
          (-999) 0 (Or.inl ⟨rfl, rfl⟩)
        rw [posPow_fst, posPow_snd] at hzip
        rcases hzip with ⟨hsent, hsn⟩ | ⟨hrel, hrs⟩
        · exfalso
          have hmem : inS (searchV (fun b1 => recV b1 false) 'O'
              (fun s best => best < s) allPositions (mkB c1 c2 c3 c4 c5 c6 c7 c8 c9) (-999)) := by
            apply searchV_max_inS
            · intro p hp hpe
              obtain ⟨pp2, hpp2, rfl⟩ := mem_allPositions p hp
              exact (hchildO pp2 hpp2 hpe).2
            · exact ⟨pp0.1, mem_allPositions_of_pp pp0 hpp0, hpp0e⟩
          rw [hsent] at hmem
          unfold inS at hmem
          omega
        · omega
  · -- X already won
    rw [if_neg (by simp [hw]), if_pos hw, hwn]
    simp only [show Nat.beq 1 2 = false from rfl, show Nat.beq 1 1 = true from rfl,
      cond_false, cond_true]
    rfl
  · -- O already won
    rw [if_pos hw, hwn]
    simp only [show Nat.beq 2 2 = true from rfl, cond_true]
    rfl

/-- A full board has no empty cell at any of the nine positions. -/
theorem noEmpty_no_cell (c1 c2 c3 c4 c5 c6 c7 c8 c9 : Mark) (h : noEmptyM c1 c2 c3 c4 c5 c6 c7 c8 c9) :
    ∀ pp ∈ posPow, ¬getCell (mkB c1 c2 c3 c4 c5 c6 c7 c8 c9) pp.1.1 pp.1.2 = ' ' := by
  intro pp hpp hpe
  simp only [posPow, List.mem_cons, List.not_mem_nil, or_false] at hpp
  obtain ⟨h1, h2, h3, h4, h5, h6, h7, h8, h9⟩ := h
  rcases hpp with rfl | rfl | rfl | rfl | rfl | rfl | rfl | rfl | rfl
  · exact h1 (by rwa [getCell_mk1, Mark.ch_space_iff] at hpe)
  · exact h2 (by rwa [getCell_mk2, Mark.ch_space_iff] at hpe)
  · exact h3 (by rwa [getCell_mk3, Mark.ch_space_iff] at hpe)
  · exact h4 (by rwa [getCell_mk4, Mark.ch_space_iff] at hpe)
  · exact h5 (by rwa [getCell_mk5, Mark.ch_space_iff] at hpe)
  · exact h6 (by rwa [getCell_mk6, Mark.ch_space_iff] at hpe)
  · exact h7 (by rwa [getCell_mk7, Mark.ch_space_iff] at hpe)
  · exact h8 (by rwa [getCell_mk8, Mark.ch_space_iff] at hpe)
  · exact h9 (by rwa [getCell_mk9, Mark.ch_space_iff] at hpe)

/-- The pure minimax value of a well-formed board is its certified
table entry, whenever the fuel covers the number of empty cells. -/
theorem minimaxVal_lookB : ∀ (fuel : Nat) (c1 c2 c3 c4 c5 c6 c7 c8 c9 : Mark) (m : Bool),
    emptyCount (mkB c1 c2 c3 c4 c5 c6 c7 c8 c9) ≤ fuel →
    minimaxVal fuel (mkB c1 c2 c3 c4 c5 c6 c7 c8 c9) m = (lookB (encM c1 c2 c3 c4 c5 c6 c7 c8 c9) m : Int) - 1 := by
  intro fuel
  induction fuel with
  | zero =>
    intro c1 c2 c3 c4 c5 c6 c7 c8 c9 m hfuel
    have hno : noEmptyM c1 c2 c3 c4 c5 c6 c7 c8 c9 := by
      rw [emptyCount_mkB] at hfuel
      exact (ecM_zero_iff c1 c2 c3 c4 c5 c6 c7 c8 c9).1 (Nat.le_zero.1 hfuel)
    show minimaxGo (fun _ _ => 0) (mkB c1 c2 c3 c4 c5 c6 c7 c8 c9) m = _
    apply go_eq_lookB (fun _ _ => 0) c1 c2 c3 c4 c5 c6 c7 c8 c9
    · intro pp hpp hpe
      exact absurd hpe (noEmpty_no_cell c1 c2 c3 c4 c5 c6 c7 c8 c9 hno pp hpp)
    · intro pp hpp hpe
      exact absurd hpe (noEmpty_no_cell c1 c2 c3 c4 c5 c6 c7 c8 c9 hno pp hpp)
  | succ fuel ih =>
    intro c1 c2 c3 c4 c5 c6 c7 c8 c9 m hfuel
    show minimaxGo (minimaxVal fuel) (mkB c1 c2 c3 c4 c5 c6 c7 c8 c9) m = _
    apply go_eq_lookB (minimaxVal fuel) c1 c2 c3 c4 c5 c6 c7 c8 c9
    · intro pp hpp hpe
      obtain ⟨hok, henc, hec⟩ := (coh_child c1 c2 c3 c4 c5 c6 c7 c8 c9 pp hpp hpe).1
      obtain ⟨d1, d2, d3, d4, d5, d6, d7, d8, d9, heq⟩ := okBoard_mkB_exists _ hok
      rw [heq] at henc hec ⊢
      rw [encodeB_mkB, encodeB_mkB] at henc
      refine ⟨?_, minimaxVal_inS fuel d1 d2 d3 d4 d5 d6 d7 d8 d9 false⟩
      rw [← henc]
      apply ih d1 d2 d3 d4 d5 d6 d7 d8 d9 false
      omega
    · intro pp hpp hpe
      obtain ⟨hok, henc, hec⟩ := (coh_child c1 c2 c3 c4 c5 c6 c7 c8 c9 pp hpp hpe).2
      obtain ⟨d1, d2, d3, d4, d5, d6, d7, d8, d9, heq⟩ := okBoard_mkB_exists _ hok
      rw [heq] at henc hec ⊢
      rw [encodeB_mkB, encodeB_mkB] at henc
      refine ⟨?_, minimaxVal_inS fuel d1 d2 d3 d4 d5 d6 d7 d8 d9 true⟩
      rw [← henc]
      apply ih d1 d2 d3 d4 d5 d6 d7 d8 d9 true
      omega



/-- Score of trying an `'O'` at `p`: `minimax` after the move, with the
opponent to play. -/
def moveScore (b : Board) (p : Pos) : Int :=
  minimaxVal 9 (setCell b p.1 p.2 'O') false

/-- The value part of the candidate loop of `computer_move`. -/
def loopV (b : Board) : List Pos → Int → Option Pos → Int × Option Pos
  | [], best, bm => (best, bm)
  | p :: ps, best, bm =>
    if getCell b p.1 p.2 = ' ' then
      if best < moveScore b p then loopV b ps (moveScore b p) (some p)
      else loopV b ps best bm
    else loopV b ps best bm

/-- The candidate loop leaves the board unchanged and computes `loopV`. -/
theorem cmLoop_spec : ∀ (ps : List Pos) (b : Board) (best : Int) (bm : Option Pos),
    cmLoop ps b best bm = (b, loopV b ps best bm) := by
  intro ps
  induction ps with
  | nil => intro b best bm; rfl
  | cons p ps ih =>
    intro b best bm
    simp only [cmLoop, loopV, minimaxS_eq, moveScore]
    by_cases hemp : getCell b p.1 p.2 = ' '
    · rw [if_pos hemp, if_pos hemp]
      rw [setCell_restore b p.1 p.2 'O' hemp]
      by_cases hlt : best < minimaxVal 9 (setCell b p.1 p.2 'O') false
      · rw [if_pos hlt, if_pos hlt, ih]
      · rw [if_neg hlt, if_neg hlt, ih]
    · rw [if_neg hemp, if_neg hemp, ih]

/-- The best score over the empty cells of `ps`, folded from `best`. -/
def foldBest (b : Board) (ps : List Pos) (best : Int) : Int :=
  ((ps.filter fun p => getCell b p.1 p.2 == ' ').map (moveScore b)).foldl max best

theorem foldBest_nil (b : Board) (best : Int) : foldBest b [] best = best := rfl

theorem foldBest_cons_empty (b : Board) (p : Pos) (ps : List Pos) (best : Int)
    (h : getCell b p.1 p.2 = ' ') :
    foldBest b (p :: ps) best = foldBest b ps (max best (moveScore b p)) := by
  simp [foldBest, List.filter_cons, h]

theorem foldBest_cons_occ (b : Board) (p : Pos) (ps : List Pos) (best : Int)
    (h : ¬getCell b p.1 p.2 = ' ') :
    foldBest b (p :: ps) best = foldBest b ps best := by
  simp [foldBest, List.filter_cons, h]

theorem le_foldBest (b : Board) : ∀ (ps : List Pos) (best : Int), best ≤ foldBest b ps best := by
  intro ps
  induction ps with
  | nil => intro best; simp [foldBest_nil]
  | cons p ps ih =>
    intro best
    by_cases h : getCell b p.1 p.2 = ' '
    · rw [foldBest_cons_empty b p ps best h]
      have := ih (max best (moveScore b p))
      omega
    · rw [foldBest_cons_occ b p ps best h]
      exact ih best

theorem loopV_best : ∀ (ps : List Pos) (b : Board) (best : Int) (bm : Option Pos),
    (loopV b ps best bm).1 = foldBest b ps best := by
  intro ps
  induction ps with
  | nil => intro b best bm; rfl
  | cons p ps ih =>
    intro b best bm
    simp only [loopV]
    by_cases hemp : getCell b p.1 p.2 = ' '
    · rw [if_pos hemp, foldBest_cons_empty b p ps best hemp]
      by_cases hlt : best < moveScore b p
      · rw [if_pos hlt, ih]
        congr 1
        omega
      · rw [if_neg hlt, ih]
        congr 1
        omega
    · rw [if_neg hemp, foldBest_cons_occ b p ps best hemp]
      exact ih b best bm

/-- The move kept by the loop is the first empty cell achieving the
final best score; if nothing beats the incoming score the incoming move
stands. -/
theorem loopV_move : ∀ (ps : List Pos) (b : Board) (best : Int) (bm : Option Pos),
    (loopV b ps best bm).2 =
      if best < foldBest b ps best then
        ps.find? fun p => decide (getCell b p.1 p.2 = ' ') && (moveScore b p == foldBest b ps best)
      else bm := by
  intro ps
  induction ps with
  | nil =>
    intro b best bm
    rw [foldBest_nil]
    simp [loopV]
  | cons p ps ih =>
    intro b best bm
    simp only [loopV]
    by_cases hemp : getCell b p.1 p.2 = ' '
    · rw [if_pos hemp, foldBest_cons_empty b p ps best hemp]
      by_cases hlt : best < moveScore b p
      · rw [if_pos hlt]
        have hmax : max best (moveScore b p) = moveScore b p := by omega
        rw [hmax, ih b (moveScore b p) (some p)]
        have hM := le_foldBest b ps (moveScore b p)
        by_cases hs : moveScore b p < foldBest b ps (moveScore b p)
        · rw [if_pos hs, if_pos (by omega)]
          rw [List.find?_cons_of_neg]
          rintro h
          simp only [Bool.and_eq_true, decide_eq_true_eq, beq_iff_eq] at h
          omega
        · rw [if_neg hs, if_pos (by omega)]
          rw [List.find?_cons_of_pos]
          simp only [Bool.and_eq_true, decide_eq_true_eq, beq_iff_eq]
          exact ⟨hemp, by omega⟩
      · rw [if_neg hlt]
        have hmax : max best (moveScore b p) = best := by omega
        rw [hmax, ih b best bm]
        by_cases hb : best < foldBest b ps best
        · rw [if_pos hb, if_pos hb]
          rw [List.find?_cons_of_neg]
          rintro h
          simp only [Bool.and_eq_true, decide_eq_true_eq, beq_iff_eq] at h
          omega
        · rw [if_neg hb, if_neg hb]
    · rw [if_neg hemp, foldBest_cons_occ b p ps best hemp, ih b best bm]
      by_cases hb : best < foldBest b ps best
      · rw [if_pos hb, if_pos hb]
        rw [List.find?_cons_of_neg]
        rintro h
        simp only [Bool.and_eq_true, decide_eq_true_eq, beq_iff_eq] at h
        exact hemp h.1
      · rw [if_neg hb, if_neg hb]

theorem score_le_foldBest (b : Board) :
    ∀ (ps : List Pos) (best : Int) (p : Pos), p ∈ ps → getCell b p.1 p.2 = ' ' →
      moveScore b p ≤ foldBest b ps best := by
  intro ps
  induction ps with
  | nil => intro best p hp; simp at hp
  | cons q ps ih =>
    intro best p hp hpe
    rcases List.mem_cons.1 hp with rfl | hp2
    · rw [foldBest_cons_empty b p ps best hpe]
      have := le_foldBest b ps (max best (moveScore b p))
      omega
    · by_cases hq : getCell b q.1 q.2 = ' '
      · rw [foldBest_cons_empty b q ps best hq]
        exact ih (max best (moveScore b q)) p hp2 hpe
      · rw [foldBest_cons_occ b q ps best hq]
        exact ih best p hp2 hpe

theorem foldBest_attained (b : Board) :
    ∀ (ps : List Pos) (best : Int),
      foldBest b ps best = best ∨
      ∃ p ∈ ps, getCell b p.1 p.2 = ' ' ∧ moveScore b p = foldBest b ps best := by
  intro ps
  induction ps with
  | nil => intro best; left; rfl
  | cons q ps ih =>
    intro best
    by_cases hq : getCell b q.1 q.2 = ' '
    · rw [foldBest_cons_empty b q ps best hq]
      rcases ih (max best (moveScore b q)) with h | ⟨p, hp, hpe, hps⟩
      · rw [h]
        rcases Int.le_total best (moveScore b q) with hle | hle
        · right
          exact ⟨q, List.mem_cons_self _ _, hq, by omega⟩
        · left
          omega
      · right
        exact ⟨p, List.mem_cons_of_mem q hp, hpe, hps⟩
    · rw [foldBest_cons_occ b q ps best hq]
      rcases ih best with h | ⟨p, hp, hpe, hps⟩
      · left
        exact h
      · right
        exact ⟨p, List.mem_cons_of_mem q hp, hpe, hps⟩

/-- A well-formed board with an empty cell has an empty cell at one of
the nine coordinates. -/
theorem exists_empty_of_emptyCount (b : Board) (hok : okBoard b) (hne : 1 ≤ emptyCount b) :
    ∃ p ∈ allPositions, getCell b p.1 p.2 = ' ' := by
  obtain ⟨c1, c2, c3, c4, c5, c6, c7, c8, c9, rfl⟩ := okBoard_mkB_exists b hok
  rw [emptyCount_mkB] at hne
  have hno : ¬noEmptyM c1 c2 c3 c4 c5 c6 c7 c8 c9 := by
    intro hc
    rw [← ecM_zero_iff c1 c2 c3 c4 c5 c6 c7 c8 c9] at hc
    omega
  obtain ⟨pp, hpp, hpe⟩ := exists_empty_pp c1 c2 c3 c4 c5 c6 c7 c8 c9 hno
  exact ⟨pp.1, mem_allPositions_of_pp pp hpp, hpe⟩

/-- Trying an `'O'` on an empty cell of a well-formed board scores in
the score range. -/
theorem moveScore_inS (b : Board) (hok : okBoard b) (p : Pos) (hp : p ∈ allPositions)
    (hpe : getCell b p.1 p.2 = ' ') : inS (moveScore b p) := by
  obtain ⟨c1, c2, c3, c4, c5, c6, c7, c8, c9, rfl⟩ := okBoard_mkB_exists b hok
  obtain ⟨pp, hpp, rfl⟩ := mem_allPositions p hp
  have hok2 : okBoard (setCell (mkB c1 c2 c3 c4 c5 c6 c7 c8 c9) pp.1.1 pp.1.2 'O') :=
    ((coh_child c1 c2 c3 c4 c5 c6 c7 c8 c9 pp hpp hpe).1).1
  obtain ⟨d1, d2, d3, d4, d5, d6, d7, d8, d9, heq⟩ := okBoard_mkB_exists _ hok2
  unfold moveScore
  rw [heq]
  exact minimaxVal_inS 9 d1 d2 d3 d4 d5 d6 d7 d8 d9 false

/-- What `Game.computer_move` does on a well-formed board with a free
cell: the chosen move is the first empty cell whose score is the best
score, and exactly that cell is filled with an `'O'`. -/
theorem computer_moveS_spec (b : Board) (hok : okBoard b) (hne : 1 ≤ emptyCount b) :
    ∃ p : Pos,
      computer_moveS b = (setCell b p.1 p.2 'O', some p) ∧
      p ∈ allPositions ∧ getCell b p.1 p.2 = ' ' ∧
      moveScore b p = foldBest b allPositions (-999) ∧
      allPositions.find?
        (fun q => decide (getCell b q.1 q.2 = ' ') &&
          (moveScore b q == foldBest b allPositions (-999))) = some p := by
  obtain ⟨p0, hp0, hp0e⟩ := exists_empty_of_emptyCount b hok hne
  have hs0 : inS (moveScore b p0) := moveScore_inS b hok p0 hp0 hp0e
  have hlt : (-999 : Int) < foldBest b allPositions (-999) := by
    have h1 := score_le_foldBest b allPositions (-999) p0 hp0 hp0e
    unfold inS at hs0
    omega
  have hfind : (allPositions.find?
      (fun q => decide (getCell b q.1 q.2 = ' ') &&
        (moveScore b q == foldBest b allPositions (-999)))).isSome = true := by
    rcases foldBest_attained b allPositions (-999) with h | ⟨q, hq, hqe, hqs⟩
    · omega
    · rw [List.find?_isSome]
      exact ⟨q, hq, by simp [hqe, hqs]⟩
  obtain ⟨p, hp⟩ := Option.isSome_iff_exists.1 hfind
  refine ⟨p, ?_, ?_, ?_, ?_, hp⟩
  · unfold computer_moveS
    rw [cmLoop_spec allPositions b (-999) none]
    simp only
    rw [show (loopV b allPositions (-999) none) =
        ((loopV b allPositions (-999) none).1, (loopV b allPositions (-999) none).2) from rfl]
    rw [loopV_move allPositions b (-999) none, if_pos hlt, hp]
  · exact List.mem_of_find?_eq_some hp
  · have := List.find?_some hp
    simp only [Bool.and_eq_true, decide_eq_true_eq, beq_iff_eq] at this
    exact this.1
  · have := List.find?_some hp
    simp only [Bool.and_eq_true, decide_eq_true_eq, beq_iff_eq] at this
    exact this.2

/-- The eight winning lines of the spec: three rows, three columns,
two diagonals. -/
def winLines : List (Pos × Pos × Pos) :=
  [((0, 0), (0, 1), (0, 2)), ((1, 0), (1, 1), (1, 2)), ((2, 0), (2, 1), (2, 2)),
   ((0, 0), (1, 0), (2, 0)), ((0, 1), (1, 1), (2, 1)), ((0, 2), (1, 2), (2, 2)),
   ((0, 0), (1, 1), (2, 2)), ((0, 2), (1, 1), (2, 0))]

/-- The spec's `hasWin`: all three cells of one of the eight lines hold
the player's mark. -/
def hasWin (b : Board) (mk : Cell) : Prop :=
  ∃ l ∈ winLines,
    getCell b l.1.1 l.1.2 = mk ∧ getCell b l.2.1.1 l.2.1.2 = mk ∧ getCell b l.2.2.1 l.2.2.2 = mk

instance (b : Board) (mk : Cell) : Decidable (hasWin b mk) := by
  unfold hasWin; infer_instance

/-- First player's completed line. -/
def xWins (b : Board) : Prop := hasWin b 'X'

/-- Second player's completed line. -/
def oWins (b : Board) : Prop := hasWin b 'O'

instance (b : Board) : Decidable (xWins b) := by unfold xWins; infer_instance

instance (b : Board) : Decidable (oWins b) := by unfold oWins; infer_instance

/-- The eight three-in-a-row conditions at mark level. -/
def xWinsM (c1 c2 c3 c4 c5 c6 c7 c8 c9 : Mark) : Prop :=
  (c1 = Mark.mx ∧ c2 = Mark.mx ∧ c3 = Mark.mx) ∨
  (c4 = Mark.mx ∧ c5 = Mark.mx ∧ c6 = Mark.mx) ∨
  (c7 = Mark.mx ∧ c8 = Mark.mx ∧ c9 = Mark.mx) ∨
  (c1 = Mark.mx ∧ c4 = Mark.mx ∧ c7 = Mark.mx) ∨
  (c2 = Mark.mx ∧ c5 = Mark.mx ∧ c8 = Mark.mx) ∨
  (c3 = Mark.mx ∧ c6 = Mark.mx ∧ c9 = Mark.mx) ∨
  (c1 = Mark.mx ∧ c5 = Mark.mx ∧ c9 = Mark.mx) ∨
  (c3 = Mark.mx ∧ c5 = Mark.mx ∧ c7 = Mark.mx)

/-- The eight three-in-a-row conditions at mark level. -/
def oWinsM (c1 c2 c3 c4 c5 c6 c7 c8 c9 : Mark) : Prop :=
  (c1 = Mark.mo ∧ c2 = Mark.mo ∧ c3 = Mark.mo) ∨
  (c4 = Mark.mo ∧ c5 = Mark.mo ∧ c6 = Mark.mo) ∨
  (c7 = Mark.mo ∧ c8 = Mark.mo ∧ c9 = Mark.mo) ∨
  (c1 = Mark.mo ∧ c4 = Mark.mo ∧ c7 = Mark.mo) ∨
  (c2 = Mark.mo ∧ c5 = Mark.mo ∧ c8 = Mark.mo) ∨
  (c3 = Mark.mo ∧ c6 = Mark.mo ∧ c9 = Mark.mo) ∨
  (c1 = Mark.mo ∧ c5 = Mark.mo ∧ c9 = Mark.mo) ∨
  (c3 = Mark.mo ∧ c5 = Mark.mo ∧ c7 = Mark.mo)

instance (c1 c2 c3 c4 c5 c6 c7 c8 c9 : Mark) : Decidable (xWinsM c1 c2 c3 c4 c5 c6 c7 c8 c9) := by
  unfold xWinsM; infer_instance

instance (c1 c2 c3 c4 c5 c6 c7 c8 c9 : Mark) : Decidable (oWinsM c1 c2 c3 c4 c5 c6 c7 c8 c9) := by
  unfold oWinsM; infer_instance

theorem ch_X_iff (x : Mark) : x.ch = 'X' ↔ x = Mark.mx := by
  cases x <;> simp [Mark.ch]

theorem ch_O_iff (x : Mark) : x.ch = 'O' ↔ x = Mark.mo := by
  cases x <;> simp [Mark.ch]

theorem xWins_mkB (c1 c2 c3 c4 c5 c6 c7 c8 c9 : Mark) :
    xWins (mkB c1 c2 c3 c4 c5 c6 c7 c8 c9) ↔ xWinsM c1 c2 c3 c4 c5 c6 c7 c8 c9 := by
  simp [xWins, hasWin, winLines, xWinsM, getCell_mk1, getCell_mk2, getCell_mk3, getCell_mk4,
    getCell_mk5, getCell_mk6, getCell_mk7, getCell_mk8, getCell_mk9, ch_X_iff]

theorem oWins_mkB (c1 c2 c3 c4 c5 c6 c7 c8 c9 : Mark) :
    oWins (mkB c1 c2 c3 c4 c5 c6 c7 c8 c9) ↔ oWinsM c1 c2 c3 c4 c5 c6 c7 c8 c9 := by
  simp [oWins, hasWin, winLines, oWinsM, getCell_mk1, getCell_mk2, getCell_mk3, getCell_mk4,
    getCell_mk5, getCell_mk6, getCell_mk7, getCell_mk8, getCell_mk9, ch_O_iff]

/-- Agreement bit of the winner code with the two win predicates on
one board. -/
def winsChk (c1 c2 c3 c4 c5 c6 c7 c8 c9 : Mark) : Bool :=
  decide ((cwsN c1 c2 c3 c4 c5 c6 c7 c8 c9 = 0 →
      ¬xWinsM c1 c2 c3 c4 c5 c6 c7 c8 c9 ∧ ¬oWinsM c1 c2 c3 c4 c5 c6 c7 c8 c9) ∧
    (cwsN c1 c2 c3 c4 c5 c6 c7 c8 c9 = 1 → xWinsM c1 c2 c3 c4 c5 c6 c7 c8 c9) ∧
    (cwsN c1 c2 c3 c4 c5 c6 c7 c8 c9 = 2 → oWinsM c1 c2 c3 c4 c5 c6 c7 c8 c9))

set_option maxRecDepth 2000 in
theorem winsChk_1 : all7 (winsChk Mark.mx Mark.mx) = true := by decide!

set_option maxRecDepth 2000 in
theorem winsChk_2 : all7 (winsChk Mark.mx Mark.mo) = true := by decide!

set_option maxRecDepth 2000 in
theorem winsChk_3 : all7 (winsChk Mark.mx Mark.me) = true := by decide!

set_option maxRecDepth 2000 in
theorem winsChk_4 : all7 (winsChk Mark.mo Mark.mx) = true := by decide!

set_option maxRecDepth 2000 in
theorem winsChk_5 : all7 (winsChk Mark.mo Mark.mo) = true := by decide!

set_option maxRecDepth 2000 in
theorem winsChk_6 : all7 (winsChk Mark.mo Mark.me) = true := by decide!

set_option maxRecDepth 2000 in
theorem winsChk_7 : all7 (winsChk Mark.me Mark.mx) = true := by decide!

set_option maxRecDepth 2000 in
theorem winsChk_8 : all7 (winsChk Mark.me Mark.mo) = true := by decide!

set_option maxRecDepth 2000 in
theorem winsChk_9 : all7 (winsChk Mark.me Mark.me) = true := by decide!

theorem cwsN_wins_check : all9 winsChk = true := by
  show ((((all7 (winsChk Mark.mx Mark.mx) && all7 (winsChk Mark.mx Mark.mo)) && all7 (winsChk Mark.mx Mark.me)) && ((all7 (winsChk Mark.mo Mark.mx) && all7 (winsChk Mark.mo Mark.mo)) && all7 (winsChk Mark.mo Mark.me))) && ((all7 (winsChk Mark.me Mark.mx) && all7 (winsChk Mark.me Mark.mo)) && all7 (winsChk Mark.me Mark.me))) = true
  rw [winsChk_1, winsChk_2, winsChk_3, winsChk_4, winsChk_5, winsChk_6, winsChk_7,
    winsChk_8, winsChk_9]
  rfl

theorem cwsN_wins (c1 c2 c3 c4 c5 c6 c7 c8 c9 : Mark) :
    (cwsN c1 c2 c3 c4 c5 c6 c7 c8 c9 = 0 →
        ¬xWinsM c1 c2 c3 c4 c5 c6 c7 c8 c9 ∧ ¬oWinsM c1 c2 c3 c4 c5 c6 c7 c8 c9) ∧
      (cwsN c1 c2 c3 c4 c5 c6 c7 c8 c9 = 1 → xWinsM c1 c2 c3 c4 c5 c6 c7 c8 c9) ∧
      (cwsN c1 c2 c3 c4 c5 c6 c7 c8 c9 = 2 → oWinsM c1 c2 c3 c4 c5 c6 c7 c8 c9) :=
  of_decide_eq_true (all9_spec cwsN_wins_check c1 c2 c3 c4 c5 c6 c7 c8 c9)

/-- Largest element of a list of scores (0 on the empty list, which the
spec never reaches). -/
def maxOf : List Int → Int
  | [] => 0
  | x :: xs => xs.foldl max x

/-- Smallest element of a list of scores. -/
def minOf : List Int → Int
  | [] => 0
  | x :: xs => xs.foldl min x

/-- The game value exactly as the spec words it: +1 when the second
player has won, -1 when the first player has won, 0 on a full board or
a leaf reached by depth exhaustion, and otherwise the maximum (second
player to move) or minimum (first player to move) over all legal moves
of the value after playing the mover's mark there. -/
def specValue : Nat → Board → Bool → Int
  | 0, b, _ =>
    if oWins b then 1
    else if xWins b then -1
    else 0
  | fuel + 1, b, m =>
    if oWins b then 1
    else if xWins b then -1
    else if legalMoves b = [] then 0
    else if m then
      maxOf ((legalMoves b).map fun p => specValue fuel (setCell b p.1 p.2 'O') false)
    else
      minOf ((legalMoves b).map fun p => specValue fuel (setCell b p.1 p.2 'X') true)

theorem xWinsM_setO1 (c2 c3 c4 c5 c6 c7 c8 c9 : Mark) :
    xWinsM Mark.mo c2 c3 c4 c5 c6 c7 c8 c9 ↔ xWinsM Mark.me c2 c3 c4 c5 c6 c7 c8 c9 := by
  simp [xWinsM]

theorem oWinsM_setX1 (c2 c3 c4 c5 c6 c7 c8 c9 : Mark) :
    oWinsM Mark.mx c2 c3 c4 c5 c6 c7 c8 c9 ↔ oWinsM Mark.me c2 c3 c4 c5 c6 c7 c8 c9 := by
  simp [oWinsM]

theorem xWinsM_setO2 (c1 c3 c4 c5 c6 c7 c8 c9 : Mark) :
    xWinsM c1 Mark.mo c3 c4 c5 c6 c7 c8 c9 ↔ xWinsM c1 Mark.me c3 c4 c5 c6 c7 c8 c9 := by
  simp [xWinsM]

theorem oWinsM_setX2 (c1 c3 c4 c5 c6 c7 c8 c9 : Mark) :
    oWinsM c1 Mark.mx c3 c4 c5 c6 c7 c8 c9 ↔ oWinsM c1 Mark.me c3 c4 c5 c6 c7 c8 c9 := by
  simp [oWinsM]

theorem xWinsM_setO3 (c1 c2 c4 c5 c6 c7 c8 c9 : Mark) :
    xWinsM c1 c2 Mark.mo c4 c5 c6 c7 c8 c9 ↔ xWinsM c1 c2 Mark.me c4 c5 c6 c7 c8 c9 := by
  simp [xWinsM]

theorem oWinsM_setX3 (c1 c2 c4 c5 c6 c7 c8 c9 : Mark) :
    oWinsM c1 c2 Mark.mx c4 c5 c6 c7 c8 c9 ↔ oWinsM c1 c2 Mark.me c4 c5 c6 c7 c8 c9 := by
  simp [oWinsM]

theorem xWinsM_setO4 (c1 c2 c3 c5 c6 c7 c8 c9 : Mark) :
    xWinsM c1 c2 c3 Mark.mo c5 c6 c7 c8 c9 ↔ xWinsM c1 c2 c3 Mark.me c5 c6 c7 c8 c9 := by
  simp [xWinsM]

theorem oWinsM_setX4 (c1 c2 c3 c5 c6 c7 c8 c9 : Mark) :
    oWinsM c1 c2 c3 Mark.mx c5 c6 c7 c8 c9 ↔ oWinsM c1 c2 c3 Mark.me c5 c6 c7 c8 c9 := by
  simp [oWinsM]

theorem xWinsM_setO5 (c1 c2 c3 c4 c6 c7 c8 c9 : Mark) :
    xWinsM c1 c2 c3 c4 Mark.mo c6 c7 c8 c9 ↔ xWinsM c1 c2 c3 c4 Mark.me c6 c7 c8 c9 := by
  simp [xWinsM]

theorem oWinsM_setX5 (c1 c2 c3 c4 c6 c7 c8 c9 : Mark) :
    oWinsM c1 c2 c3 c4 Mark.mx c6 c7 c8 c9 ↔ oWinsM c1 c2 c3 c4 Mark.me c6 c7 c8 c9 := by
  simp [oWinsM]

theorem xWinsM_setO6 (c1 c2 c3 c4 c5 c7 c8 c9 : Mark) :
    xWinsM c1 c2 c3 c4 c5 Mark.mo c7 c8 c9 ↔ xWinsM c1 c2 c3 c4 c5 Mark.me c7 c8 c9 := by
  simp [xWinsM]

theorem oWinsM_setX6 (c1 c2 c3 c4 c5 c7 c8 c9 : Mark) :
    oWinsM c1 c2 c3 c4 c5 Mark.mx c7 c8 c9 ↔ oWinsM c1 c2 c3 c4 c5 Mark.me c7 c8 c9 := by
  simp [oWinsM]

theorem xWinsM_setO7 (c1 c2 c3 c4 c5 c6 c8 c9 : Mark) :
    xWinsM c1 c2 c3 c4 c5 c6 Mark.mo c8 c9 ↔ xWinsM c1 c2 c3 c4 c5 c6 Mark.me c8 c9 := by
  simp [xWinsM]

theorem oWinsM_setX7 (c1 c2 c3 c4 c5 c6 c8 c9 : Mark) :
    oWinsM c1 c2 c3 c4 c5 c6 Mark.mx c8 c9 ↔ oWinsM c1 c2 c3 c4 c5 c6 Mark.me c8 c9 := by
  simp [oWinsM]

theorem xWinsM_setO8 (c1 c2 c3 c4 c5 c6 c7 c9 : Mark) :
    xWinsM c1 c2 c3 c4 c5 c6 c7 Mark.mo c9 ↔ xWinsM c1 c2 c3 c4 c5 c6 c7 Mark.me c9 := by
  simp [xWinsM]

theorem oWinsM_setX8 (c1 c2 c3 c4 c5 c6 c7 c9 : Mark) :
    oWinsM c1 c2 c3 c4 c5 c6 c7 Mark.mx c9 ↔ oWinsM c1 c2 c3 c4 c5 c6 c7 Mark.me c9 := by
  simp [oWinsM]

theorem xWinsM_setO9 (c1 c2 c3 c4 c5 c6 c7 c8 : Mark) :
    xWinsM c1 c2 c3 c4 c5 c6 c7 c8 Mark.mo ↔ xWinsM c1 c2 c3 c4 c5 c6 c7 c8 Mark.me := by
  simp [xWinsM]

theorem oWinsM_setX9 (c1 c2 c3 c4 c5 c6 c7 c8 : Mark) :
    oWinsM c1 c2 c3 c4 c5 c6 c7 c8 Mark.mx ↔ oWinsM c1 c2 c3 c4 c5 c6 c7 c8 Mark.me := by
  simp [oWinsM]

theorem searchV_max_foldl (recV : Board → Int) :
    ∀ (ps : List Pos) (b : Board) (best : Int),
      searchV recV 'O' (fun s best => best < s) ps b best =
        ((ps.filter fun p => getCell b p.1 p.2 == ' ').map
          fun p => recV (setCell b p.1 p.2 'O')).foldl max best := by
  intro ps
  induction ps with
  | nil => intro b best; rfl
  | cons p ps ih =>
    intro b best
    rw [searchV, List.filter_cons]
    by_cases hemp : getCell b p.1 p.2 = ' '
    · rw [if_pos hemp, if_pos (by simpa using hemp)]
      simp only [decide_eq_true_eq, List.map_cons, List.foldl_cons]
      rw [ih]
      have hm : (if best < recV (setCell b p.1 p.2 'O') then recV (setCell b p.1 p.2 'O')
          else best) = max best (recV (setCell b p.1 p.2 'O')) := by
        split <;> omega
      rw [hm]
    · rw [if_neg hemp, if_neg (by simpa using hemp)]
      exact ih b best

theorem searchV_min_foldl (recV : Board → Int) :
    ∀ (ps : List Pos) (b : Board) (best : Int),
      searchV recV 'X' (fun s best => s < best) ps b best =
        ((ps.filter fun p => getCell b p.1 p.2 == ' ').map
          fun p => recV (setCell b p.1 p.2 'X')).foldl min best := by
  intro ps
  induction ps with
  | nil => intro b best; rfl
  | cons p ps ih =>
    intro b best
    rw [searchV, List.filter_cons]
    by_cases hemp : getCell b p.1 p.2 = ' '
    · rw [if_pos hemp, if_pos (by simpa using hemp)]
      simp only [decide_eq_true_eq, List.map_cons, List.foldl_cons]
      rw [ih]
      have hm : (if recV (setCell b p.1 p.2 'X') < best then recV (setCell b p.1 p.2 'X')
          else best) = min best (recV (setCell b p.1 p.2 'X')) := by
        split <;> omega
      rw [hm]
    · rw [if_neg hemp, if_neg (by simpa using hemp)]
      exact ih b best

theorem foldl_max_sentinel (xs : List Int) (x : Int) (hx : -1 ≤ x) :
    (x :: xs).foldl max (-999) = maxOf (x :: xs) := by
  simp only [List.foldl_cons, maxOf]
  congr 1
  omega

theorem foldl_min_sentinel (xs : List Int) (x : Int) (hx : x ≤ 1) :
    (x :: xs).foldl min 999 = minOf (x :: xs) := by
  simp only [List.foldl_cons, minOf]
  congr 1
  omega

/-- Placing an `'O'` on a board without a completed first player's line
cannot complete one. -/
theorem child_noBoth_O (c1 c2 c3 c4 c5 c6 c7 c8 c9 : Mark) (hx : ¬xWinsM c1 c2 c3 c4 c5 c6 c7 c8 c9) :
    ∀ pp ∈ posPow, getCell (mkB c1 c2 c3 c4 c5 c6 c7 c8 c9) pp.1.1 pp.1.2 = ' ' →
      ¬(xWins (setCell (mkB c1 c2 c3 c4 c5 c6 c7 c8 c9) pp.1.1 pp.1.2 'O') ∧
        oWins (setCell (mkB c1 c2 c3 c4 c5 c6 c7 c8 c9) pp.1.1 pp.1.2 'O')) := by
  intro pp hpp hpe hboth
  simp only [posPow, List.mem_cons, List.not_mem_nil, or_false] at hpp
  rcases hpp with rfl | rfl | rfl | rfl | rfl | rfl | rfl | rfl | rfl <;>
    (first
     | rw [getCell_mk1, Mark.ch_space_iff] at hpe
     | rw [getCell_mk2, Mark.ch_space_iff] at hpe
     | rw [getCell_mk3, Mark.ch_space_iff] at hpe
     | rw [getCell_mk4, Mark.ch_space_iff] at hpe
     | rw [getCell_mk5, Mark.ch_space_iff] at hpe
     | rw [getCell_mk6, Mark.ch_space_iff] at hpe
     | rw [getCell_mk7, Mark.ch_space_iff] at hpe
     | rw [getCell_mk8, Mark.ch_space_iff] at hpe
     | rw [getCell_mk9, Mark.ch_space_iff] at hpe) <;>
    subst hpe <;>
    (first
     | rw [setO1] at hboth
     | rw [setO2] at hboth
     | rw [setO3] at hboth
     | rw [setO4] at hboth
     | rw [setO5] at hboth
     | rw [setO6] at hboth
     | rw [setO7] at hboth
     | rw [setO8] at hboth
     | rw [setO9] at hboth) <;>
    rw [xWins_mkB] at hboth <;>
    (first
     | rw [xWinsM_setO1] at hboth
     | rw [xWinsM_setO2] at hboth
     | rw [xWinsM_setO3] at hboth
     | rw [xWinsM_setO4] at hboth
     | rw [xWinsM_setO5] at hboth
     | rw [xWinsM_setO6] at hboth
     | rw [xWinsM_setO7] at hboth
     | rw [xWinsM_setO8] at hboth
     | rw [xWinsM_setO9] at hboth) <;>
    exact hx hboth.1

/-- Placing an `'X'` on a board without a completed second player's
line cannot complete one. -/
theorem child_noBoth_X (c1 c2 c3 c4 c5 c6 c7 c8 c9 : Mark) (ho : ¬oWinsM c1 c2 c3 c4 c5 c6 c7 c8 c9) :
    ∀ pp ∈ posPow, getCell (mkB c1 c2 c3 c4 c5 c6 c7 c8 c9) pp.1.1 pp.1.2 = ' ' →
      ¬(xWins (setCell (mkB c1 c2 c3 c4 c5 c6 c7 c8 c9) pp.1.1 pp.1.2 'X') ∧
        oWins (setCell (mkB c1 c2 c3 c4 c5 c6 c7 c8 c9) pp.1.1 pp.1.2 'X')) := by
  intro pp hpp hpe hboth
  simp only [posPow, List.mem_cons, List.not_mem_nil, or_false] at hpp
  rcases hpp with rfl | rfl | rfl | rfl | rfl | rfl | rfl | rfl | rfl <;>
    (first
     | rw [getCell_mk1, Mark.ch_space_iff] at hpe
     | rw [getCell_mk2, Mark.ch_space_iff] at hpe
     | rw [getCell_mk3, Mark.ch_space_iff] at hpe
     | rw [getCell_mk4, Mark.ch_space_iff] at hpe
     | rw [getCell_mk5, Mark.ch_space_iff] at hpe
     | rw [getCell_mk6, Mark.ch_space_iff] at hpe
     | rw [getCell_mk7, Mark.ch_space_iff] at hpe
     | rw [getCell_mk8, Mark.ch_space_iff] at hpe
     | rw [getCell_mk9, Mark.ch_space_iff] at hpe) <;>
    subst hpe <;>
    (first
     | rw [setX1] at hboth
     | rw [setX2] at hboth
     | rw [setX3] at hboth
     | rw [setX4] at hboth
     | rw [setX5] at hboth
     | rw [setX6] at hboth
     | rw [setX7] at hboth
     | rw [setX8] at hboth
     | rw [setX9] at hboth) <;>
    rw [oWins_mkB] at hboth <;>
    (first
     | rw [oWinsM_setX1] at hboth
     | rw [oWinsM_setX2] at hboth
     | rw [oWinsM_setX3] at hboth
     | rw [oWinsM_setX4] at hboth
     | rw [oWinsM_setX5] at hboth
     | rw [oWinsM_setX6] at hboth
     | rw [oWinsM_setX7] at hboth
     | rw [oWinsM_setX8] at hboth
     | rw [oWinsM_setX9] at hboth) <;>
    exact ho hboth.2

theorem legalMoves_eq_filter (b : Board) :
    (allPositions.filter fun p => getCell b p.1 p.2 == ' ') = legalMoves b := rfl

theorem legalMoves_nil_iff (c1 c2 c3 c4 c5 c6 c7 c8 c9 : Mark) :
    legalMoves (mkB c1 c2 c3 c4 c5 c6 c7 c8 c9) = [] ↔ noEmptyM c1 c2 c3 c4 c5 c6 c7 c8 c9 := by
  rw [← ecM_zero_iff, ← emptyCount_mkB]
  exact List.length_eq_zero.symm

theorem legal_to_posPow (b : Board) (p : Pos) (hp : p ∈ legalMoves b) :
    ∃ pp ∈ posPow, pp.1 = p ∧ getCell b p.1 p.2 = ' ' := by
  unfold legalMoves at hp
  rw [List.mem_filter] at hp
  obtain ⟨hmem, hemp⟩ := hp
  rw [← posPow_fst] at hmem
  obtain ⟨pp, hpp, hfst⟩ := List.mem_map.1 hmem
  exact ⟨pp, hpp, hfst, by simpa using hemp⟩

/-- Every legal `'O'` move from a mark-built board without a first
player's line leads to a mark-built board where the players do not both
have completed lines. -/
theorem childO_facts (c1 c2 c3 c4 c5 c6 c7 c8 c9 : Mark) (hnx : ¬xWinsM c1 c2 c3 c4 c5 c6 c7 c8 c9) (p : Pos)
    (hp : p ∈ legalMoves (mkB c1 c2 c3 c4 c5 c6 c7 c8 c9)) :
    ∃ d1 d2 d3 d4 d5 d6 d7 d8 d9 : Mark,
      setCell (mkB c1 c2 c3 c4 c5 c6 c7 c8 c9) p.1 p.2 'O' = mkB d1 d2 d3 d4 d5 d6 d7 d8 d9 ∧
      ¬(xWins (mkB d1 d2 d3 d4 d5 d6 d7 d8 d9) ∧ oWins (mkB d1 d2 d3 d4 d5 d6 d7 d8 d9)) := by
  obtain ⟨pp, hppmem, hfst, hpe⟩ := legal_to_posPow _ p hp
  subst hfst
  have hok := ((coh_child c1 c2 c3 c4 c5 c6 c7 c8 c9 pp hppmem hpe).1).1
  obtain ⟨d1, d2, d3, d4, d5, d6, d7, d8, d9, heq⟩ := okBoard_mkB_exists _ hok
  have hnb := child_noBoth_O c1 c2 c3 c4 c5 c6 c7 c8 c9 hnx pp hppmem hpe
  rw [heq] at hnb
  exact ⟨d1, d2, d3, d4, d5, d6, d7, d8, d9, heq, hnb⟩

/-- Every legal `'X'` move from a mark-built board without a second
player's line leads to a mark-built board where the players do not both
have completed lines. -/
theorem childX_facts (c1 c2 c3 c4 c5 c6 c7 c8 c9 : Mark) (hno : ¬oWinsM c1 c2 c3 c4 c5 c6 c7 c8 c9) (p : Pos)
    (hp : p ∈ legalMoves (mkB c1 c2 c3 c4 c5 c6 c7 c8 c9)) :
    ∃ d1 d2 d3 d4 d5 d6 d7 d8 d9 : Mark,
      setCell (mkB c1 c2 c3 c4 c5 c6 c7 c8 c9) p.1 p.2 'X' = mkB d1 d2 d3 d4 d5 d6 d7 d8 d9 ∧
      ¬(xWins (mkB d1 d2 d3 d4 d5 d6 d7 d8 d9) ∧ oWins (mkB d1 d2 d3 d4 d5 d6 d7 d8 d9)) := by
  obtain ⟨pp, hppmem, hfst, hpe⟩ := legal_to_posPow _ p hp
  subst hfst
  have hok := ((coh_child c1 c2 c3 c4 c5 c6 c7 c8 c9 pp hppmem hpe).2).1
  obtain ⟨d1, d2, d3, d4, d5, d6, d7, d8, d9, heq⟩ := okBoard_mkB_exists _ hok
  have hnb := child_noBoth_X c1 c2 c3 c4 c5 c6 c7 c8 c9 hno pp hppmem hpe
  rw [heq] at hnb
  exact ⟨d1, d2, d3, d4, d5, d6, d7, d8, d9, heq, hnb⟩

theorem foldl_max_zero_acc : ∀ (l : List Int), (∀ x ∈ l, x = 0) → l.foldl max 0 = 0 := by
  intro l
  induction l with
  | nil => intro _; rfl
  | cons x xs ih =>
    intro h
    rw [List.foldl_cons, h x (List.mem_cons_self x xs)]
    simpa using ih fun y hy => h y (List.mem_cons_of_mem x hy)

theorem foldl_min_zero_acc : ∀ (l : List Int), (∀ x ∈ l, x = 0) → l.foldl min 0 = 0 := by
  intro l
  induction l with
  | nil => intro _; rfl
  | cons x xs ih =>
    intro h
    rw [List.foldl_cons, h x (List.mem_cons_self x xs)]
    simpa using ih fun y hy => h y (List.mem_cons_of_mem x hy)

theorem foldl_max_zeros (l : List Int) (h : ∀ x ∈ l, x = 0) (hne : ¬l = []) :
    l.foldl max (-999) = 0 := by
  cases l with
  | nil => exact absurd rfl hne
  | cons x xs =>
    rw [List.foldl_cons, h x (List.mem_cons_self x xs)]
    have hm : max (-999 : Int) 0 = 0 := by norm_num
    rw [hm]
    exact foldl_max_zero_acc xs fun y hy => h y (List.mem_cons_of_mem x hy)

theorem foldl_min_zeros (l : List Int) (h : ∀ x ∈ l, x = 0) (hne : ¬l = []) :
    l.foldl min 999 = 0 := by
  cases l with
  | nil => exact absurd rfl hne
  | cons x xs =>
    rw [List.foldl_cons, h x (List.mem_cons_self x xs)]
    have hm : min (999 : Int) 0 = 0 := by norm_num
    rw [hm]
    exact foldl_min_zero_acc xs fun y hy => h y (List.mem_cons_of_mem x hy)

/-- On every board where the two players do not both hold completed
lines, the program's minimax value coincides with the specified game
value, at every search depth. -/
theorem minimaxVal_eq_specValue_mkB :
    ∀ (fuel : Nat) (c1 c2 c3 c4 c5 c6 c7 c8 c9 : Mark) (m : Bool),
    ¬(xWins (mkB c1 c2 c3 c4 c5 c6 c7 c8 c9) ∧ oWins (mkB c1 c2 c3 c4 c5 c6 c7 c8 c9)) →
    minimaxVal fuel (mkB c1 c2 c3 c4 c5 c6 c7 c8 c9) m = specValue fuel (mkB c1 c2 c3 c4 c5 c6 c7 c8 c9) m := by
  intro fuel
  induction fuel with
  | zero =>
    intro c1 c2 c3 c4 c5 c6 c7 c8 c9 m hno
    show minimaxGo (fun _ _ => 0) (mkB c1 c2 c3 c4 c5 c6 c7 c8 c9) m = specValue 0 (mkB c1 c2 c3 c4 c5 c6 c7 c8 c9) m
    simp only [minimaxGo, specValue]
    rcases cws_cases c1 c2 c3 c4 c5 c6 c7 c8 c9 with ⟨hw, hwn⟩ | ⟨hw, hwn⟩ | ⟨hw, hwn⟩
    · have hcw : cwsN c1 c2 c3 c4 c5 c6 c7 c8 c9 = 0 := by rw [← winnerN_encM]; exact hwn
      obtain ⟨hnx, hnoo⟩ := (cwsN_wins c1 c2 c3 c4 c5 c6 c7 c8 c9).1 hcw
      have hnxb : ¬xWins (mkB c1 c2 c3 c4 c5 c6 c7 c8 c9) := fun h => hnx ((xWins_mkB c1 c2 c3 c4 c5 c6 c7 c8 c9).1 h)
      have hnob : ¬oWins (mkB c1 c2 c3 c4 c5 c6 c7 c8 c9) := fun h => hnoo ((oWins_mkB c1 c2 c3 c4 c5 c6 c7 c8 c9).1 h)
      rw [hw]
      rw [if_neg (by decide : ¬((none : Option Cell) = some 'O')),
        if_neg (by decide : ¬((none : Option Cell) = some 'X')),
        if_neg hnob, if_neg hnxb]
      by_cases hfull : noEmptyM c1 c2 c3 c4 c5 c6 c7 c8 c9
      · rw [if_pos ((boardFull_mkB c1 c2 c3 c4 c5 c6 c7 c8 c9).2 hfull)]
      · have hbf : ¬(boardFull (mkB c1 c2 c3 c4 c5 c6 c7 c8 c9) = true) := fun h => hfull ((boardFull_mkB c1 c2 c3 c4 c5 c6 c7 c8 c9).1 h)
        have hnonnil : ¬(legalMoves (mkB c1 c2 c3 c4 c5 c6 c7 c8 c9) = []) :=
          fun h => hfull ((legalMoves_nil_iff c1 c2 c3 c4 c5 c6 c7 c8 c9).1 h)
        rw [if_neg hbf]
        cases m with
        | true =>
          rw [if_pos rfl]
          rw [searchV_max_foldl, legalMoves_eq_filter]
          apply foldl_max_zeros
          · intro x hx
            obtain ⟨p, hp, rfl⟩ := List.mem_map.1 hx
            rfl
          · intro hnil
            exact hnonnil (by simpa using hnil)
        | false =>
          rw [if_neg (by decide : ¬(false = true))]
          rw [searchV_min_foldl, legalMoves_eq_filter]
          apply foldl_min_zeros
          · intro x hx
            obtain ⟨p, hp, rfl⟩ := List.mem_map.1 hx
            rfl
          · intro hnil
            exact hnonnil (by simpa using hnil)
    · have hcw : cwsN c1 c2 c3 c4 c5 c6 c7 c8 c9 = 1 := by rw [← winnerN_encM]; exact hwn
      have hxb : xWins (mkB c1 c2 c3 c4 c5 c6 c7 c8 c9) := (xWins_mkB c1 c2 c3 c4 c5 c6 c7 c8 c9).2 ((cwsN_wins c1 c2 c3 c4 c5 c6 c7 c8 c9).2.1 hcw)
      have hnob : ¬oWins (mkB c1 c2 c3 c4 c5 c6 c7 c8 c9) := fun h => hno ⟨hxb, h⟩
      rw [hw]
      rw [if_neg (by decide : ¬((some 'X' : Option Cell) = some 'O')), if_pos rfl,
        if_neg hnob, if_pos hxb]
    · have hcw : cwsN c1 c2 c3 c4 c5 c6 c7 c8 c9 = 2 := by rw [← winnerN_encM]; exact hwn
      have hob : oWins (mkB c1 c2 c3 c4 c5 c6 c7 c8 c9) := (oWins_mkB c1 c2 c3 c4 c5 c6 c7 c8 c9).2 ((cwsN_wins c1 c2 c3 c4 c5 c6 c7 c8 c9).2.2 hcw)
      rw [hw]
      rw [if_pos rfl, if_pos hob]
  | succ fuel ih =>
    intro c1 c2 c3 c4 c5 c6 c7 c8 c9 m hno
    show minimaxGo (minimaxVal fuel) (mkB c1 c2 c3 c4 c5 c6 c7 c8 c9) m = specValue (fuel + 1) (mkB c1 c2 c3 c4 c5 c6 c7 c8 c9) m
    simp only [minimaxGo, specValue]
    rcases cws_cases c1 c2 c3 c4 c5 c6 c7 c8 c9 with ⟨hw, hwn⟩ | ⟨hw, hwn⟩ | ⟨hw, hwn⟩
    · have hcw : cwsN c1 c2 c3 c4 c5 c6 c7 c8 c9 = 0 := by rw [← winnerN_encM]; exact hwn
      obtain ⟨hnx, hnoo⟩ := (cwsN_wins c1 c2 c3 c4 c5 c6 c7 c8 c9).1 hcw
      have hnxb : ¬xWins (mkB c1 c2 c3 c4 c5 c6 c7 c8 c9) := fun h => hnx ((xWins_mkB c1 c2 c3 c4 c5 c6 c7 c8 c9).1 h)
      have hnob : ¬oWins (mkB c1 c2 c3 c4 c5 c6 c7 c8 c9) := fun h => hnoo ((oWins_mkB c1 c2 c3 c4 c5 c6 c7 c8 c9).1 h)
      rw [hw]
      rw [if_neg (by decide : ¬((none : Option Cell) = some 'O')),
        if_neg (by decide : ¬((none : Option Cell) = some 'X')),
        if_neg hnob, if_neg hnxb]
      by_cases hfull : noEmptyM c1 c2 c3 c4 c5 c6 c7 c8 c9
      · rw [if_pos ((boardFull_mkB c1 c2 c3 c4 c5 c6 c7 c8 c9).2 hfull),
          if_pos ((legalMoves_nil_iff c1 c2 c3 c4 c5 c6 c7 c8 c9).2 hfull)]
      · have hbf : ¬(boardFull (mkB c1 c2 c3 c4 c5 c6 c7 c8 c9) = true) := fun h => hfull ((boardFull_mkB c1 c2 c3 c4 c5 c6 c7 c8 c9).1 h)
        have hnonnil : ¬(legalMoves (mkB c1 c2 c3 c4 c5 c6 c7 c8 c9) = []) :=
          fun h => hfull ((legalMoves_nil_iff c1 c2 c3 c4 c5 c6 c7 c8 c9).1 h)
        rw [if_neg hbf, if_neg hnonnil]
        cases m with
        | true =>
          rw [if_pos rfl, if_pos rfl]
          have hmapeq : ((legalMoves (mkB c1 c2 c3 c4 c5 c6 c7 c8 c9)).map
                fun p => specValue fuel (setCell (mkB c1 c2 c3 c4 c5 c6 c7 c8 c9) p.1 p.2 'O') false) =
              ((legalMoves (mkB c1 c2 c3 c4 c5 c6 c7 c8 c9)).map
                fun p => minimaxVal fuel (setCell (mkB c1 c2 c3 c4 c5 c6 c7 c8 c9) p.1 p.2 'O') false) := by
            apply List.map_congr_left
            intro p hp
            obtain ⟨d1, d2, d3, d4, d5, d6, d7, d8, d9, heq, hnb⟩ := childO_facts c1 c2 c3 c4 c5 c6 c7 c8 c9 hnx p hp
            rw [heq]
            exact (ih d1 d2 d3 d4 d5 d6 d7 d8 d9 false hnb).symm
          rw [searchV_max_foldl, legalMoves_eq_filter, hmapeq]
          cases hL : legalMoves (mkB c1 c2 c3 c4 c5 c6 c7 c8 c9) with
          | nil => exact absurd hL hnonnil
          | cons q rest =>
            simp only [List.map_cons]
            have hq : q ∈ legalMoves (mkB c1 c2 c3 c4 c5 c6 c7 c8 c9) := by
              rw [hL]; exact List.mem_cons_self q rest
            obtain ⟨d1, d2, d3, d4, d5, d6, d7, d8, d9, heq, hnb⟩ := childO_facts c1 c2 c3 c4 c5 c6 c7 c8 c9 hnx q hq
            have hin := minimaxVal_inS fuel d1 d2 d3 d4 d5 d6 d7 d8 d9 false
            rw [← heq] at hin
            obtain ⟨hlo, hhi⟩ := hin
            exact foldl_max_sentinel _ _ hlo
        | false =>
          rw [if_neg (by decide : ¬(false = true)), if_neg (by decide : ¬(false = true))]
          have hmapeq : ((legalMoves (mkB c1 c2 c3 c4 c5 c6 c7 c8 c9)).map
                fun p => specValue fuel (setCell (mkB c1 c2 c3 c4 c5 c6 c7 c8 c9) p.1 p.2 'X') true) =
              ((legalMoves (mkB c1 c2 c3 c4 c5 c6 c7 c8 c9)).map
                fun p => minimaxVal fuel (setCell (mkB c1 c2 c3 c4 c5 c6 c7 c8 c9) p.1 p.2 'X') true) := by
            apply List.map_congr_left
            intro p hp
            obtain ⟨d1, d2, d3, d4, d5, d6, d7, d8, d9, heq, hnb⟩ := childX_facts c1 c2 c3 c4 c5 c6 c7 c8 c9 hnoo p hp
            rw [heq]
            exact (ih d1 d2 d3 d4 d5 d6 d7 d8 d9 true hnb).symm
          rw [searchV_min_foldl, legalMoves_eq_filter, hmapeq]
          cases hL : legalMoves (mkB c1 c2 c3 c4 c5 c6 c7 c8 c9) with
          | nil => exact absurd hL hnonnil
          | cons q rest =>
            simp only [List.map_cons]
            have hq : q ∈ legalMoves (mkB c1 c2 c3 c4 c5 c6 c7 c8 c9) := by
              rw [hL]; exact List.mem_cons_self q rest
            obtain ⟨d1, d2, d3, d4, d5, d6, d7, d8, d9, heq, hnb⟩ := childX_facts c1 c2 c3 c4 c5 c6 c7 c8 c9 hnoo q hq
            have hin := minimaxVal_inS fuel d1 d2 d3 d4 d5 d6 d7 d8 d9 true
            rw [← heq] at hin
            obtain ⟨hlo, hhi⟩ := hin
            exact foldl_min_sentinel _ _ hhi
    · have hcw : cwsN c1 c2 c3 c4 c5 c6 c7 c8 c9 = 1 := by rw [← winnerN_encM]; exact hwn
      have hxb : xWins (mkB c1 c2 c3 c4 c5 c6 c7 c8 c9) := (xWins_mkB c1 c2 c3 c4 c5 c6 c7 c8 c9).2 ((cwsN_wins c1 c2 c3 c4 c5 c6 c7 c8 c9).2.1 hcw)
      have hnob : ¬oWins (mkB c1 c2 c3 c4 c5 c6 c7 c8 c9) := fun h => hno ⟨hxb, h⟩
      rw [hw]
      rw [if_neg (by decide : ¬((some 'X' : Option Cell) = some 'O')), if_pos rfl,
        if_neg hnob, if_pos hxb]
    · have hcw : cwsN c1 c2 c3 c4 c5 c6 c7 c8 c9 = 2 := by rw [← winnerN_encM]; exact hwn
      have hob : oWins (mkB c1 c2 c3 c4 c5 c6 c7 c8 c9) := (oWins_mkB c1 c2 c3 c4 c5 c6 c7 c8 c9).2 ((cwsN_wins c1 c2 c3 c4 c5 c6 c7 c8 c9).2.2 hcw)
      rw [hw]
      rw [if_pos rfl, if_pos hob]

theorem mem_allPositions_posPow (p : Pos) (hp : p ∈ allPositions) :
    ∃ pp ∈ posPow, pp.1 = p := by
  rw [← posPow_fst] at hp
  obtain ⟨pp, hpp, hfst⟩ := List.mem_map.1 hp
  exact ⟨pp, hpp, hfst⟩

/-- Writing an `'O'` into an empty cell changes that cell and no
other. -/
theorem setCell_frame_O (c1 c2 c3 c4 c5 c6 c7 c8 c9 : Mark) (pp : Pos × Nat) (hpp : pp ∈ posPow) :
    getCell (setCell (mkB c1 c2 c3 c4 c5 c6 c7 c8 c9) pp.1.1 pp.1.2 'O') pp.1.1 pp.1.2 = 'O' ∧
    ∀ q ∈ allPositions, q ≠ pp.1 →
      getCell (setCell (mkB c1 c2 c3 c4 c5 c6 c7 c8 c9) pp.1.1 pp.1.2 'O') q.1 q.2 =
        getCell (mkB c1 c2 c3 c4 c5 c6 c7 c8 c9) q.1 q.2 := by
  simp only [posPow, List.mem_cons, List.not_mem_nil, or_false] at hpp
  rcases hpp with rfl | rfl | rfl | rfl | rfl | rfl | rfl | rfl | rfl <;>
    (refine ⟨rfl, fun q hq hne2 => ?_⟩
     simp only [allPositions, List.mem_cons, List.not_mem_nil, or_false] at hq
     rcases hq with rfl | rfl | rfl | rfl | rfl | rfl | rfl | rfl | rfl <;>
       first
       | rfl
       | exact absurd rfl hne2)

/-- The chained comparison `a == b == c == turn` of the win scans. -/
def chain3 (a b c t : Cell) : Bool := (a == b) && (b == c) && (c == t)

/-- `Game.checkWin_for_turn` (Part C; the Part A `checkWin` runs the
same scan on the active player): rows 0..2, then columns 0..2, then the
two diagonals. -/
def checkWin_for_turn (bd : Board) (turn : Cell) : Bool :=
  chain3 (getCell bd 0 0) (getCell bd 0 1) (getCell bd 0 2) turn ||
  chain3 (getCell bd 1 0) (getCell bd 1 1) (getCell bd 1 2) turn ||
  chain3 (getCell bd 2 0) (getCell bd 2 1) (getCell bd 2 2) turn ||
  chain3 (getCell bd 0 0) (getCell bd 1 0) (getCell bd 2 0) turn ||
  chain3 (getCell bd 0 1) (getCell bd 1 1) (getCell bd 2 1) turn ||
  chain3 (getCell bd 0 2) (getCell bd 1 2) (getCell bd 2 2) turn ||
  chain3 (getCell bd 0 0) (getCell bd 1 1) (getCell bd 2 2) turn ||
  chain3 (getCell bd 0 2) (getCell bd 1 1) (getCell bd 2 0) turn

/-- The four outcomes the Part C `checkEnd` announces. -/
inductive GameOutcome
  | winX
  | winO
  | draw
  | ongoing
deriving DecidableEq

/-- `Game.checkEnd` (Part C), each printed announcement read as the
outcome it reports: the first player's win is tested first, then the
second player's, then fullness. -/
def checkEndC (b : Board) : GameOutcome :=
  if checkWin_for_turn b 'X' then GameOutcome.winX
  else if checkWin_for_turn b 'O' then GameOutcome.winO
  else if checkFull b then GameOutcome.draw
  else GameOutcome.ongoing

theorem chain3_iff (a b c t : Cell) : chain3 a b c t = true ↔ a = t ∧ b = t ∧ c = t := by
  simp only [chain3, Bool.and_eq_true, beq_iff_eq]
  constructor
  · rintro ⟨⟨h1, h2⟩, h3⟩
    subst h3; subst h2; subst h1
    exact ⟨rfl, rfl, rfl⟩
  · rintro ⟨rfl, rfl, rfl⟩
    exact ⟨⟨rfl, rfl⟩, rfl⟩

theorem checkWin_iff_hasWin (b : Board) (t : Cell) :
    checkWin_for_turn b t = true ↔ hasWin b t := by
  simp [checkWin_for_turn, chain3_iff, hasWin, winLines, or_assoc]

/-- `Game.validateEntry` (Parts A, B and C share the logic): the
coordinates must lie in 0..2, and the target cell must be empty; the
cell is read only after the range test passes. -/
def validateEntry (b : Board) (row col : Int) : Bool :=
  if ¬(0 ≤ row ∧ row ≤ 2 ∧ 0 ≤ col ∧ col ≤ 2) then false
  else if getCell b row.toNat col.toNat != ' ' then false
  else true

/-- A move attempt as `Game.playGame` (Part A) and `Game.human_move`
(Part C) perform it: the mark is written only when `validateEntry`
accepts; a rejected attempt leaves the board exactly as it was. -/
def tryMove (b : Board) (turn : Cell) (row col : Int) : Board × Bool :=
  if validateEntry b row col then (setCell b row.toNat col.toNat turn, true)
  else (b, false)

/-- `Game.switchPlayer` (Part A). -/
def switchPlayer (t : Cell) : Cell := if t == 'X' then 'O' else 'X'

/-- `Game.checkEnd` (Part A): the active player's win, then fullness. -/
def checkEndA (b : Board) (turn : Cell) : Bool :=
  if checkWin_for_turn b turn then true
  else if checkFull b then true
  else false

/-- One iteration of the Part A `playGame` loop after an accepted entry:
the active player's mark is placed; when the game is not over the
active player is switched. -/
def playStep (b : Board) (turn : Cell) (p : Pos) : Board × Cell × Bool :=
  let b1 := setCell b p.1 p.2 turn
  if checkEndA b1 turn then (b1, turn, true)
  else (b1, switchPlayer turn, false)

/-- A sequence of accepted moves; once the game has ended the state no
longer changes. -/
def runMoves : List Pos → Board × Cell × Bool → Board × Cell × Bool
  | [], s => s
  | p :: ps, (b, turn, ended) =>
    if ended then (b, turn, ended)
    else runMoves ps (playStep b turn p)

theorem runMoves_ended : ∀ (ms : List Pos) (b : Board) (t : Cell),
    runMoves ms (b, t, true) = (b, t, true) := by
  intro ms
  induction ms with
  | nil => intro b t; rfl
  | cons p ps ih => intro b t; simp [runMoves]

theorem runMoves_cons (p : Pos) (ps : List Pos) (b : Board) (t : Cell) :
    runMoves (p :: ps) (b, t, false) = runMoves ps (playStep b t p) := by
  simp [runMoves]

/-- Parity of the active player along a run of accepted moves that
never reaches a terminal state. -/
theorem runMoves_parity : ∀ (ms : List Pos) (b : Board) (t : Cell),
    (t = 'X' ∨ t = 'O') →
    (runMoves ms (b, t, false)).2.2 = false →
    (runMoves ms (b, t, false)).2.1 =
      if ms.length % 2 = 0 then t else switchPlayer t := by
  intro ms
  induction ms with
  | nil =>
    intro b t ht hend
    show t = if 0 % 2 = 0 then t else switchPlayer t
    rw [if_pos rfl]
  | cons p ps ih =>
    intro b t ht hend
    rw [runMoves_cons] at hend ⊢
    by_cases hce : checkEndA (setCell b p.1 p.2 t) t = true
    · have hps : playStep b t p = (setCell b p.1 p.2 t, t, true) := by
        simp only [playStep]
        rw [if_pos hce]
      rw [hps, runMoves_ended] at hend
      simp at hend
    · have hps : playStep b t p = (setCell b p.1 p.2 t, switchPlayer t, false) := by
        simp only [playStep]
        rw [if_neg hce]
      rw [hps] at hend ⊢
      have ht1 : switchPlayer t = 'X' ∨ switchPlayer t = 'O' := by
        rcases ht with rfl | rfl
        · right; rfl
        · left; rfl
      rw [ih (setCell b p.1 p.2 t) (switchPlayer t) ht1 hend]
      simp only [List.length_cons]
      by_cases hpar : ps.length % 2 = 0
      · rw [if_pos hpar, if_neg (show ¬(ps.length + 1) % 2 = 0 by omega)]
      · rw [if_neg hpar, if_pos (show (ps.length + 1) % 2 = 0 by omega)]
        rcases ht with rfl | rfl <;> rfl

/-- The Part C feature mapping `{'X': 1, 'O': -1, ' ': 0}`; a lookup of
any other character would raise, hence the `Option`. -/
def featureMapping (c : Cell) : Option Int :=
  if c == 'X' then some 1
  else if c == 'O' then some (-1)
  else if c == ' ' then some 0
  else none

/-- `Game.board_to_model_features` (Part C): the row-major
comprehension over the nine cells. -/
def board_to_model_features (b : Board) : Option (List Int) := do
  let v1 ← featureMapping (getCell b 0 0)
  let v2 ← featureMapping (getCell b 0 1)
  let v3 ← featureMapping (getCell b 0 2)
  let v4 ← featureMapping (getCell b 1 0)
  let v5 ← featureMapping (getCell b 1 1)
  let v6 ← featureMapping (getCell b 1 2)
  let v7 ← featureMapping (getCell b 2 0)
  let v8 ← featureMapping (getCell b 2 1)
  let v9 ← featureMapping (getCell b 2 2)
  pure [v1, v2, v3, v4, v5, v6, v7, v8, v9]

/-- The spec side of C8: the inverse feature mapping. -/
def decodeFeat (v : Int) : Cell :=
  if v = 1 then 'X' else if v = -1 then 'O' else ' '

/-- The spec side of C8: rebuilding a board from a row-major length-9
feature vector. -/
def featuresToBoard (l : List Int) : Board :=
  [[decodeFeat (l.getD 0 0), decodeFeat (l.getD 1 0), decodeFeat (l.getD 2 0)],
   [decodeFeat (l.getD 3 0), decodeFeat (l.getD 4 0), decodeFeat (l.getD 5 0)],
   [decodeFeat (l.getD 6 0), decodeFeat (l.getD 7 0), decodeFeat (l.getD 8 0)]]

/-- Feature value of a mark. -/
def featM : Mark → Int
  | Mark.mx => 1
  | Mark.mo => -1
  | Mark.me => 0

theorem featureMapping_ch (x : Mark) : featureMapping x.ch = some (featM x) := by
  cases x <;> rfl

theorem decodeFeat_featM (x : Mark) : decodeFeat (featM x) = x.ch := by
  cases x <;> rfl

/-- C1 (amended to boards where the two players do not both hold
completed lines): on every well-formed such board the value computed by
`Game.minimax` equals the reference game value worded by the spec, at
every search depth. -/
theorem claim_C1 (fuel : Nat) (b : Board) (m : Bool) (hok : okBoard b)
    (hno : ¬(xWins b ∧ oWins b)) :
    minimaxVal fuel b m = specValue fuel b m := by
  obtain ⟨c1, c2, c3, c4, c5, c6, c7, c8, c9, rfl⟩ := okBoard_mkB_exists b hok
  exact minimaxVal_eq_specValue_mkB fuel c1 c2 c3 c4 c5 c6 c7 c8 c9 m hno

/-- C1 counterexample: on a well-formed board where both players hold
completed lines, the claimed reference value is +1 (the second player
has a completed line) but the program returns -1, because the winner
scan reports the first player's row first. -/
theorem claim_C1_counterexample :
    okBoard [['X', 'X', 'X'], ['O', 'O', 'O'], [' ', ' ', ' ']] ∧
    oWins [['X', 'X', 'X'], ['O', 'O', 'O'], [' ', ' ', ' ']] ∧
    minimaxVal 3 [['X', 'X', 'X'], ['O', 'O', 'O'], [' ', ' ', ' ']] true = -1 ∧
    specValue 3 [['X', 'X', 'X'], ['O', 'O', 'O'], [' ', ' ', ' ']] true = 1 := by
  refine ⟨by decide, by decide, by decide, by decide⟩

/-- Witness for C1 at the empty board and depth 0. -/
theorem claim_C1_witness :
    okBoard emptyBoard ∧ ¬(xWins emptyBoard ∧ oWins emptyBoard) ∧
    minimaxVal 0 emptyBoard true = specValue 0 emptyBoard true :=
  ⟨by decide, by decide, claim_C1 0 emptyBoard true (by decide) (by decide)⟩

/-- C2: the minimax search has no net effect on the caller's board, and
`Game.computer_move` changes exactly one cell, the chosen one, from
empty to the second player's mark. -/
theorem claim_C2 (b : Board) (hok : okBoard b) (hne : 1 ≤ emptyCount b) :
    (∀ (fuel : Nat) (b1 : Board) (m : Bool), (minimaxS fuel b1 m).2 = b1) ∧
    ∃ p ∈ allPositions,
      getCell b p.1 p.2 = ' ' ∧
      (computer_moveS b).1 = setCell b p.1 p.2 'O' ∧
      getCell (computer_moveS b).1 p.1 p.2 = 'O' ∧
      ∀ q ∈ allPositions, q ≠ p →
        getCell (computer_moveS b).1 q.1 q.2 = getCell b q.1 q.2 := by
  refine ⟨fun fuel b1 m => by simp [minimaxS_eq], ?_⟩
  obtain ⟨p, heq, hmem, hemp, hsc, hfind⟩ := computer_moveS_spec b hok hne
  obtain ⟨c1, c2, c3, c4, c5, c6, c7, c8, c9, rfl⟩ := okBoard_mkB_exists b hok
  obtain ⟨pp, hpp, hfst⟩ := mem_allPositions_posPow p hmem
  subst hfst
  have hfr := setCell_frame_O c1 c2 c3 c4 c5 c6 c7 c8 c9 pp hpp
  refine ⟨pp.1, hmem, hemp, by simp [heq], ?_, ?_⟩
  · rw [heq]
    exact hfr.1
  · intro q hq hne2
    rw [heq]
    exact hfr.2 q hq hne2

/-- Witness for C2 at the empty board. -/
theorem claim_C2_witness :
    okBoard emptyBoard ∧ 1 ≤ emptyCount emptyBoard ∧
    ((∀ (fuel : Nat) (b1 : Board) (m : Bool), (minimaxS fuel b1 m).2 = b1) ∧
     ∃ p ∈ allPositions,
       getCell emptyBoard p.1 p.2 = ' ' ∧
       (computer_moveS emptyBoard).1 = setCell emptyBoard p.1 p.2 'O' ∧
       getCell (computer_moveS emptyBoard).1 p.1 p.2 = 'O' ∧
       ∀ q ∈ allPositions, q ≠ p →
         getCell (computer_moveS emptyBoard).1 q.1 q.2 = getCell emptyBoard q.1 q.2) :=
  ⟨by decide, by decide, claim_C2 emptyBoard (by decide) (by decide)⟩

/-- C3: the move `Game.computer_move` keeps is the first cell in the
row-major enumeration whose simulated score reaches the maximum over
all empty cells; later equal scores never replace it. -/
theorem claim_C3 (b : Board) (hok : okBoard b) (hne : 1 ≤ emptyCount b) :
    ∃ p : Pos,
      (computer_moveS b).2 = some p ∧
      getCell b p.1 p.2 = ' ' ∧
      moveScore b p = foldBest b allPositions (-999) ∧
      (∀ q ∈ allPositions, getCell b q.1 q.2 = ' ' →
        moveScore b q ≤ moveScore b p) ∧
      allPositions.find? (fun q => decide (getCell b q.1 q.2 = ' ') &&
        (moveScore b q == foldBest b allPositions (-999))) = some p := by
  obtain ⟨p, heq, hmem, hemp, hsc, hfind⟩ := computer_moveS_spec b hok hne
  refine ⟨p, by simp [heq], hemp, hsc, ?_, hfind⟩
  intro q hq hqe
  rw [hsc]
  exact score_le_foldBest b allPositions (-999) q hq hqe

/-- Witness for C3 at the empty board. -/
theorem claim_C3_witness :
    okBoard emptyBoard ∧ 1 ≤ emptyCount emptyBoard ∧
    ∃ p : Pos,
      (computer_moveS emptyBoard).2 = some p ∧
      getCell emptyBoard p.1 p.2 = ' ' ∧
      moveScore emptyBoard p = foldBest emptyBoard allPositions (-999) ∧
      (∀ q ∈ allPositions, getCell emptyBoard q.1 q.2 = ' ' →
        moveScore emptyBoard q ≤ moveScore emptyBoard p) ∧
      allPositions.find? (fun q => decide (getCell emptyBoard q.1 q.2 = ' ') &&
        (moveScore emptyBoard q == foldBest emptyBoard allPositions (-999))) = some p :=
  ⟨by decide, by decide, claim_C3 emptyBoard (by decide) (by decide)⟩

/-- C4: on the empty board, every one of the nine first moves of the
second player scores 0 under the exhaustive search, and the cell
`Game.computer_move` chooses is (0, 0), the first cell of the row-major
enumeration achieving that maximum. -/
theorem claim_C4 :
    (computer_moveS emptyBoard).2 = some (0, 0) ∧
    (computer_moveS emptyBoard).1 = setCell emptyBoard 0 0 'O' ∧
    ∀ p ∈ allPositions, moveScore emptyBoard p = 0 := by
  have hok : okBoard emptyBoard := by decide
  have hne : 1 ≤ emptyCount emptyBoard := by decide
  have hscores : ∀ p ∈ allPositions, moveScore emptyBoard p = 0 := by
    intro p hp
    simp only [allPositions, List.mem_cons, List.not_mem_nil, or_false] at hp
    rcases hp with rfl | rfl | rfl | rfl | rfl | rfl | rfl | rfl | rfl
    · show minimaxVal 9 (mkB Mark.mo Mark.me Mark.me Mark.me Mark.me Mark.me Mark.me Mark.me Mark.me) false = 0
      rw [minimaxVal_lookB 9 Mark.mo Mark.me Mark.me Mark.me Mark.me Mark.me Mark.me Mark.me Mark.me false (by decide)]
      decide
    · show minimaxVal 9 (mkB Mark.me Mark.mo Mark.me Mark.me Mark.me Mark.me Mark.me Mark.me Mark.me) false = 0
      rw [minimaxVal_lookB 9 Mark.me Mark.mo Mark.me Mark.me Mark.me Mark.me Mark.me Mark.me Mark.me false (by decide)]
      decide
    · show minimaxVal 9 (mkB Mark.me Mark.me Mark.mo Mark.me Mark.me Mark.me Mark.me Mark.me Mark.me) false = 0
      rw [minimaxVal_lookB 9 Mark.me Mark.me Mark.mo Mark.me Mark.me Mark.me Mark.me Mark.me Mark.me false (by decide)]
      decide
    · show minimaxVal 9 (mkB Mark.me Mark.me Mark.me Mark.mo Mark.me Mark.me Mark.me Mark.me Mark.me) false = 0
      rw [minimaxVal_lookB 9 Mark.me Mark.me Mark.me Mark.mo Mark.me Mark.me Mark.me Mark.me Mark.me false (by decide)]
      decide
    · show minimaxVal 9 (mkB Mark.me Mark.me Mark.me Mark.me Mark.mo Mark.me Mark.me Mark.me Mark.me) false = 0
      rw [minimaxVal_lookB 9 Mark.me Mark.me Mark.me Mark.me Mark.mo Mark.me Mark.me Mark.me Mark.me false (by decide)]
      decide
    · show minimaxVal 9 (mkB Mark.me Mark.me Mark.me Mark.me Mark.me Mark.mo Mark.me Mark.me Mark.me) false = 0
      rw [minimaxVal_lookB 9 Mark.me Mark.me Mark.me Mark.me Mark.me Mark.mo Mark.me Mark.me Mark.me false (by decide)]
      decide
    · show minimaxVal 9 (mkB Mark.me Mark.me Mark.me Mark.me Mark.me Mark.me Mark.mo Mark.me Mark.me) false = 0
      rw [minimaxVal_lookB 9 Mark.me Mark.me Mark.me Mark.me Mark.me Mark.me Mark.mo Mark.me Mark.me false (by decide)]
      decide
    · show minimaxVal 9 (mkB Mark.me Mark.me Mark.me Mark.me Mark.me Mark.me Mark.me Mark.mo Mark.me) false = 0
      rw [minimaxVal_lookB 9 Mark.me Mark.me Mark.me Mark.me Mark.me Mark.me Mark.me Mark.mo Mark.me false (by decide)]
      decide
    · show minimaxVal 9 (mkB Mark.me Mark.me Mark.me Mark.me Mark.me Mark.me Mark.me Mark.me Mark.mo) false = 0
      rw [minimaxVal_lookB 9 Mark.me Mark.me Mark.me Mark.me Mark.me Mark.me Mark.me Mark.me Mark.mo false (by decide)]
      decide
  obtain ⟨p, heq, hmem, hemp, hsc, hfind⟩ := computer_moveS_spec emptyBoard hok hne
  have hfold : foldBest emptyBoard allPositions (-999) = 0 := by
    unfold foldBest
    apply foldl_max_zeros
    · intro x hx
      obtain ⟨q, hq, rfl⟩ := List.mem_map.1 hx
      exact hscores q (List.mem_filter.1 hq).1
    · intro hnil
      rw [List.map_eq_nil_iff] at hnil
      exact absurd hnil (by decide)
  have hfind0 : allPositions.find?
      (fun q => decide (getCell emptyBoard q.1 q.2 = ' ') &&
        (moveScore emptyBoard q == foldBest emptyBoard allPositions (-999))) =
      some ((0, 0) : Pos) := by
    have hpred : (decide (getCell emptyBoard ((0, 0) : Pos).1 ((0, 0) : Pos).2 = ' ') &&
        (moveScore emptyBoard ((0, 0) : Pos) ==
          foldBest emptyBoard allPositions (-999))) = true := by
      rw [hfold, hscores (0, 0) (by decide)]
      decide
    exact List.find?_cons_of_pos _ hpred
  rw [hfind0] at hfind
  have hp00 : p = ((0, 0) : Pos) := (Option.some_inj.1 hfind).symm
  subst hp00
  exact ⟨by simp [heq], by simp [heq], hscores⟩

/-- C5: the Part C outcome evaluation tests the first player's win,
then the second player's, then fullness; a board where both players
hold completed lines resolves to the first player's win, and a full
board with no line resolves to a draw. -/
theorem claim_C5 (b : Board) :
    (xWins b → checkEndC b = GameOutcome.winX) ∧
    (¬xWins b → oWins b → checkEndC b = GameOutcome.winO) ∧
    (¬xWins b → ¬oWins b → checkFull b = true → checkEndC b = GameOutcome.draw) ∧
    (¬xWins b → ¬oWins b → checkFull b = false → checkEndC b = GameOutcome.ongoing) ∧
    checkEndC [['X', 'X', 'X'], ['O', 'O', 'O'], [' ', ' ', ' ']] = GameOutcome.winX := by
  refine ⟨fun hx => ?_, fun hnx ho => ?_, fun hnx hno hf => ?_, fun hnx hno hf => ?_,
    by decide⟩
  · unfold checkEndC
    rw [if_pos ((checkWin_iff_hasWin b 'X').2 hx)]
  · unfold checkEndC
    rw [if_neg (fun h => hnx ((checkWin_iff_hasWin b 'X').1 h)),
      if_pos ((checkWin_iff_hasWin b 'O').2 ho)]
  · unfold checkEndC
    rw [if_neg (fun h => hnx ((checkWin_iff_hasWin b 'X').1 h)),
      if_neg (fun h => hno ((checkWin_iff_hasWin b 'O').1 h)), if_pos hf]
  · unfold checkEndC
    rw [if_neg (fun h => hnx ((checkWin_iff_hasWin b 'X').1 h)),
      if_neg (fun h => hno ((checkWin_iff_hasWin b 'O').1 h)),
      if_neg (fun h => by rw [hf] at h; cases h)]

/-- C6: a rejected move — coordinate out of 0..2 or target cell
occupied — changes nothing: the board after the attempt is the board
before it, and the mark is placed exactly when validation succeeds. -/
theorem claim_C6 (b : Board) (turn : Cell) (row col : Int) :
    (validateEntry b row col = false ↔
      ¬(0 ≤ row ∧ row ≤ 2 ∧ 0 ≤ col ∧ col ≤ 2) ∨
        ¬getCell b row.toNat col.toNat = ' ') ∧
    (validateEntry b row col = false → tryMove b turn row col = (b, false)) ∧
    (validateEntry b row col = true →
      tryMove b turn row col = (setCell b row.toNat col.toNat turn, true)) := by
  refine ⟨?_, fun hv => ?_, fun hv => ?_⟩
  · unfold validateEntry
    by_cases h1 : 0 ≤ row ∧ row ≤ 2 ∧ 0 ≤ col ∧ col ≤ 2
    · rw [if_neg (not_not_intro h1)]
      by_cases h2 : getCell b row.toNat col.toNat = ' '
      · rw [if_neg (by simp [h2])]
        refine iff_of_false (by simp) ?_
        push_neg
        exact ⟨h1, h2⟩
      · rw [if_pos (by simpa using h2)]
        exact iff_of_true rfl (Or.inr h2)
    · rw [if_pos h1]
      exact iff_of_true rfl (Or.inl h1)
  · unfold tryMove
    rw [hv]
    simp
  · unfold tryMove
    rw [hv]
    simp

/-- C7: from the empty board with the first player active, a run of
accepted moves that never reaches a terminal state leaves the first
player active after an even number of moves and the second player after
an odd number; each accepted non-terminal move switches the active
player exactly once. -/
theorem claim_C7 (ms : List Pos) (b : Board) (turn : Cell) (p : Pos) :
    ((runMoves ms (emptyBoard, 'X', false)).2.2 = false →
      (runMoves ms (emptyBoard, 'X', false)).2.1 =
        if ms.length % 2 = 0 then 'X' else 'O') ∧
    ((playStep b turn p).2.2 = false →
      (playStep b turn p).2.1 = switchPlayer turn) ∧
    switchPlayer 'X' = 'O' ∧ switchPlayer 'O' = 'X' := by
  refine ⟨fun hend => ?_, fun hstep => ?_, rfl, rfl⟩
  · exact runMoves_parity ms emptyBoard 'X' (Or.inl rfl) hend
  · simp only [playStep] at hstep ⊢
    by_cases hce : checkEndA (setCell b p.1 p.2 turn) turn = true
    · rw [if_pos hce] at hstep
      simp at hstep
    · rw [if_neg hce]

/-- C8: the feature encoding is the row-major length-9 vector mapping
the first player's mark to +1, the second player's to -1 and an empty
cell to 0, and the spec's inverse mapping rebuilds the board exactly. -/
theorem claim_C8 (b : Board) (hok : okBoard b) :
    ∃ l : List Int,
      board_to_model_features b = some l ∧
      l.length = 9 ∧
      (∀ i, i < 9 →
        featureMapping (getCell b (i / 3) (i % 3)) = some (l.getD i 0)) ∧
      featuresToBoard l = b := by
  obtain ⟨c1, c2, c3, c4, c5, c6, c7, c8, c9, rfl⟩ := okBoard_mkB_exists b hok
  refine ⟨[featM c1, featM c2, featM c3, featM c4, featM c5, featM c6, featM c7,
    featM c8, featM c9], ?_, rfl, ?_, ?_⟩
  · simp only [board_to_model_features, getCell_mk1, getCell_mk2, getCell_mk3,
      getCell_mk4, getCell_mk5, getCell_mk6, getCell_mk7, getCell_mk8, getCell_mk9,
      featureMapping_ch]
    rfl
  · intro i hi
    interval_cases i
    · exact featureMapping_ch c1
    · exact featureMapping_ch c2
    · exact featureMapping_ch c3
    · exact featureMapping_ch c4
    · exact featureMapping_ch c5
    · exact featureMapping_ch c6
    · exact featureMapping_ch c7
    · exact featureMapping_ch c8
    · exact featureMapping_ch c9
  · show [[decodeFeat (featM c1), decodeFeat (featM c2), decodeFeat (featM c3)],
          [decodeFeat (featM c4), decodeFeat (featM c5), decodeFeat (featM c6)],
          [decodeFeat (featM c7), decodeFeat (featM c8), decodeFeat (featM c9)]] =
        mkB c1 c2 c3 c4 c5 c6 c7 c8 c9
    simp only [decodeFeat_featM]
    rfl

/-- Witness for C8 at the empty board. -/
theorem claim_C8_witness :
    okBoard emptyBoard ∧
    ∃ l : List Int,
      board_to_model_features emptyBoard = some l ∧
      l.length = 9 ∧
      (∀ i, i < 9 →
        featureMapping (getCell emptyBoard (i / 3) (i % 3)) = some (l.getD i 0)) ∧
      featuresToBoard l = emptyBoard :=
  ⟨by decide, claim_C8 emptyBoard (by decide)⟩

/-- C9: on a well-formed board every recursive call of the search works
on a board with strictly fewer empty cells, and once the depth reaches
the number of empty cells the computed value no longer depends on it. -/
theorem claim_C9 (b : Board) (m : Bool) (hok : okBoard b) :
    (∀ p ∈ allPositions, getCell b p.1 p.2 = ' ' →
      emptyCount (setCell b p.1 p.2 'O') < emptyCount b ∧
      emptyCount (setCell b p.1 p.2 'X') < emptyCount b) ∧
    ∀ fuel, emptyCount b ≤ fuel →
      minimaxVal fuel b m = minimaxVal (emptyCount b) b m := by
  obtain ⟨c1, c2, c3, c4, c5, c6, c7, c8, c9, rfl⟩ := okBoard_mkB_exists b hok
  constructor
  · intro p hp hpe
    obtain ⟨pp, hpp, hfst⟩ := mem_allPositions_posPow p hp
    subst hfst
    obtain ⟨⟨hok1, henc1, hec1⟩, hok2, henc2, hec2⟩ := coh_child c1 c2 c3 c4 c5 c6 c7 c8 c9 pp hpp hpe
    omega
  · intro fuel hfuel
    rw [minimaxVal_lookB fuel c1 c2 c3 c4 c5 c6 c7 c8 c9 m hfuel,
      minimaxVal_lookB (emptyCount (mkB c1 c2 c3 c4 c5 c6 c7 c8 c9)) c1 c2 c3 c4 c5 c6 c7 c8 c9 m le_rfl]

/-- Witness for C9 at the empty board. -/
theorem claim_C9_witness :
    okBoard emptyBoard ∧
    ((∀ p ∈ allPositions, getCell emptyBoard p.1 p.2 = ' ' →
       emptyCount (setCell emptyBoard p.1 p.2 'O') < emptyCount emptyBoard ∧
       emptyCount (setCell emptyBoard p.1 p.2 'X') < emptyCount emptyBoard) ∧
     ∀ fuel, emptyCount emptyBoard ≤ fuel →
       minimaxVal fuel emptyBoard true = minimaxVal (emptyCount emptyBoard) emptyBoard true) :=
  ⟨by decide, claim_C9 emptyBoard true (by decide)⟩

/-- C10: on every well-formed board the minimax value lies in -1..1 —
the sentinels never escape — and whenever an empty cell exists the move
`Game.computer_move` keeps is never `none`. -/
theorem claim_C10 (fuel : Nat) (b : Board) (m : Bool) (hok : okBoard b) :
    (-1 ≤ minimaxVal fuel b m ∧ minimaxVal fuel b m ≤ 1) ∧
    (1 ≤ emptyCount b → ∃ p : Pos, (computer_moveS b).2 = some p) := by
  constructor
  · obtain ⟨c1, c2, c3, c4, c5, c6, c7, c8, c9, rfl⟩ := okBoard_mkB_exists b hok
    exact minimaxVal_inS fuel c1 c2 c3 c4 c5 c6 c7 c8 c9 m
  · intro hne
    obtain ⟨p, heq, hmem, hemp, hsc, hfind⟩ := computer_moveS_spec b hok hne
    exact ⟨p, by simp [heq]⟩

/-- Witness for C10 at the empty board and depth 0. -/
theorem claim_C10_witness :
    okBoard emptyBoard ∧
    ((-1 ≤ minimaxVal 0 emptyBoard true ∧ minimaxVal 0 emptyBoard true ≤ 1) ∧
     (1 ≤ emptyCount emptyBoard → ∃ p : Pos, (computer_moveS emptyBoard).2 = some p)) :=
  ⟨by decide, claim_C10 0 emptyBoard true (by decide)⟩

end TicTacToe
